import Mathlib

/-!
# kolko.cpp : a console tic-tac-toe

Shallow embedding of `src/kolko.cpp`.

* C++ `int` cell values, pieces and indices are `Int`; the program only compares and
  copies them (the only arithmetic is `count++` up to 3 and `2 - i` for `i < 3`), so no
  machine overflow can occur.
* `vector<vector<int>>` is `List (List Int)`.  An access `table[i][j]` outside the grid is
  undefined behaviour in C++; every function that performs such an access returns `none`.
* Console input is the list of well-formed `(row, column)` pairs typed by the humans;
  console output is accumulated in a `String`.
-/

namespace Kolko

/-! ## Data model -/

/-- `enum GameStatus {IN_PROGRESS, X_WON, O_WON, DRAW}` -/
inductive GameStatus where
  | IN_PROGRESS
  | X_WON
  | O_WON
  | DRAW
  deriving DecidableEq, Repr

/-- `class Move` : an immutable triple `(i, j, piece)` -/
structure Move where
  i : Int
  j : Int
  piece : Int
  deriving DecidableEq, Repr

/-- `class Board` : the private `table` of cell values, `-1` meaning Empty -/
structure Board where
  table : List (List Int)
  deriving DecidableEq, Repr

namespace Board

/-- `Board(int N, int M)` : `table.resize(N, vector<int>(M, -1))` -/
def new (N M : Nat) : Board :=
  ⟨List.replicate N (List.replicate M (-1))⟩

/-- `getRows()` : `table.size()` -/
def getRows (b : Board) : Nat := b.table.length

/-- `getCols()` : `table[0].size()`, undefined on a board without rows -/
def getCols (b : Board) : Option Nat :=
  match b.table with
  | [] => none
  | row :: _ => some row.length

/-- `get(i, j)` : `table[i][j]`; `none` when the access is outside the grid -/
def get (b : Board) (i j : Int) : Option Int :=
  if 0 ≤ i ∧ 0 ≤ j then
    match b.table[i.toNat]? with
    | none => none
    | some row => row[j.toNat]?
  else none

/-- `set(m)` : writes the piece when the target cell is `-1` and returns `true`,
otherwise returns `false`; `none` when the target is outside the grid -/
def set (b : Board) (m : Move) : Option (Bool × Board) :=
  match b.get m.i m.j with
  | none => none
  | some v =>
    if v = -1 then
      some (true,
        ⟨b.table.set m.i.toNat ((b.table.getD m.i.toNat []).set m.j.toNat m.piece)⟩)
    else
      some (false, b)

/-- inner loop of `full()` : `for (int cell : row) if (cell == -1) return false;`
(`true` when the loop leaves through the `return false`) -/
def rowHasEmpty : List Int → Bool
  | [] => false
  | cell :: rest => if cell = -1 then true else rowHasEmpty rest

/-- outer loop of `full()` over the remaining rows -/
def fullFrom : List (List Int) → Bool
  | [] => true
  | row :: rows => if rowHasEmpty row then false else fullFrom rows

/-- `full()` -/
def full (b : Board) : Bool := fullFrom b.table

/-- the character printed for one cell: `cell == -1 ? '.' : (cell == 0 ? 'O' : 'X')` -/
def cellChar (cell : Int) : Char :=
  if cell = -1 then '.' else if cell = 0 then 'O' else 'X'

/-- inner loop of `print()` : each cell followed by a space -/
def printRow : List Int → String
  | [] => ""
  | cell :: rest => String.singleton (cellChar cell) ++ " " ++ printRow rest

/-- outer loop of `print()` : each row followed by a newline -/
def printRows : List (List Int) → String
  | [] => ""
  | row :: rows => printRow row ++ "\n" ++ printRows rows

/-- `print()` : the text written to `cout` -/
def print (b : Board) : String := printRows b.table

/-- the board is a rectangular `N × M` grid, as `Board(N, M)` builds it -/
def IsGrid (b : Board) (N M : Nat) : Prop :=
  b.table.length = N ∧ ∀ row ∈ b.table, row.length = M

instance (b : Board) (N M : Nat) : Decidable (b.IsGrid N M) := by
  unfold IsGrid; infer_instance

end Board

/-! ## Move sources -/

/-- `class Player` : a name and the piece (`0` for O, `1` for X) -/
structure Player where
  name : String
  symbol : Int
  deriving DecidableEq, Repr

namespace Player

/-- `Player(string name, char symbol)` : `symbol == 'O' ? 0 : 1` -/
def new (name : String) (symbol : Char) : Player :=
  ⟨name, if symbol = 'O' then 0 else 1⟩

/-- the prompt written before each read -/
def prompt (p : Player) : String :=
  "Your turn " ++ p.name ++ " (" ++ String.singleton (if p.symbol = 0 then 'O' else 'X') ++ "): "

/-- `chooseMove(b)` : `do { prompt; cin >> i >> j; } while (!b.set(Move(i, j, symbol)));`
The first argument is the list of pairs still to be read; when it runs out before a
move is accepted the loop yields no result. Returns the board, the unread input and the
output. -/
def chooseMove (p : Player) : List (Int × Int) → Board → String →
    Option (Board × List (Int × Int) × String)
  | [], _, _ => none
  | (i, j) :: rest, b, out =>
    match b.set ⟨i, j, p.symbol⟩ with
    | none => none
    | some (true, b1) => some (b1, rest, out ++ p.prompt)
    | some (false, b1) => chooseMove p rest b1 (out ++ p.prompt)

end Player

namespace DumbAI

/-- inner loop of `DumbAI::chooseMove` over the column indices still to visit;
`some none` when the loop ends without returning -/
def scanCols (b : Board) (symbol : Int) (i : Nat) : List Nat → Option (Option Move)
  | [] => some none
  | j :: js =>
    match b.get i j with
    | none => none
    | some cell =>
      if cell = -1 then some (some ⟨i, j, symbol⟩) else scanCols b symbol i js

/-- outer loop of `DumbAI::chooseMove` over the row indices still to visit -/
def scanRows (b : Board) (symbol : Int) : List Nat → Option (Option Move)
  | [] => some none
  | i :: is =>
    match b.getCols with
    | none => none
    | some cols =>
      match scanCols b symbol i (List.range cols) with
      | none => none
      | some (some m) => some (some m)
      | some none => scanRows b symbol is

/-- `DumbAI::chooseMove(b)` for the AI holding `symbol` -/
def chooseMove (symbol : Int) (b : Board) : Option Move :=
  match scanRows b symbol (List.range b.getRows) with
  | none => none
  | some (some m) => some m
  | some none => some ⟨0, 0, symbol⟩

end DumbAI

namespace CleverAI

/-- body of the counting loops of `findWinningMove` on the pair `(count, empty)`:
`if (cell == symbol) count++; else if (cell == -1) empty = idx;` -/
def countCell (symbol cell idx : Int) (st : Int × Int) : Int × Int :=
  if cell = symbol then (st.1 + 1, st.2)
  else if cell = -1 then (st.1, idx)
  else st

/-- counting loop over row `i` : `for j` on the cells `(i, j)`, `empty = j` -/
def scanRow (b : Board) (symbol i : Int) : List Int → Int × Int → Option (Int × Int)
  | [], st => some st
  | j :: js, st =>
    match b.get i j with
    | none => none
    | some cell => scanRow b symbol i js (countCell symbol cell j st)

/-- counting loop over column `j` : `for i` on the cells `(i, j)`, `empty = i` -/
def scanCol (b : Board) (symbol j : Int) : List Int → Int × Int → Option (Int × Int)
  | [], st => some st
  | i :: is, st =>
    match b.get i j with
    | none => none
    | some cell => scanCol b symbol j is (countCell symbol cell i st)

/-- counting loop over the main diagonal : cells `(i, i)`, `empty = i` -/
def scanDiag (b : Board) (symbol : Int) : List Int → Int × Int → Option (Int × Int)
  | [], st => some st
  | i :: is, st =>
    match b.get i i with
    | none => none
    | some cell => scanDiag b symbol is (countCell symbol cell i st)

/-- counting loop over the anti-diagonal : cells `(i, 2 - i)`, `empty = i` -/
def scanAnti (b : Board) (symbol : Int) : List Int → Int × Int → Option (Int × Int)
  | [], st => some st
  | i :: is, st =>
    match b.get i (2 - i) with
    | none => none
    | some cell => scanAnti b symbol is (countCell symbol cell i st)

/-- first loop of `findWinningMove` : the rows still to visit -/
def findInRows (b : Board) (symbol : Int) : List Int → Option (Option Move)
  | [] => some none
  | i :: is =>
    match scanRow b symbol i [0, 1, 2] (0, -1) with
    | none => none
    | some (count, empty) =>
      if count = 2 ∧ empty ≠ -1 then some (some ⟨i, empty, symbol⟩)
      else findInRows b symbol is

/-- second loop of `findWinningMove` : the columns still to visit -/
def findInCols (b : Board) (symbol : Int) : List Int → Option (Option Move)
  | [] => some none
  | j :: js =>
    match scanCol b symbol j [0, 1, 2] (0, -1) with
    | none => none
    | some (count, empty) =>
      if count = 2 ∧ empty ≠ -1 then some (some ⟨empty, j, symbol⟩)
      else findInCols b symbol js

/-- `findWinningMove(b, symbol)` : rows, columns, main diagonal, anti-diagonal;
`Move(-1, -1, symbol)` when no line has two `symbol` cells and an empty one -/
def findWinningMove (b : Board) (symbol : Int) : Option Move :=
  match findInRows b symbol [0, 1, 2] with
  | none => none
  | some (some m) => some m
  | some none =>
    match findInCols b symbol [0, 1, 2] with
    | none => none
    | some (some m) => some m
    | some none =>
      match scanDiag b symbol [0, 1, 2] (0, -1) with
      | none => none
      | some (count, empty) =>
        if count = 2 ∧ empty ≠ -1 then some ⟨empty, empty, symbol⟩
        else
          match scanAnti b symbol [0, 1, 2] (0, -1) with
          | none => none
          | some (count, empty) =>
            if count = 2 ∧ empty ≠ -1 then some ⟨empty, 2 - empty, symbol⟩
            else some ⟨-1, -1, symbol⟩

/-- inner loop of step 3 of `chooseMove` : `for j` on row `i` -/
def freeInRow (b : Board) (aiSymbol i : Int) : List Int → Option (Option Move)
  | [] => some none
  | j :: js =>
    match b.get i j with
    | none => none
    | some cell =>
      if cell = -1 then some (some ⟨i, j, aiSymbol⟩) else freeInRow b aiSymbol i js

/-- outer loop of step 3 of `chooseMove` : `for i` -/
def firstFree (b : Board) (aiSymbol : Int) : List Int → Option (Option Move)
  | [] => some none
  | i :: is =>
    match freeInRow b aiSymbol i [0, 1, 2] with
    | none => none
    | some (some m) => some (some m)
    | some none => firstFree b aiSymbol is

/-- `CleverAI::chooseMove(b)` for the AI holding `aiSymbol` -/
def chooseMove (aiSymbol : Int) (b : Board) : Option Move :=
  let playerSymbol : Int := if aiSymbol = 0 then 1 else 0
  match findWinningMove b aiSymbol with
  | none => none
  | some winMove =>
    if winMove.i ≠ -1 then some winMove
    else
      match findWinningMove b playerSymbol with
      | none => none
      | some blockMove =>
        if blockMove.i ≠ -1 then some ⟨blockMove.i, blockMove.j, aiSymbol⟩
        else
          match firstFree b aiSymbol [0, 1, 2] with
          | none => none
          | some (some m) => some m
          | some none => some ⟨0, 0, aiSymbol⟩

end CleverAI

/-- `class AI` with its two subclasses; the argument is the AI's piece -/
inductive AI where
  | dumb (symbol : Int)
  | clever (symbol : Int)
  deriving DecidableEq, Repr

namespace AI

/-- `getSymbol()` -/
def getSymbol : AI → Int
  | dumb s => s
  | clever s => s

/-- the virtual `chooseMove(b)` -/
def chooseMove : AI → Board → Option Move
  | dumb s, b => DumbAI.chooseMove s b
  | clever s, b => CleverAI.chooseMove s b

end AI

/-! ## Game -/

/-- `class Game` -/
structure Game where
  board : Board
  player1 : Player
  player2 : Player
  pAI : Option AI
  status : GameStatus
  isTwoPlayers : Bool
  deriving DecidableEq, Repr

namespace Game

/-- `Game(twoPlayers, difficulty, name1, symbol1, name2)` -/
def new (twoPlayers : Bool) (difficulty : Int) (name1 : String) (symbol1 : Char)
    (name2 : String) : Game :=
  { board := Board.new 3 3
    status := GameStatus.IN_PROGRESS
    isTwoPlayers := twoPlayers
    player1 := Player.new name1 symbol1
    player2 := Player.new name2 (if symbol1 = 'X' then 'O' else 'X')
    pAI :=
      if !twoPlayers then
        let aiSymbol : Int := if symbol1 = 'O' then 1 else 0
        some (if difficulty = 1 then AI.dumb aiSymbol else AI.clever aiSymbol)
      else none }

/-- `makeMovePlayer(first)` on the unread input and the output so far -/
def makeMovePlayer (g : Game) (first : Bool) (inp : List (Int × Int)) (out : String) :
    Option (Game × List (Int × Int) × String) :=
  match (if first then g.player1 else g.player2).chooseMove inp g.board out with
  | none => none
  | some (b, inp1, out1) => some ({ g with board := b }, inp1, out1)

/-- `makeMoveAI()` : `Move m = pAI->chooseMove(board); board.set(m);`
(the result of `set` is dropped) -/
def makeMoveAI (g : Game) : Option Game :=
  match g.pAI with
  | none => none
  | some ai =>
    match ai.chooseMove g.board with
    | none => none
    | some m =>
      match g.board.set m with
      | none => none
      | some (_, b) => some { g with board := b }

/-- the test `get(p) != -1 && get(p) == get(q) && get(q) == get(r)` of `victory()`,
evaluated left to right -/
def threeEqual (b : Board) (p q r : Int × Int) : Option Bool :=
  match b.get p.1 p.2 with
  | none => none
  | some x =>
    if x = -1 then some false
    else
      match b.get q.1 q.2 with
      | none => none
      | some y =>
        if x ≠ y then some false
        else
          match b.get r.1 r.2 with
          | none => none
          | some z => some (decide (y = z))

/-- the loop of `victory()` : row `i`, then column `i`, for the indices still to visit -/
def victoryLoop (b : Board) : List Int → Option (Option Int)
  | [] => some none
  | i :: is =>
    match threeEqual b (i, 0) (i, 1) (i, 2) with
    | none => none
    | some true => (b.get i 0).map some
    | some false =>
      match threeEqual b (0, i) (1, i) (2, i) with
      | none => none
      | some true => (b.get 0 i).map some
      | some false => victoryLoop b is

/-- `victory()` -/
def victory (g : Game) : Option Int :=
  match victoryLoop g.board [0, 1, 2] with
  | none => none
  | some (some w) => some w
  | some none =>
    match threeEqual g.board (0, 0) (1, 1) (2, 2) with
    | none => none
    | some true => g.board.get 0 0
    | some false =>
      match threeEqual g.board (0, 2) (1, 1) (2, 0) with
      | none => none
      | some true => g.board.get 0 2
      | some false => some (-1)

end Game

/-! ## Runner -/

/-- `class ConsoleRunner` together with the console it talks to -/
structure ConsoleRunner where
  game : Game
  input : List (Int × Int)
  output : String
  deriving DecidableEq, Repr

namespace ConsoleRunner

/-- the loop test `!game.getBoard().full() && game.victory() == -1`, evaluated left to
right -/
def loopGuard (g : Game) : Option Bool :=
  if g.board.full then some false
  else
    match g.victory with
    | none => none
    | some w => some (decide (w = -1))

/-- the body of the `while` loop of `play()` : print the board, let the source whose turn
it is move, flip `playerTurn` -/
def playStep (r : ConsoleRunner) (playerTurn : Bool) : Option (ConsoleRunner × Bool) :=
  let out := r.output ++ r.game.board.print
  if r.game.isTwoPlayers then
    match r.game.makeMovePlayer playerTurn r.input out with
    | none => none
    | some (g, inp, out1) => some (⟨g, inp, out1⟩, !playerTurn)
  else if playerTurn then
    match r.game.makeMovePlayer true r.input out with
    | none => none
    | some (g, inp, out1) => some (⟨g, inp, out1⟩, !playerTurn)
  else
    match r.game.makeMoveAI with
    | none => none
    | some g => some (⟨g, r.input, out⟩, !playerTurn)

/-- the `while` loop of `play()`; the first argument bounds the number of passes through
the body, `playerTurn` is the local flag. Yields the state at loop exit. -/
def playLoop : Nat → ConsoleRunner → Bool → Option (ConsoleRunner × Bool)
  | 0, r, playerTurn =>
    match loopGuard r.game with
    | none => none
    | some false => some (r, playerTurn)
    | some true => none
  | fuel + 1, r, playerTurn =>
    match loopGuard r.game with
    | none => none
    | some false => some (r, playerTurn)
    | some true =>
      match playStep r playerTurn with
      | none => none
      | some (r1, turn1) => playLoop fuel r1 turn1

/-- the status resolution at the end of `play()` -/
def resolveStatus (g : Game) : Option Game :=
  if g.board.full then
    match g.victory with
    | none => none
    | some w =>
      if w = -1 then some { g with status := GameStatus.DRAW }
      else if w = 0 then some { g with status := GameStatus.O_WON }
      else if w = 1 then some { g with status := GameStatus.X_WON }
      else some g
  else
    match g.victory with
    | none => none
    | some w =>
      if w = 0 then some { g with status := GameStatus.O_WON }
      else if w = 1 then some { g with status := GameStatus.X_WON }
      else some g

/-- `play()` with at most `fuel` iterations of its loop -/
def play (fuel : Nat) (r : ConsoleRunner) : Option ConsoleRunner :=
  match playLoop fuel r true with
  | none => none
  | some (r1, _) =>
    match resolveStatus r1.game with
    | none => none
    | some g => some ⟨g, r1.input, r1.output ++ g.board.print⟩

/-- `printResult()` : the text written to `cout` -/
def printResult (r : ConsoleRunner) : String :=
  if r.game.status = GameStatus.DRAW then "Draw!\n"
  else if r.game.status = GameStatus.O_WON then "O won!\n"
  else "X won!\n"

end ConsoleRunner

example : (Board.new 3 3).get 0 0 = some (-1) := by decide
example : (Board.new 3 3).get 3 0 = none := by decide
example : (Board.new 3 3).get (-1) 0 = none := by decide
example : ((Board.new 3 3).set ⟨0, 1, 1⟩).map (fun r => r.2.table) =
    some [[-1, 1, -1], [-1, -1, -1], [-1, -1, -1]] := by decide
example : (Board.new 3 3).IsGrid 3 3 := by decide
example : (Board.new 3 3).full = false := by decide

/-! ## Vocabulary of the specification -/

/-- the eight lines of the 3×3 board: rows top to bottom, columns left to right,
main diagonal, anti-diagonal -/
def lines : List (List (Int × Int)) :=
  [[(0, 0), (0, 1), (0, 2)], [(1, 0), (1, 1), (1, 2)], [(2, 0), (2, 1), (2, 2)],
   [(0, 0), (1, 0), (2, 0)], [(0, 1), (1, 1), (2, 1)], [(0, 2), (1, 2), (2, 2)],
   [(0, 0), (1, 1), (2, 2)], [(0, 2), (1, 1), (2, 0)]]

/-- every cell of the line `L` holds `p` -/
def lineAll (b : Board) (p : Int) (L : List (Int × Int)) : Prop :=
  ∀ c ∈ L, b.get c.1 c.2 = some p

instance (b : Board) (p : Int) (L : List (Int × Int)) : Decidable (lineAll b p L) := by
  unfold lineAll; infer_instance

/-- the line `L` holds exactly two cells equal to `s` and an Empty cell -/
def twoAndEmpty (b : Board) (s : Int) (L : List (Int × Int)) : Prop :=
  (L.filter (fun c => b.get c.1 c.2 = some s)).length = 2 ∧
    ∃ c ∈ L, b.get c.1 c.2 = some (-1)

instance (b : Board) (s : Int) (L : List (Int × Int)) : Decidable (twoAndEmpty b s L) := by
  unfold twoAndEmpty; infer_instance

/-- the three values are identical and not Empty -/
def won3 (x y z : Int) : Prop := x ≠ -1 ∧ x = y ∧ y = z

instance (x y z : Int) : Decidable (won3 x y z) := by
  unfold won3; infer_instance

/-- the pair `(count, empty)` left by a counting loop of `findWinningMove` that visits
three cells holding `x`, `y`, `z` with indices `0`, `1`, `2` -/
def count3 (s x y z : Int) : Int × Int :=
  CleverAI.countCell s z 2 (CleverAI.countCell s y 1 (CleverAI.countCell s x 0 (0, -1)))

/-- the test `count == 2 && empty != -1` after such a loop -/
def hit3 (s x y z : Int) : Prop :=
  (count3 s x y z).1 = 2 ∧ (count3 s x y z).2 ≠ -1

instance (s x y z : Int) : Decidable (hit3 s x y z) := by
  unfold hit3; infer_instance

/-- a game against the heuristic AI (the human holds X) whose board is `t` -/
def gameOn (t : List (List Int)) : Game :=
  { Game.new false 2 "Gracz" 'X' "Player2" with board := ⟨t⟩ }

/-- the game of the end-to-end scenario: the human holds X, the naive AI holds O -/
def naiveGame : Game := Game.new false 1 "Gracz" 'X' "Player2"

/-- the number of cells of the board that hold `v` -/
def Board.countCells (b : Board) (v : Int) : Nat :=
  (b.table.map (fun row => row.count v)).sum

/-- a sequence of `set` calls on the same board, the returned flags being dropped -/
def Board.setAll : Board → List Move → Option Board
  | b, [] => some b
  | b, m :: ms =>
    match b.set m with
    | none => none
    | some (_, b1) => Board.setAll b1 ms

/-- board `b1` is board `b` with the piece `p` put on the Empty cell `(i, j)` -/
def Placed (b b1 : Board) (i j p : Int) : Prop :=
  b.get i j = some (-1) ∧
    (∀ k l, b1.get k l = if k = i ∧ l = j then some p else b.get k l) ∧
    (∀ q, b1.countCells q + (if q = -1 then 1 else 0) =
      b.countCells q + (if q = p then 1 else 0)) ∧
    (∀ N M, b.IsGrid N M → b1.IsGrid N M)

/-- the piece of the move source that `play()` asks when its flag is `playerTurn` :
player1 when the flag is set, otherwise player2 (two-player mode) or the AI -/
def Game.sourcePiece (g : Game) (playerTurn : Bool) : Int :=
  if playerTurn then g.player1.symbol
  else if g.isTwoPlayers then g.player2.symbol
  else
    match g.pAI with
    | some ai => ai.getSymbol
    | none => g.player2.symbol

/-- exactly `k` passes through the body of the loop of `play()`, each entered because
the loop test held; `none` when the loop does not make `k` passes -/
def ConsoleRunner.passes : Nat → ConsoleRunner → Bool → Option (ConsoleRunner × Bool)
  | 0, r, playerTurn => some (r, playerTurn)
  | k + 1, r, playerTurn =>
    match ConsoleRunner.loopGuard r.game with
    | some true =>
      match ConsoleRunner.playStep r playerTurn with
      | none => none
      | some (r1, turn1) => ConsoleRunner.passes k r1 turn1
    | _ => none

/-- the human whose turn it is (if a human is to move) has typed an in-bounds Empty cell
as the next pair -/
def ConsoleRunner.humanMoveAccepted (r : ConsoleRunner) (playerTurn : Bool) : Bool :=
  if r.game.isTwoPlayers || playerTurn then
    match r.input with
    | [] => false
    | (i, j) :: _ => decide (r.game.board.get i j = some (-1))
  else true

/-- in every state reached by fewer than `n` passes from `(r, true)` in which the loop
test holds, the human to move (if any) has typed an accepted move -/
def ConsoleRunner.humanMovesAccepted (r : ConsoleRunner) : Nat → Bool
  | 0 => true
  | n + 1 =>
    ConsoleRunner.humanMovesAccepted r n &&
      (match ConsoleRunner.passes n r true with
       | none => true
       | some (r1, turn1) =>
         if ConsoleRunner.loopGuard r1.game = some true then r1.humanMoveAccepted turn1
         else true)

/-- a game as the constructor builds it and as the loop keeps it: a 3×3 board, players
holding piece `0` or `1`, and in vs-AI mode an AI holding piece `0` or `1` -/
def Game.WellFormed (g : Game) : Prop :=
  g.board.IsGrid 3 3 ∧ (g.player1.symbol = 0 ∨ g.player1.symbol = 1) ∧
    (g.player2.symbol = 0 ∨ g.player2.symbol = 1) ∧
    (g.isTwoPlayers = false →
      ∃ ai, g.pAI = some ai ∧ (ai.getSymbol = 0 ∨ ai.getSymbol = 1))

/-- the symbol the specification gives a cell value: `.` for Empty, `O` for piece 0,
`X` for piece 1 -/
def specSymbol (cell : Int) : Char :=
  if cell = 1 then 'X' else if cell = 0 then 'O' else '.'

/-- Follows the specification's words: one line of the rendering is the row's symbols in column
order separated by spaces -/
def specLineSeparated (row : List Int) : String :=
  " ".intercalate (row.map (fun cell => String.singleton (specSymbol cell)))

/-- Follows the code's output: every symbol of the row is followed by a space -/
def specLineFollowed (row : List Int) : String :=
  (row.map (fun cell => String.singleton (specSymbol cell) ++ " ")).foldr (· ++ ·) ""

/-- the text made of the given lines, one per row in row order, each ended by a
newline -/
def specText (line : List Int → String) (b : Board) : String :=
  (b.table.map (fun row => line row ++ "\n")).foldr (· ++ ·) ""

/-! ## Board lemmas -/

namespace Board

theorem get_eq_some_iff (b : Board) (i j v : Int) :
    b.get i j = some v ↔
      0 ≤ i ∧ 0 ≤ j ∧ ∃ row, b.table[i.toNat]? = some row ∧ row[j.toNat]? = some v := by
  unfold get
  by_cases h : 0 ≤ i ∧ 0 ≤ j
  · rw [if_pos h]
    cases hr : b.table[i.toNat]? with
    | none => simp
    | some row => simp [h.1, h.2]
  · rw [if_neg h]
    constructor
    · intro h1; cases h1
    · rintro ⟨h1, h2, _⟩; exact absurd ⟨h1, h2⟩ h

theorem rowHasEmpty_iff (row : List Int) : rowHasEmpty row = true ↔ (-1 : Int) ∈ row := by
  induction row with
  | nil => simp [rowHasEmpty]
  | cons c rest ih =>
    unfold rowHasEmpty
    by_cases hc : c = -1
    · simp [hc]
    · rw [if_neg hc, ih]
      simp [Ne.symm hc]

theorem fullFrom_iff (t : List (List Int)) :
    fullFrom t = true ↔ ∀ row ∈ t, (-1 : Int) ∉ row := by
  induction t with
  | nil => simp [fullFrom]
  | cons r rest ih =>
    unfold fullFrom
    by_cases hr : rowHasEmpty r = true
    · have := (rowHasEmpty_iff r).1 hr
      simp [hr, this]
    · have hn : (-1 : Int) ∉ r := fun h => hr ((rowHasEmpty_iff r).2 h)
      simp [hr, ih, hn]

theorem full_iff (b : Board) :
    b.full = true ↔ ∀ i j v, b.get i j = some v → v ≠ -1 := by
  unfold full
  rw [fullFrom_iff]
  constructor
  · intro h i j v hv hneg
    obtain ⟨_, _, row, hrow, hcell⟩ := (get_eq_some_iff b i j v).1 hv
    subst hneg
    exact h row (List.getElem?_mem hrow) (List.getElem?_mem hcell)
  · intro h row hrow hmem
    obtain ⟨i, hi⟩ := List.mem_iff_getElem?.1 hrow
    obtain ⟨j, hj⟩ := List.mem_iff_getElem?.1 hmem
    refine h (i : Int) (j : Int) (-1) ?_ rfl
    rw [get_eq_some_iff]
    exact ⟨Int.ofNat_nonneg i, Int.ofNat_nonneg j, row, by simpa using hi, by simpa using hj⟩

theorem get_set_table (b : Board) (I J : Nat) (row : List Int) (p c : Int)
    (hrow : b.table[I]? = some row) (hcell : row[J]? = some c) (i j : Int) :
    (Board.mk (b.table.set I (row.set J p))).get i j =
      if i = (I : Int) ∧ j = (J : Int) then some p else b.get i j := by
  have hI : I < b.table.length := by
    by_contra hlt
    rw [List.getElem?_eq_none (Nat.le_of_not_lt hlt)] at hrow
    cases hrow
  have hJ : J < row.length := by
    by_contra hlt
    rw [List.getElem?_eq_none (Nat.le_of_not_lt hlt)] at hcell
    cases hcell
  unfold get
  by_cases h : 0 ≤ i ∧ 0 ≤ j
  · rw [if_pos h, if_pos h]
    by_cases hi : i.toNat = I
    · have hi' : i = (I : Int) := by omega
      rw [hi, List.getElem?_set, if_pos rfl, if_pos hI, hrow]
      by_cases hj : j.toNat = J
      · have hj' : j = (J : Int) := by omega
        simp [hi', hj', List.getElem?_set, hJ]
      · have hj' : j ≠ (J : Int) := by omega
        simp [hi', hj', List.getElem?_set_ne (Ne.symm hj)]
    · have hi' : i ≠ (I : Int) := by omega
      simp [hi', List.getElem?_set_ne (Ne.symm hi)]
  · rw [if_neg h, if_neg h]
    have : ¬ (i = (I : Int) ∧ j = (J : Int)) := by
      rintro ⟨h1, h2⟩
      exact h ⟨by omega, by omega⟩
    rw [if_neg this]

theorem isGrid_set_table (b : Board) (I J : Nat) (row : List Int) (p : Int)
    (hrow : b.table[I]? = some row) (N M : Nat) (hg : b.IsGrid N M) :
    (Board.mk (b.table.set I (row.set J p))).IsGrid N M := by
  obtain ⟨hN, hM⟩ := hg
  refine ⟨by simpa using hN, ?_⟩
  intro r hr
  rcases List.mem_or_eq_of_mem_set hr with h | h
  · exact hM r h
  · subst h
    simpa using hM row (List.getElem?_mem hrow)

theorem set_empty (b : Board) (m : Move) (h : b.get m.i m.j = some (-1)) :
    ∃ b1, b.set m = some (true, b1) ∧
      (∀ i j, b1.get i j = if i = m.i ∧ j = m.j then some m.piece else b.get i j) ∧
      (∀ N M, b.IsGrid N M → b1.IsGrid N M) := by
  obtain ⟨hi, hj, row, hrow, hcell⟩ := (get_eq_some_iff b m.i m.j (-1)).1 h
  refine ⟨⟨b.table.set m.i.toNat (row.set m.j.toNat m.piece)⟩, ?_, ?_, ?_⟩
  · unfold set
    rw [h]
    simp [hrow]
  · intro i j
    rw [get_set_table b m.i.toNat m.j.toNat row m.piece (-1) hrow hcell i j]
    rw [Int.toNat_of_nonneg hi, Int.toNat_of_nonneg hj]
  · intro N M hg
    exact isGrid_set_table b m.i.toNat m.j.toNat row m.piece hrow N M hg

theorem set_occupied (b : Board) (m : Move) (v : Int) (h : b.get m.i m.j = some v)
    (hv : v ≠ -1) : b.set m = some (false, b) := by
  unfold set
  rw [h]
  simp [hv]

theorem get_isSome_of_isGrid (b : Board) (N M : Nat) (hg : b.IsGrid N M) (i j : Int)
    (hi : 0 ≤ i ∧ i < N) (hj : 0 ≤ j ∧ j < M) : ∃ v, b.get i j = some v := by
  obtain ⟨hN, hM⟩ := hg
  have hI : i.toNat < b.table.length := by omega
  have hrow : b.table[i.toNat]? = some (b.table[i.toNat]) := List.getElem?_eq_getElem hI
  have hlen : (b.table[i.toNat]).length = M := hM _ (List.getElem_mem hI)
  have hJ : j.toNat < (b.table[i.toNat]).length := by omega
  refine ⟨(b.table[i.toNat])[j.toNat], ?_⟩
  rw [get_eq_some_iff]
  exact ⟨hi.1, hj.1, _, hrow, List.getElem?_eq_getElem hJ⟩

end Board

/-! ## The 3×3 board -/

theorem isGrid33_cases (b : Board) (h : b.IsGrid 3 3) :
    ∃ a0 a1 a2 b0 b1 b2 c0 c1 c2 : Int,
      b = ⟨[[a0, a1, a2], [b0, b1, b2], [c0, c1, c2]]⟩ := by
  obtain ⟨t⟩ := b
  obtain ⟨hN, hM⟩ := h
  simp only at hN hM
  match t, hN, hM with
  | [r0, r1, r2], _, hM =>
    have h0 := hM r0 (by simp)
    have h1 := hM r1 (by simp)
    have h2 := hM r2 (by simp)
    match r0, r1, r2, h0, h1, h2 with
    | [a0, a1, a2], [b0, b1, b2], [c0, c1, c2], _, _, _ =>
      exact ⟨a0, a1, a2, b0, b1, b2, c0, c1, c2, rfl⟩

section Grid33
variable (a0 a1 a2 b0 b1 b2 c0 c1 c2 : Int)

@[simp] theorem get33_00 : (Board.mk [[a0, a1, a2], [b0, b1, b2], [c0, c1, c2]]).get 0 0 = some a0 := rfl
@[simp] theorem get33_01 : (Board.mk [[a0, a1, a2], [b0, b1, b2], [c0, c1, c2]]).get 0 1 = some a1 := rfl
@[simp] theorem get33_02 : (Board.mk [[a0, a1, a2], [b0, b1, b2], [c0, c1, c2]]).get 0 2 = some a2 := rfl
@[simp] theorem get33_10 : (Board.mk [[a0, a1, a2], [b0, b1, b2], [c0, c1, c2]]).get 1 0 = some b0 := rfl
@[simp] theorem get33_11 : (Board.mk [[a0, a1, a2], [b0, b1, b2], [c0, c1, c2]]).get 1 1 = some b1 := rfl
@[simp] theorem get33_12 : (Board.mk [[a0, a1, a2], [b0, b1, b2], [c0, c1, c2]]).get 1 2 = some b2 := rfl
@[simp] theorem get33_20 : (Board.mk [[a0, a1, a2], [b0, b1, b2], [c0, c1, c2]]).get 2 0 = some c0 := rfl
@[simp] theorem get33_21 : (Board.mk [[a0, a1, a2], [b0, b1, b2], [c0, c1, c2]]).get 2 1 = some c1 := rfl
@[simp] theorem get33_22 : (Board.mk [[a0, a1, a2], [b0, b1, b2], [c0, c1, c2]]).get 2 2 = some c2 := rfl

end Grid33

theorem threeEqual_some (b : Board) (p q r : Int × Int) (x y z : Int)
    (hx : b.get p.1 p.2 = some x) (hy : b.get q.1 q.2 = some y) (hz : b.get r.1 r.2 = some z) :
    Game.threeEqual b p q r = some (decide (won3 x y z)) := by
  unfold Game.threeEqual won3
  rw [hx, hy, hz]
  by_cases h1 : x = -1
  · simp [h1]
  · by_cases h2 : x = y
    · subst h2
      simp [h1]
    · simp [h1, h2]

/-- the value computed by `victory()` on a 3×3 board, as a chain of tests -/
theorem victory33 (g : Game) (a0 a1 a2 b0 b1 b2 c0 c1 c2 : Int)
    (hb : g.board = ⟨[[a0, a1, a2], [b0, b1, b2], [c0, c1, c2]]⟩) :
    g.victory = some (
      if won3 a0 a1 a2 then a0
      else if won3 a0 b0 c0 then a0
      else if won3 b0 b1 b2 then b0
      else if won3 a1 b1 c1 then a1
      else if won3 c0 c1 c2 then c0
      else if won3 a2 b2 c2 then a2
      else if won3 a0 b1 c2 then a0
      else if won3 a2 b1 c0 then a2
      else -1) := by
  unfold Game.victory
  rw [hb]
  simp only [Game.victoryLoop]
  have te := threeEqual_some (Board.mk [[a0, a1, a2], [b0, b1, b2], [c0, c1, c2]])
  rw [te (0, 0) (0, 1) (0, 2) a0 a1 a2 rfl rfl rfl,
    te (0, 0) (1, 0) (2, 0) a0 b0 c0 rfl rfl rfl,
    te (1, 0) (1, 1) (1, 2) b0 b1 b2 rfl rfl rfl,
    te (0, 1) (1, 1) (2, 1) a1 b1 c1 rfl rfl rfl,
    te (2, 0) (2, 1) (2, 2) c0 c1 c2 rfl rfl rfl,
    te (0, 2) (1, 2) (2, 2) a2 b2 c2 rfl rfl rfl,
    te (0, 0) (1, 1) (2, 2) a0 b1 c2 rfl rfl rfl,
    te (0, 2) (1, 1) (2, 0) a2 b1 c0 rfl rfl rfl]
  by_cases h1 : won3 a0 a1 a2
  · rw [if_pos h1]; simp only [decide_eq_true h1]; rfl
  rw [if_neg h1]; simp only [decide_eq_false h1]
  by_cases h2 : won3 a0 b0 c0
  · rw [if_pos h2]; simp only [decide_eq_true h2]; rfl
  rw [if_neg h2]; simp only [decide_eq_false h2]
  by_cases h3 : won3 b0 b1 b2
  · rw [if_pos h3]; simp only [decide_eq_true h3]; rfl
  rw [if_neg h3]; simp only [decide_eq_false h3]
  by_cases h4 : won3 a1 b1 c1
  · rw [if_pos h4]; simp only [decide_eq_true h4]; rfl
  rw [if_neg h4]; simp only [decide_eq_false h4]
  by_cases h5 : won3 c0 c1 c2
  · rw [if_pos h5]; simp only [decide_eq_true h5]; rfl
  rw [if_neg h5]; simp only [decide_eq_false h5]
  by_cases h6 : won3 a2 b2 c2
  · rw [if_pos h6]; simp only [decide_eq_true h6]; rfl
  rw [if_neg h6]; simp only [decide_eq_false h6]
  by_cases h7 : won3 a0 b1 c2
  · rw [if_pos h7]; simp only [decide_eq_true h7]; rfl
  rw [if_neg h7]; simp only [decide_eq_false h7]
  by_cases h8 : won3 a2 b1 c0
  · rw [if_pos h8]; simp only [decide_eq_true h8]; rfl
  rw [if_neg h8]; simp only [decide_eq_false h8]

theorem lines_all33 (a0 a1 a2 b0 b1 b2 c0 c1 c2 p : Int) :
    (∃ L ∈ lines, lineAll ⟨[[a0, a1, a2], [b0, b1, b2], [c0, c1, c2]]⟩ p L) ↔
      (a0 = p ∧ a1 = p ∧ a2 = p) ∨ (b0 = p ∧ b1 = p ∧ b2 = p) ∨ (c0 = p ∧ c1 = p ∧ c2 = p) ∨
      (a0 = p ∧ b0 = p ∧ c0 = p) ∨ (a1 = p ∧ b1 = p ∧ c1 = p) ∨ (a2 = p ∧ b2 = p ∧ c2 = p) ∨
      (a0 = p ∧ b1 = p ∧ c2 = p) ∨ (a2 = p ∧ b1 = p ∧ c0 = p) := by
  simp only [lines, lineAll, List.exists_mem_cons_iff, List.forall_mem_cons, List.not_mem_nil,
    false_and, exists_false, or_false, IsEmpty.forall_iff, implies_true, and_true, get33_00,
    get33_01, get33_02, get33_10, get33_11, get33_12, get33_20, get33_21, get33_22,
    Option.some.injEq]

theorem won3_all (x y z : Int) (h : won3 x y z) : x ≠ -1 ∧ x = x ∧ y = x ∧ z = x := by
  obtain ⟨h1, h2, h3⟩ := h
  exact ⟨h1, rfl, h2.symm, by rw [← h3, h2]⟩

theorem all_won3 (x y z p : Int) (hp : p ≠ -1) (h : x = p ∧ y = p ∧ z = p) : won3 x y z := by
  obtain ⟨rfl, rfl, rfl⟩ := h
  exact ⟨hp, rfl, rfl⟩

/-- some line holds three identical non-Empty cells, in terms of the nine cells -/
theorem exists_won33 (a0 a1 a2 b0 b1 b2 c0 c1 c2 : Int) :
    (∃ L ∈ lines, ∃ p, p ≠ -1 ∧ lineAll ⟨[[a0, a1, a2], [b0, b1, b2], [c0, c1, c2]]⟩ p L) ↔
      won3 a0 a1 a2 ∨ won3 a0 b0 c0 ∨ won3 b0 b1 b2 ∨ won3 a1 b1 c1 ∨
      won3 c0 c1 c2 ∨ won3 a2 b2 c2 ∨ won3 a0 b1 c2 ∨ won3 a2 b1 c0 := by
  constructor
  · rintro ⟨L, hL, p, hp, hl⟩
    rcases (lines_all33 a0 a1 a2 b0 b1 b2 c0 c1 c2 p).1 ⟨L, hL, hl⟩ with
      h | h | h | h | h | h | h | h
    · exact Or.inl (all_won3 _ _ _ p hp h)
    · exact Or.inr (Or.inr (Or.inl (all_won3 _ _ _ p hp h)))
    · exact Or.inr (Or.inr (Or.inr (Or.inr (Or.inl (all_won3 _ _ _ p hp h)))))
    · exact Or.inr (Or.inl (all_won3 _ _ _ p hp h))
    · exact Or.inr (Or.inr (Or.inr (Or.inl (all_won3 _ _ _ p hp h))))
    · exact Or.inr (Or.inr (Or.inr (Or.inr (Or.inr (Or.inl (all_won3 _ _ _ p hp h))))))
    · exact Or.inr (Or.inr (Or.inr (Or.inr (Or.inr (Or.inr (Or.inl (all_won3 _ _ _ p hp h)))))))
    · exact Or.inr (Or.inr (Or.inr (Or.inr (Or.inr (Or.inr (Or.inr (all_won3 _ _ _ p hp h)))))))
  · intro h
    have back : ∀ p, p ≠ -1 →
        ((a0 = p ∧ a1 = p ∧ a2 = p) ∨ (b0 = p ∧ b1 = p ∧ b2 = p) ∨ (c0 = p ∧ c1 = p ∧ c2 = p) ∨
        (a0 = p ∧ b0 = p ∧ c0 = p) ∨ (a1 = p ∧ b1 = p ∧ c1 = p) ∨ (a2 = p ∧ b2 = p ∧ c2 = p) ∨
        (a0 = p ∧ b1 = p ∧ c2 = p) ∨ (a2 = p ∧ b1 = p ∧ c0 = p)) →
        ∃ L ∈ lines, ∃ p, p ≠ -1 ∧ lineAll ⟨[[a0, a1, a2], [b0, b1, b2], [c0, c1, c2]]⟩ p L := by
      intro p hp hd
      obtain ⟨L, hL, hl⟩ := (lines_all33 a0 a1 a2 b0 b1 b2 c0 c1 c2 p).2 hd
      exact ⟨L, hL, p, hp, hl⟩
    rcases h with h | h | h | h | h | h | h | h
    · exact back a0 h.1 (Or.inl (won3_all _ _ _ h).2)
    · exact back a0 h.1 (Or.inr (Or.inr (Or.inr (Or.inl (won3_all _ _ _ h).2))))
    · exact back b0 h.1 (Or.inr (Or.inl (won3_all _ _ _ h).2))
    · exact back a1 h.1 (Or.inr (Or.inr (Or.inr (Or.inr (Or.inl (won3_all _ _ _ h).2)))))
    · exact back c0 h.1 (Or.inr (Or.inr (Or.inl (won3_all _ _ _ h).2)))
    · exact back a2 h.1 (Or.inr (Or.inr (Or.inr (Or.inr (Or.inr (Or.inl (won3_all _ _ _ h).2))))))
    · exact back a0 h.1 (Or.inr (Or.inr (Or.inr (Or.inr (Or.inr (Or.inr (Or.inl (won3_all _ _ _ h).2)))))))
    · exact back a2 h.1 (Or.inr (Or.inr (Or.inr (Or.inr (Or.inr (Or.inr (Or.inr (won3_all _ _ _ h).2)))))))

/-! ## The counting loops of `findWinningMove` -/

theorem cell_cases (s x : Int) : x = s ∨ (x ≠ s ∧ x = -1) ∨ (x ≠ s ∧ x ≠ -1) := by
  by_cases h : x = s
  · exact Or.inl h
  · by_cases h1 : x = -1
    · exact Or.inr (Or.inl ⟨h, h1⟩)
    · exact Or.inr (Or.inr ⟨h, h1⟩)

theorem hit3_cases (s x y z : Int) (hs : s ≠ -1) (h : hit3 s x y z) :
    ((count3 s x y z).2 = 0 ∧ x = -1 ∧ y = s ∧ z = s) ∨
    ((count3 s x y z).2 = 1 ∧ x = s ∧ y = -1 ∧ z = s) ∨
    ((count3 s x y z).2 = 2 ∧ x = s ∧ y = s ∧ z = -1) := by
  unfold hit3 count3 CleverAI.countCell at *
  rcases cell_cases s x with hx | ⟨hx, hx1⟩ | ⟨hx, hx1⟩ <;>
    rcases cell_cases s y with hy | ⟨hy, hy1⟩ | ⟨hy, hy1⟩ <;>
    rcases cell_cases s z with hz | ⟨hz, hz1⟩ | ⟨hz, hz1⟩ <;>
    simp_all

theorem hit3_of_pattern (s x y z : Int) (hs : s ≠ -1)
    (h : (x = -1 ∧ y = s ∧ z = s) ∨ (x = s ∧ y = -1 ∧ z = s) ∨ (x = s ∧ y = s ∧ z = -1)) :
    hit3 s x y z := by
  have hs' : ¬ (-1 : Int) = s := fun e => hs e.symm
  unfold hit3 count3 CleverAI.countCell
  rcases h with ⟨rfl, rfl, rfl⟩ | ⟨rfl, rfl, rfl⟩ | ⟨rfl, rfl, rfl⟩ <;> simp [hs']

theorem twoAndEmpty_iff (b : Board) (s : Int) (p q r : Int × Int) (x y z : Int)
    (hx : b.get p.1 p.2 = some x) (hy : b.get q.1 q.2 = some y) (hz : b.get r.1 r.2 = some z)
    (hs : s ≠ -1) :
    twoAndEmpty b s [p, q, r] ↔
      (x = -1 ∧ y = s ∧ z = s) ∨ (x = s ∧ y = -1 ∧ z = s) ∨ (x = s ∧ y = s ∧ z = -1) := by
  have hs' : ¬ (-1 : Int) = s := fun e => hs e.symm
  simp only [twoAndEmpty, List.filter_cons, List.filter_nil, List.exists_mem_cons_iff,
    List.not_mem_nil, false_and, exists_false, or_false, hx, hy, hz, Option.some.injEq]
  rcases cell_cases s x with h1 | ⟨h1, h1e⟩ | ⟨h1, h1e⟩ <;>
    rcases cell_cases s y with h2 | ⟨h2, h2e⟩ | ⟨h2, h2e⟩ <;>
    rcases cell_cases s z with h3 | ⟨h3, h3e⟩ | ⟨h3, h3e⟩ <;>
    simp_all

theorem twoAndEmpty_iff_hit3 (b : Board) (s : Int) (p q r : Int × Int) (x y z : Int)
    (hx : b.get p.1 p.2 = some x) (hy : b.get q.1 q.2 = some y) (hz : b.get r.1 r.2 = some z)
    (hs : s ≠ -1) :
    twoAndEmpty b s [p, q, r] ↔ hit3 s x y z := by
  rw [twoAndEmpty_iff b s p q r x y z hx hy hz hs]
  constructor
  · exact hit3_of_pattern s x y z hs
  · intro h
    rcases hit3_cases s x y z hs h with ⟨_, h⟩ | ⟨_, h⟩ | ⟨_, h⟩
    · exact Or.inl h
    · exact Or.inr (Or.inl h)
    · exact Or.inr (Or.inr h)

theorem findInRows33 (a0 a1 a2 b0 b1 b2 c0 c1 c2 s : Int) :
    CleverAI.findInRows ⟨[[a0, a1, a2], [b0, b1, b2], [c0, c1, c2]]⟩ s [0, 1, 2] = some (
      if hit3 s a0 a1 a2 then some ⟨0, (count3 s a0 a1 a2).2, s⟩
      else if hit3 s b0 b1 b2 then some ⟨1, (count3 s b0 b1 b2).2, s⟩
      else if hit3 s c0 c1 c2 then some ⟨2, (count3 s c0 c1 c2).2, s⟩
      else none) := by
  simp only [CleverAI.findInRows]
  rw [show CleverAI.scanRow ⟨[[a0, a1, a2], [b0, b1, b2], [c0, c1, c2]]⟩ s 0 [0, 1, 2] (0, -1) =
      some ((count3 s a0 a1 a2).1, (count3 s a0 a1 a2).2) from rfl,
    show CleverAI.scanRow ⟨[[a0, a1, a2], [b0, b1, b2], [c0, c1, c2]]⟩ s 1 [0, 1, 2] (0, -1) =
      some ((count3 s b0 b1 b2).1, (count3 s b0 b1 b2).2) from rfl,
    show CleverAI.scanRow ⟨[[a0, a1, a2], [b0, b1, b2], [c0, c1, c2]]⟩ s 2 [0, 1, 2] (0, -1) =
      some ((count3 s c0 c1 c2).1, (count3 s c0 c1 c2).2) from rfl]
  simp only []
  have e : ∀ x y z, ((count3 s x y z).1 = 2 ∧ (count3 s x y z).2 ≠ -1) = hit3 s x y z :=
    fun _ _ _ => rfl
  simp only [e]
  split_ifs <;> rfl

theorem findInCols33 (a0 a1 a2 b0 b1 b2 c0 c1 c2 s : Int) :
    CleverAI.findInCols ⟨[[a0, a1, a2], [b0, b1, b2], [c0, c1, c2]]⟩ s [0, 1, 2] = some (
      if hit3 s a0 b0 c0 then some ⟨(count3 s a0 b0 c0).2, 0, s⟩
      else if hit3 s a1 b1 c1 then some ⟨(count3 s a1 b1 c1).2, 1, s⟩
      else if hit3 s a2 b2 c2 then some ⟨(count3 s a2 b2 c2).2, 2, s⟩
      else none) := by
  simp only [CleverAI.findInCols]
  rw [show CleverAI.scanCol ⟨[[a0, a1, a2], [b0, b1, b2], [c0, c1, c2]]⟩ s 0 [0, 1, 2] (0, -1) =
      some ((count3 s a0 b0 c0).1, (count3 s a0 b0 c0).2) from rfl,
    show CleverAI.scanCol ⟨[[a0, a1, a2], [b0, b1, b2], [c0, c1, c2]]⟩ s 1 [0, 1, 2] (0, -1) =
      some ((count3 s a1 b1 c1).1, (count3 s a1 b1 c1).2) from rfl,
    show CleverAI.scanCol ⟨[[a0, a1, a2], [b0, b1, b2], [c0, c1, c2]]⟩ s 2 [0, 1, 2] (0, -1) =
      some ((count3 s a2 b2 c2).1, (count3 s a2 b2 c2).2) from rfl]
  simp only []
  have e : ∀ x y z, ((count3 s x y z).1 = 2 ∧ (count3 s x y z).2 ≠ -1) = hit3 s x y z :=
    fun _ _ _ => rfl
  simp only [e]
  split_ifs <;> rfl

/-- the move computed by `findWinningMove` on a 3×3 board, as a chain of tests -/
theorem findWinningMove33 (a0 a1 a2 b0 b1 b2 c0 c1 c2 s : Int) :
    CleverAI.findWinningMove ⟨[[a0, a1, a2], [b0, b1, b2], [c0, c1, c2]]⟩ s = some (
      if hit3 s a0 a1 a2 then ⟨0, (count3 s a0 a1 a2).2, s⟩
      else if hit3 s b0 b1 b2 then ⟨1, (count3 s b0 b1 b2).2, s⟩
      else if hit3 s c0 c1 c2 then ⟨2, (count3 s c0 c1 c2).2, s⟩
      else if hit3 s a0 b0 c0 then ⟨(count3 s a0 b0 c0).2, 0, s⟩
      else if hit3 s a1 b1 c1 then ⟨(count3 s a1 b1 c1).2, 1, s⟩
      else if hit3 s a2 b2 c2 then ⟨(count3 s a2 b2 c2).2, 2, s⟩
      else if hit3 s a0 b1 c2 then ⟨(count3 s a0 b1 c2).2, (count3 s a0 b1 c2).2, s⟩
      else if hit3 s a2 b1 c0 then ⟨(count3 s a2 b1 c0).2, 2 - (count3 s a2 b1 c0).2, s⟩
      else ⟨-1, -1, s⟩) := by
  unfold CleverAI.findWinningMove
  rw [findInRows33, findInCols33]
  rw [show CleverAI.scanDiag ⟨[[a0, a1, a2], [b0, b1, b2], [c0, c1, c2]]⟩ s [0, 1, 2] (0, -1) =
      some ((count3 s a0 b1 c2).1, (count3 s a0 b1 c2).2) from rfl,
    show CleverAI.scanAnti ⟨[[a0, a1, a2], [b0, b1, b2], [c0, c1, c2]]⟩ s [0, 1, 2] (0, -1) =
      some ((count3 s a2 b1 c0).1, (count3 s a2 b1 c0).2) from rfl]
  simp only []
  have e : ∀ x y z, ((count3 s x y z).1 = 2 ∧ (count3 s x y z).2 ≠ -1) = hit3 s x y z :=
    fun _ _ _ => rfl
  simp only [e]
  split_ifs <;> rfl

theorem hit3_move (b : Board) (s : Int) (f : Int → Int × Int) (x y z : Int)
    (hx : b.get (f 0).1 (f 0).2 = some x) (hy : b.get (f 1).1 (f 1).2 = some y)
    (hz : b.get (f 2).1 (f 2).2 = some z) (hs : s ≠ -1) (h : hit3 s x y z) :
    f (count3 s x y z).2 ∈ [f 0, f 1, f 2] ∧
      b.get (f (count3 s x y z).2).1 (f (count3 s x y z).2).2 = some (-1) := by
  rcases hit3_cases s x y z hs h with ⟨he, hx1, _, _⟩ | ⟨he, _, hy1, _⟩ | ⟨he, _, _, hz1⟩
  · rw [he, hx, hx1]; simp
  · rw [he, hy, hy1]; simp
  · rw [he, hz, hz1]; simp

/-- what `findWinningMove` returns on a 3×3 board: the sentinel when no line qualifies,
otherwise the Empty cell of the first qualifying line in the order of `lines` -/
theorem findWinningMove_spec (b : Board) (h : b.IsGrid 3 3) (s : Int) (hs : s ≠ -1) :
    ∃ m, CleverAI.findWinningMove b s = some m ∧ m.piece = s ∧
      ((m.i = -1 ∧ m.j = -1 ∧ ∀ L ∈ lines, ¬ twoAndEmpty b s L) ∨
       (∃ pre L post, lines = pre ++ L :: post ∧ (∀ K ∈ pre, ¬ twoAndEmpty b s K) ∧
          twoAndEmpty b s L ∧ (m.i, m.j) ∈ L ∧ b.get m.i m.j = some (-1))) := by
  obtain ⟨a0, a1, a2, b0, b1, b2, c0, c1, c2, hb⟩ := isGrid33_cases b h
  subst hb
  rw [findWinningMove33]
  have T := twoAndEmpty_iff_hit3 (Board.mk [[a0, a1, a2], [b0, b1, b2], [c0, c1, c2]]) s
  have M := hit3_move (Board.mk [[a0, a1, a2], [b0, b1, b2], [c0, c1, c2]]) s
  have T1 := T (0, 0) (0, 1) (0, 2) a0 a1 a2 rfl rfl rfl hs
  have T2 := T (1, 0) (1, 1) (1, 2) b0 b1 b2 rfl rfl rfl hs
  have T3 := T (2, 0) (2, 1) (2, 2) c0 c1 c2 rfl rfl rfl hs
  have T4 := T (0, 0) (1, 0) (2, 0) a0 b0 c0 rfl rfl rfl hs
  have T5 := T (0, 1) (1, 1) (2, 1) a1 b1 c1 rfl rfl rfl hs
  have T6 := T (0, 2) (1, 2) (2, 2) a2 b2 c2 rfl rfl rfl hs
  have T7 := T (0, 0) (1, 1) (2, 2) a0 b1 c2 rfl rfl rfl hs
  have T8 := T (0, 2) (1, 1) (2, 0) a2 b1 c0 rfl rfl rfl hs
  by_cases h1 : hit3 s a0 a1 a2
  · rw [if_pos h1]
    have hm := M (fun e => (0, e)) a0 a1 a2 rfl rfl rfl hs h1
    refine ⟨_, rfl, rfl, Or.inr ⟨[], [(0, 0), (0, 1), (0, 2)], [[(1, 0), (1, 1), (1, 2)], [(2, 0), (2, 1), (2, 2)], [(0, 0), (1, 0), (2, 0)], [(0, 1), (1, 1), (2, 1)], [(0, 2), (1, 2), (2, 2)], [(0, 0), (1, 1), (2, 2)], [(0, 2), (1, 1), (2, 0)]], rfl, ?_, T1.2 h1, hm.1, hm.2⟩⟩
    intro K hK
    cases hK
  rw [if_neg h1]
  by_cases h2 : hit3 s b0 b1 b2
  · rw [if_pos h2]
    have hm := M (fun e => (1, e)) b0 b1 b2 rfl rfl rfl hs h2
    refine ⟨_, rfl, rfl, Or.inr ⟨[[(0, 0), (0, 1), (0, 2)]], [(1, 0), (1, 1), (1, 2)], [[(2, 0), (2, 1), (2, 2)], [(0, 0), (1, 0), (2, 0)], [(0, 1), (1, 1), (2, 1)], [(0, 2), (1, 2), (2, 2)], [(0, 0), (1, 1), (2, 2)], [(0, 2), (1, 1), (2, 0)]], rfl, ?_, T2.2 h2, hm.1, hm.2⟩⟩
    intro K hK
    simp only [List.mem_cons, List.mem_singleton, List.not_mem_nil, or_false] at hK
    rcases hK with rfl
    · exact mt T1.1 h1
  rw [if_neg h2]
  by_cases h3 : hit3 s c0 c1 c2
  · rw [if_pos h3]
    have hm := M (fun e => (2, e)) c0 c1 c2 rfl rfl rfl hs h3
    refine ⟨_, rfl, rfl, Or.inr ⟨[[(0, 0), (0, 1), (0, 2)], [(1, 0), (1, 1), (1, 2)]], [(2, 0), (2, 1), (2, 2)], [[(0, 0), (1, 0), (2, 0)], [(0, 1), (1, 1), (2, 1)], [(0, 2), (1, 2), (2, 2)], [(0, 0), (1, 1), (2, 2)], [(0, 2), (1, 1), (2, 0)]], rfl, ?_, T3.2 h3, hm.1, hm.2⟩⟩
    intro K hK
    simp only [List.mem_cons, List.mem_singleton, List.not_mem_nil, or_false] at hK
    rcases hK with rfl | rfl
    · exact mt T1.1 h1
    · exact mt T2.1 h2
  rw [if_neg h3]
  by_cases h4 : hit3 s a0 b0 c0
  · rw [if_pos h4]
    have hm := M (fun e => (e, 0)) a0 b0 c0 rfl rfl rfl hs h4
    refine ⟨_, rfl, rfl, Or.inr ⟨[[(0, 0), (0, 1), (0, 2)], [(1, 0), (1, 1), (1, 2)], [(2, 0), (2, 1), (2, 2)]], [(0, 0), (1, 0), (2, 0)], [[(0, 1), (1, 1), (2, 1)], [(0, 2), (1, 2), (2, 2)], [(0, 0), (1, 1), (2, 2)], [(0, 2), (1, 1), (2, 0)]], rfl, ?_, T4.2 h4, hm.1, hm.2⟩⟩
    intro K hK
    simp only [List.mem_cons, List.mem_singleton, List.not_mem_nil, or_false] at hK
    rcases hK with rfl | rfl | rfl
    · exact mt T1.1 h1
    · exact mt T2.1 h2
    · exact mt T3.1 h3
  rw [if_neg h4]
  by_cases h5 : hit3 s a1 b1 c1
  · rw [if_pos h5]
    have hm := M (fun e => (e, 1)) a1 b1 c1 rfl rfl rfl hs h5
    refine ⟨_, rfl, rfl, Or.inr ⟨[[(0, 0), (0, 1), (0, 2)], [(1, 0), (1, 1), (1, 2)], [(2, 0), (2, 1), (2, 2)], [(0, 0), (1, 0), (2, 0)]], [(0, 1), (1, 1), (2, 1)], [[(0, 2), (1, 2), (2, 2)], [(0, 0), (1, 1), (2, 2)], [(0, 2), (1, 1), (2, 0)]], rfl, ?_, T5.2 h5, hm.1, hm.2⟩⟩
    intro K hK
    simp only [List.mem_cons, List.mem_singleton, List.not_mem_nil, or_false] at hK
    rcases hK with rfl | rfl | rfl | rfl
    · exact mt T1.1 h1
    · exact mt T2.1 h2
    · exact mt T3.1 h3
    · exact mt T4.1 h4
  rw [if_neg h5]
  by_cases h6 : hit3 s a2 b2 c2
  · rw [if_pos h6]
    have hm := M (fun e => (e, 2)) a2 b2 c2 rfl rfl rfl hs h6
    refine ⟨_, rfl, rfl, Or.inr ⟨[[(0, 0), (0, 1), (0, 2)], [(1, 0), (1, 1), (1, 2)], [(2, 0), (2, 1), (2, 2)], [(0, 0), (1, 0), (2, 0)], [(0, 1), (1, 1), (2, 1)]], [(0, 2), (1, 2), (2, 2)], [[(0, 0), (1, 1), (2, 2)], [(0, 2), (1, 1), (2, 0)]], rfl, ?_, T6.2 h6, hm.1, hm.2⟩⟩
    intro K hK
    simp only [List.mem_cons, List.mem_singleton, List.not_mem_nil, or_false] at hK
    rcases hK with rfl | rfl | rfl | rfl | rfl
    · exact mt T1.1 h1
    · exact mt T2.1 h2
    · exact mt T3.1 h3
    · exact mt T4.1 h4
    · exact mt T5.1 h5
  rw [if_neg h6]
  by_cases h7 : hit3 s a0 b1 c2
  · rw [if_pos h7]
    have hm := M (fun e => (e, e)) a0 b1 c2 rfl rfl rfl hs h7
    refine ⟨_, rfl, rfl, Or.inr ⟨[[(0, 0), (0, 1), (0, 2)], [(1, 0), (1, 1), (1, 2)], [(2, 0), (2, 1), (2, 2)], [(0, 0), (1, 0), (2, 0)], [(0, 1), (1, 1), (2, 1)], [(0, 2), (1, 2), (2, 2)]], [(0, 0), (1, 1), (2, 2)], [[(0, 2), (1, 1), (2, 0)]], rfl, ?_, T7.2 h7, hm.1, hm.2⟩⟩
    intro K hK
    simp only [List.mem_cons, List.mem_singleton, List.not_mem_nil, or_false] at hK
    rcases hK with rfl | rfl | rfl | rfl | rfl | rfl
    · exact mt T1.1 h1
    · exact mt T2.1 h2
    · exact mt T3.1 h3
    · exact mt T4.1 h4
    · exact mt T5.1 h5
    · exact mt T6.1 h6
  rw [if_neg h7]
  by_cases h8 : hit3 s a2 b1 c0
  · rw [if_pos h8]
    have hm := M (fun e => (e, 2 - e)) a2 b1 c0 (by simp) (by simp) (by simp) hs h8
    refine ⟨_, rfl, rfl, Or.inr ⟨[[(0, 0), (0, 1), (0, 2)], [(1, 0), (1, 1), (1, 2)], [(2, 0), (2, 1), (2, 2)], [(0, 0), (1, 0), (2, 0)], [(0, 1), (1, 1), (2, 1)], [(0, 2), (1, 2), (2, 2)], [(0, 0), (1, 1), (2, 2)]], [(0, 2), (1, 1), (2, 0)], [], rfl, ?_, T8.2 h8, hm.1, hm.2⟩⟩
    intro K hK
    simp only [List.mem_cons, List.mem_singleton, List.not_mem_nil, or_false] at hK
    rcases hK with rfl | rfl | rfl | rfl | rfl | rfl | rfl
    · exact mt T1.1 h1
    · exact mt T2.1 h2
    · exact mt T3.1 h3
    · exact mt T4.1 h4
    · exact mt T5.1 h5
    · exact mt T6.1 h6
    · exact mt T7.1 h7
  rw [if_neg h8]
  refine ⟨_, rfl, rfl, Or.inl ⟨rfl, rfl, ?_⟩⟩
  intro K hK
  simp only [lines, List.mem_cons, List.mem_singleton, List.not_mem_nil, or_false] at hK
  rcases hK with rfl | rfl | rfl | rfl | rfl | rfl | rfl | rfl
  · exact mt T1.1 h1
  · exact mt T2.1 h2
  · exact mt T3.1 h3
  · exact mt T4.1 h4
  · exact mt T5.1 h5
  · exact mt T6.1 h6
  · exact mt T7.1 h7
  · exact mt T8.1 h8

theorem firstFree33 (a0 a1 a2 b0 b1 b2 c0 c1 c2 s : Int) :
    CleverAI.firstFree ⟨[[a0, a1, a2], [b0, b1, b2], [c0, c1, c2]]⟩ s [0, 1, 2] = some (
      if a0 = -1 then some ⟨0, 0, s⟩
      else if a1 = -1 then some ⟨0, 1, s⟩
      else if a2 = -1 then some ⟨0, 2, s⟩
      else if b0 = -1 then some ⟨1, 0, s⟩
      else if b1 = -1 then some ⟨1, 1, s⟩
      else if b2 = -1 then some ⟨1, 2, s⟩
      else if c0 = -1 then some ⟨2, 0, s⟩
      else if c1 = -1 then some ⟨2, 1, s⟩
      else if c2 = -1 then some ⟨2, 2, s⟩
      else none) := by
  simp only [CleverAI.firstFree, CleverAI.freeInRow, get33_00, get33_01, get33_02, get33_10,
    get33_11, get33_12, get33_20, get33_21, get33_22]
  split_ifs <;> rfl

theorem full33 (a0 a1 a2 b0 b1 b2 c0 c1 c2 : Int) :
    Board.full ⟨[[a0, a1, a2], [b0, b1, b2], [c0, c1, c2]]⟩ = true ↔
      a0 ≠ -1 ∧ a1 ≠ -1 ∧ a2 ≠ -1 ∧ b0 ≠ -1 ∧ b1 ≠ -1 ∧ b2 ≠ -1 ∧
      c0 ≠ -1 ∧ c1 ≠ -1 ∧ c2 ≠ -1 := by
  unfold Board.full
  rw [Board.fullFrom_iff]
  constructor
  · intro h
    have r0 := h [a0, a1, a2] (by simp)
    have r1 := h [b0, b1, b2] (by simp)
    have r2 := h [c0, c1, c2] (by simp)
    simp only [List.mem_cons, List.not_mem_nil, or_false, not_or] at r0 r1 r2
    exact ⟨Ne.symm r0.1, Ne.symm r0.2.1, Ne.symm r0.2.2, Ne.symm r1.1, Ne.symm r1.2.1,
      Ne.symm r1.2.2, Ne.symm r2.1, Ne.symm r2.2.1, Ne.symm r2.2.2⟩
  · rintro ⟨h1, h2, h3, h4, h5, h6, h7, h8, h9⟩ row hrow
    simp only [List.mem_cons, List.not_mem_nil, or_false] at hrow
    rcases hrow with rfl | rfl | rfl
    · simp [Ne.symm h1, Ne.symm h2, Ne.symm h3]
    · simp [Ne.symm h4, Ne.symm h5, Ne.symm h6]
    · simp [Ne.symm h7, Ne.symm h8, Ne.symm h9]

/-- step 3 of `chooseMove` on a 3×3 board: an Empty cell when there is one -/
theorem firstFree_spec (b : Board) (h : b.IsGrid 3 3) (s : Int) :
    (b.full = true ∧ CleverAI.firstFree b s [0, 1, 2] = some none) ∨
    (b.full = false ∧ ∃ m, CleverAI.firstFree b s [0, 1, 2] = some (some m) ∧ m.piece = s ∧
      b.get m.i m.j = some (-1)) := by
  obtain ⟨a0, a1, a2, b0, b1, b2, c0, c1, c2, hb⟩ := isGrid33_cases b h
  subst hb
  rw [firstFree33]
  cases hf : Board.full ⟨[[a0, a1, a2], [b0, b1, b2], [c0, c1, c2]]⟩ with
  | true =>
    obtain ⟨h1, h2, h3, h4, h5, h6, h7, h8, h9⟩ := (full33 ..).1 hf
    left
    simp [h1, h2, h3, h4, h5, h6, h7, h8, h9]
  | false =>
    right
    refine ⟨rfl, ?_⟩
    have hnf : ¬ (a0 ≠ -1 ∧ a1 ≠ -1 ∧ a2 ≠ -1 ∧ b0 ≠ -1 ∧ b1 ≠ -1 ∧ b2 ≠ -1 ∧
      c0 ≠ -1 ∧ c1 ≠ -1 ∧ c2 ≠ -1) := by
      intro hall
      rw [(full33 ..).2 hall] at hf
      cases hf
    by_cases h1 : a0 = -1
    · rw [if_pos h1]; exact ⟨_, rfl, rfl, by simp [h1]⟩
    rw [if_neg h1]
    by_cases h2 : a1 = -1
    · rw [if_pos h2]; exact ⟨_, rfl, rfl, by simp [h2]⟩
    rw [if_neg h2]
    by_cases h3 : a2 = -1
    · rw [if_pos h3]; exact ⟨_, rfl, rfl, by simp [h3]⟩
    rw [if_neg h3]
    by_cases h4 : b0 = -1
    · rw [if_pos h4]; exact ⟨_, rfl, rfl, by simp [h4]⟩
    rw [if_neg h4]
    by_cases h5 : b1 = -1
    · rw [if_pos h5]; exact ⟨_, rfl, rfl, by simp [h5]⟩
    rw [if_neg h5]
    by_cases h6 : b2 = -1
    · rw [if_pos h6]; exact ⟨_, rfl, rfl, by simp [h6]⟩
    rw [if_neg h6]
    by_cases h7 : c0 = -1
    · rw [if_pos h7]; exact ⟨_, rfl, rfl, by simp [h7]⟩
    rw [if_neg h7]
    by_cases h8 : c1 = -1
    · rw [if_pos h8]; exact ⟨_, rfl, rfl, by simp [h8]⟩
    rw [if_neg h8]
    by_cases h9 : c2 = -1
    · rw [if_pos h9]; exact ⟨_, rfl, rfl, by simp [h9]⟩
    exact absurd ⟨h1, h2, h3, h4, h5, h6, h7, h8, h9⟩ hnf

/-- the opponent's piece computed by `chooseMove` -/
theorem opponent_ne (s : Int) : (if s = 0 then (1 : Int) else 0) ≠ -1 := by
  split_ifs <;> decide

/-- the three steps of `CleverAI::chooseMove` on a 3×3 board -/
theorem cleverChooseMove_spec (b : Board) (h : b.IsGrid 3 3) (s : Int) (hs : s ≠ -1) :
    ∃ m, CleverAI.chooseMove s b = some m ∧ m.piece = s ∧
      ((∃ pre L post, lines = pre ++ L :: post ∧ (∀ K ∈ pre, ¬ twoAndEmpty b s K) ∧
          twoAndEmpty b s L ∧ (m.i, m.j) ∈ L ∧ b.get m.i m.j = some (-1)) ∨
       ((∀ L ∈ lines, ¬ twoAndEmpty b s L) ∧
          ∃ pre L post, lines = pre ++ L :: post ∧
            (∀ K ∈ pre, ¬ twoAndEmpty b (if s = 0 then 1 else 0) K) ∧
            twoAndEmpty b (if s = 0 then 1 else 0) L ∧ (m.i, m.j) ∈ L ∧
            b.get m.i m.j = some (-1)) ∨
       ((∀ L ∈ lines, ¬ twoAndEmpty b s L) ∧
          (∀ L ∈ lines, ¬ twoAndEmpty b (if s = 0 then 1 else 0) L) ∧
          ((b.full = false ∧ CleverAI.firstFree b s [0, 1, 2] = some (some m) ∧
              b.get m.i m.j = some (-1)) ∨
           (b.full = true ∧ m = ⟨0, 0, s⟩)))) := by
  unfold CleverAI.chooseMove
  obtain ⟨w, hw, hwp, hwc⟩ := findWinningMove_spec b h s hs
  obtain ⟨k, hk, hkp, hkc⟩ := findWinningMove_spec b h (if s = 0 then 1 else 0) (opponent_ne s)
  simp only [hw, hk]
  rcases hwc with ⟨hwi, _, hnone⟩ | ⟨pre, L, post, hl, hpre, hL, hmem, hget⟩
  · rw [if_neg (not_not.2 hwi)]
    rcases hkc with ⟨hki, _, hknone⟩ | ⟨pre, L, post, hl, hpre, hL, hmem, hget⟩
    · rw [if_neg (not_not.2 hki)]
      rcases firstFree_spec b h s with ⟨hf, hff⟩ | ⟨hf, m, hff, hmp, hmg⟩
      · rw [hff]
        exact ⟨_, rfl, rfl, Or.inr (Or.inr ⟨hnone, hknone, Or.inr ⟨hf, rfl⟩⟩)⟩
      · rw [hff]
        exact ⟨_, rfl, hmp, Or.inr (Or.inr ⟨hnone, hknone, Or.inl ⟨hf, rfl, hmg⟩⟩)⟩
    · have hki : k.i ≠ -1 := by
        have := ((Board.get_eq_some_iff b k.i k.j (-1)).1 hget).1
        omega
      rw [if_pos hki]
      exact ⟨_, rfl, rfl, Or.inr (Or.inl ⟨hnone, pre, L, post, hl, hpre, hL, hmem, hget⟩)⟩
  · have hwi : w.i ≠ -1 := by
      have := ((Board.get_eq_some_iff b w.i w.j (-1)).1 hget).1
      omega
    rw [if_pos hwi]
    exact ⟨_, rfl, hwp, Or.inl ⟨pre, L, post, hl, hpre, hL, hmem, hget⟩⟩

theorem scanCols_spec (b : Board) (s : Int) (i M : Nat)
    (hrow : ∀ j : Nat, j < M → ∃ v, b.get i j = some v) :
    ∀ n j, j + n = M →
      (∃ j1 : Nat, j ≤ j1 ∧ j1 < M ∧
          DumbAI.scanCols b s i (List.range' j n) = some (some ⟨i, j1, s⟩) ∧
          b.get i j1 = some (-1) ∧ ∀ k : Nat, j ≤ k → k < j1 → b.get i k ≠ some (-1)) ∨
      (DumbAI.scanCols b s i (List.range' j n) = some none ∧
          ∀ k : Nat, j ≤ k → k < M → b.get i k ≠ some (-1)) := by
  intro n
  induction n with
  | zero =>
    intro j hj
    right
    refine ⟨rfl, ?_⟩
    intro k h1 h2
    omega
  | succ n ih =>
    intro j hj
    rw [List.range'_succ]
    unfold DumbAI.scanCols
    obtain ⟨v, hv⟩ := hrow j (by omega)
    rw [hv]
    by_cases hv1 : v = -1
    · left
      subst hv1
      exact ⟨j, le_refl j, by omega, by simp, hv, by intro k h1 h2; omega⟩
    · simp only [if_neg hv1]
      rcases ih (j + 1) (by omega) with ⟨j1, h1, h2, h3, h4, h5⟩ | ⟨h3, h5⟩
      · left
        refine ⟨j1, by omega, h2, h3, h4, ?_⟩
        intro k hk1 hk2
        by_cases hkj : k = j
        · subst hkj
          rw [hv]
          simpa using hv1
        · exact h5 k (by omega) hk2
      · right
        refine ⟨h3, ?_⟩
        intro k hk1 hk2
        by_cases hkj : k = j
        · subst hkj
          rw [hv]
          simpa using hv1
        · exact h5 k (by omega) hk2

theorem scanRows_spec (b : Board) (s : Int) (N M : Nat) (hg : b.IsGrid N M) :
    ∀ n i, i + n = N →
      (∃ i1 j1 : Nat, i ≤ i1 ∧ i1 < N ∧ j1 < M ∧
          DumbAI.scanRows b s (List.range' i n) = some (some ⟨i1, j1, s⟩) ∧
          b.get i1 j1 = some (-1) ∧
          ∀ k l : Nat, i ≤ k → l < M → (k < i1 ∨ (k = i1 ∧ l < j1)) →
            b.get k l ≠ some (-1)) ∨
      (DumbAI.scanRows b s (List.range' i n) = some none ∧
          ∀ k l : Nat, i ≤ k → k < N → l < M → b.get k l ≠ some (-1)) := by
  intro n
  induction n with
  | zero =>
    intro i hi
    right
    refine ⟨rfl, ?_⟩
    intro k l h1 h2
    omega
  | succ n ih =>
    intro i hi
    rw [List.range'_succ]
    unfold DumbAI.scanRows
    have hcols : b.getCols = some M := by
      unfold Board.getCols
      obtain ⟨hN, hM⟩ := hg
      cases ht : b.table with
      | nil => rw [ht] at hN; simp at hN; omega
      | cons r rs => simp [hM r (by rw [ht]; simp)]
    rw [hcols]
    have hrow : ∀ j : Nat, j < M → ∃ v, b.get i j = some v := by
      intro j hj
      exact Board.get_isSome_of_isGrid b N M hg i j ⟨by omega, by omega⟩ ⟨by omega, by omega⟩
    have hc := scanCols_spec b s i M hrow M 0 (by omega)
    rw [← List.range_eq_range'] at hc
    rcases hc with ⟨j1, _, h2, h3, h4, h5⟩ | ⟨h3, h5⟩
    · left
      simp only [h3]
      refine ⟨i, j1, le_refl i, by omega, h2, rfl, h4, ?_⟩
      intro k l hk hl hlt
      rcases hlt with hlt | ⟨rfl, hlt⟩
      · omega
      · exact h5 l (by omega) hlt
    · simp only [h3]
      rcases ih (i + 1) (by omega) with ⟨i1, j1, g1, g2, g3, g4, g5, g6⟩ | ⟨g4, g6⟩
      · left
        refine ⟨i1, j1, by omega, g2, g3, g4, g5, ?_⟩
        intro k l hk hl hlt
        by_cases hki : k = i
        · subst hki
          exact h5 l (by omega) hl
        · exact g6 k l (by omega) hl hlt
      · right
        refine ⟨g4, ?_⟩
        intro k l hk hk2 hl
        by_cases hki : k = i
        · subst hki
          exact h5 l (by omega) hl
        · exact g6 k l (by omega) hk2 hl

/-- `DumbAI::chooseMove` on an `N × M` board: the first Empty cell in row-major order,
or `(0, 0)` when there is none -/
theorem dumbChooseMove_spec (b : Board) (s : Int) (N M : Nat) (hg : b.IsGrid N M) :
    (∃ i1 j1 : Nat, i1 < N ∧ j1 < M ∧ DumbAI.chooseMove s b = some ⟨i1, j1, s⟩ ∧
        b.get i1 j1 = some (-1) ∧
        ∀ k l : Nat, l < M → (k < i1 ∨ (k = i1 ∧ l < j1)) → b.get k l ≠ some (-1)) ∨
    (DumbAI.chooseMove s b = some ⟨0, 0, s⟩ ∧
        ∀ k l : Nat, k < N → l < M → b.get k l ≠ some (-1)) := by
  unfold DumbAI.chooseMove
  have hN : b.getRows = N := hg.1
  rw [hN, List.range_eq_range']
  rcases scanRows_spec b s N M hg N 0 (by omega) with
    ⟨i1, j1, _, g2, g3, g4, g5, g6⟩ | ⟨g4, g6⟩
  · left
    rw [g4]
    exact ⟨i1, j1, g2, g3, rfl, g5, fun k l hl hlt => g6 k l (by omega) hl hlt⟩
  · right
    rw [g4]
    exact ⟨rfl, fun k l hk hl => g6 k l (by omega) hk hl⟩

theorem lines_three (L : List (Int × Int)) (hL : L ∈ lines) : ∃ p q r, L = [p, q, r] := by
  simp only [lines, List.mem_cons, List.mem_singleton, List.not_mem_nil, or_false] at hL
  rcases hL with rfl | rfl | rfl | rfl | rfl | rfl | rfl | rfl <;> exact ⟨_, _, _, rfl⟩

/-- on a line with two `o` cells and an Empty one, every cell other than the Empty one
holds `o` -/
theorem twoAndEmpty_cells (b : Board) (o : Int) (p q r : Int × Int) (ho : o ≠ -1)
    (h : twoAndEmpty b o [p, q, r]) (c : Int × Int) (hc : c ∈ [p, q, r])
    (hce : b.get c.1 c.2 = some (-1)) :
    ∀ d ∈ [p, q, r], d = c ∨ b.get d.1 d.2 = some o := by
  have ho' : ¬ (-1 : Int) = o := fun e => ho e.symm
  obtain ⟨hcount, _⟩ := h
  simp only [List.filter_cons, List.filter_nil] at hcount
  intro d hd
  simp only [List.mem_cons, List.mem_singleton, List.not_mem_nil, or_false] at hc hd
  by_cases h1 : b.get p.1 p.2 = some o <;> by_cases h2 : b.get q.1 q.2 = some o <;>
    by_cases h3 : b.get r.1 r.2 = some o <;>
    simp only [h1, h2, h3, decide_True, decide_False, if_true, if_false, List.length_cons,
      List.length_nil] at hcount <;>
    first
    | omega
    | (rcases hc with rfl | rfl | rfl <;> rcases hd with rfl | rfl | rfl <;>
        simp_all)

theorem get_some_range (b : Board) (N M : Nat) (hg : b.IsGrid N M) (i j v : Int)
    (h : b.get i j = some v) : 0 ≤ i ∧ i < N ∧ 0 ≤ j ∧ j < M := by
  obtain ⟨hi, hj, row, hrow, hcell⟩ := (Board.get_eq_some_iff b i j v).1 h
  obtain ⟨hN, hM⟩ := hg
  have hI : i.toNat < b.table.length := by
    by_contra hlt
    rw [List.getElem?_eq_none (Nat.le_of_not_lt hlt)] at hrow
    cases hrow
  have hJ : j.toNat < row.length := by
    by_contra hlt
    rw [List.getElem?_eq_none (Nat.le_of_not_lt hlt)] at hcell
    cases hcell
  have := hM row (List.getElem?_mem hrow)
  omega

/-- what `victory()` returns on a 3×3 board -/
theorem victory_spec (g : Game) (h : g.board.IsGrid 3 3) :
    ∃ w, g.victory = some w ∧
      (w ≠ -1 ↔ ∃ L ∈ lines, ∃ p, p ≠ -1 ∧ lineAll g.board p L) ∧
      (w ≠ -1 → ∃ L ∈ lines, lineAll g.board w L) ∧
      ((¬ ∃ L ∈ lines, ∃ p, p ≠ -1 ∧ lineAll g.board p L) → w = -1) := by
  obtain ⟨a0, a1, a2, b0, b1, b2, c0, c1, c2, hb⟩ := isGrid33_cases g.board h
  refine ⟨_, victory33 g a0 a1 a2 b0 b1 b2 c0 c1 c2 hb, ?_⟩
  rw [hb, exists_won33]
  simp only [lines_all33]
  refine ⟨?_, ?_, ?_⟩
  · split_ifs with h1 h2 h3 h4 h5 h6 h7 h8
    · simp [h1, h1.1]
    · simp [h2, h2.1]
    · simp [h3, h3.1]
    · simp [h4, h4.1]
    · simp [h5, h5.1]
    · simp [h6, h6.1]
    · simp [h7, h7.1]
    · simp [h8, h8.1]
    · simp [h1, h2, h3, h4, h5, h6, h7, h8]
  · split_ifs with h1 h2 h3 h4 h5 h6 h7 h8
    · intro _; exact Or.inl (won3_all _ _ _ h1).2
    · intro _; exact Or.inr (Or.inr (Or.inr (Or.inl (won3_all _ _ _ h2).2)))
    · intro _; exact Or.inr (Or.inl (won3_all _ _ _ h3).2)
    · intro _; exact Or.inr (Or.inr (Or.inr (Or.inr (Or.inl (won3_all _ _ _ h4).2))))
    · intro _; exact Or.inr (Or.inr (Or.inl (won3_all _ _ _ h5).2))
    · intro _; exact Or.inr (Or.inr (Or.inr (Or.inr (Or.inr (Or.inl (won3_all _ _ _ h6).2)))))
    · intro _; exact Or.inr (Or.inr (Or.inr (Or.inr (Or.inr (Or.inr (Or.inl (won3_all _ _ _ h7).2))))))
    · intro _; exact Or.inr (Or.inr (Or.inr (Or.inr (Or.inr (Or.inr (Or.inr (won3_all _ _ _ h8).2))))))
    · intro h; exact absurd rfl h
  · split_ifs with h1 h2 h3 h4 h5 h6 h7 h8 <;> simp_all

/-! ## The runner -/


theorem victory_congr (g g1 : Game) (h : g1.board = g.board) : g1.victory = g.victory := by
  unfold Game.victory
  rw [h]

theorem makeMovePlayer_status (g g1 : Game) (first : Bool) (inp inp1 : List (Int × Int))
    (out out1 : String) (h : g.makeMovePlayer first inp out = some (g1, inp1, out1)) :
    g1.status = g.status := by
  unfold Game.makeMovePlayer at h
  split at h
  · cases h
  · simp only [Option.some.injEq, Prod.mk.injEq] at h
    rw [← h.1]

theorem makeMoveAI_status (g g1 : Game) (h : g.makeMoveAI = some g1) :
    g1.status = g.status := by
  unfold Game.makeMoveAI at h
  split at h
  · cases h
  · split at h
    · cases h
    · split at h
      · cases h
      · simp only [Option.some.injEq] at h
        rw [← h]

theorem loopGuard_exit (g : Game)
    (h : g.board.full = true ∨ ∃ w, g.victory = some w ∧ w ≠ -1) :
    ConsoleRunner.loopGuard g = some false := by
  unfold ConsoleRunner.loopGuard
  by_cases hf : g.board.full = true
  · rw [if_pos hf]
  · rw [if_neg hf]
    rcases h with h | ⟨w, hw, hw1⟩
    · exact absurd h hf
    · rw [hw]
      simp [hw1]

/-- when the loop test fails, the loop performs no move -/
theorem playLoop_exit (fuel : Nat) (r : ConsoleRunner) (t : Bool)
    (h : r.game.board.full = true ∨ ∃ w, r.game.victory = some w ∧ w ≠ -1) :
    ConsoleRunner.playLoop fuel r t = some (r, t) := by
  cases fuel with
  | zero => unfold ConsoleRunner.playLoop; rw [loopGuard_exit r.game h]
  | succ n => unfold ConsoleRunner.playLoop; rw [loopGuard_exit r.game h]

theorem playStep_status (r r1 : ConsoleRunner) (t t1 : Bool)
    (h : ConsoleRunner.playStep r t = some (r1, t1)) : r1.game.status = r.game.status := by
  unfold ConsoleRunner.playStep at h
  simp only at h
  split_ifs at h
  · split at h
    · cases h
    · rename_i g inp out1 hmv
      simp only [Option.some.injEq, Prod.mk.injEq] at h
      rw [← h.1]
      exact makeMovePlayer_status _ _ _ _ _ _ _ hmv
  · split at h
    · cases h
    · rename_i g inp out1 hmv
      simp only [Option.some.injEq, Prod.mk.injEq] at h
      rw [← h.1]
      exact makeMovePlayer_status _ _ _ _ _ _ _ hmv
  · split at h
    · cases h
    · rename_i g hmv
      simp only [Option.some.injEq, Prod.mk.injEq] at h
      rw [← h.1]
      exact makeMoveAI_status _ _ hmv

/-- the loop never touches the status -/
theorem playLoop_status (fuel : Nat) : ∀ (r r1 : ConsoleRunner) (t t1 : Bool),
    ConsoleRunner.playLoop fuel r t = some (r1, t1) → r1.game.status = r.game.status := by
  induction fuel with
  | zero =>
    intro r r1 t t1 h
    unfold ConsoleRunner.playLoop at h
    split at h
    · cases h
    · simp only [Option.some.injEq, Prod.mk.injEq] at h
      rw [← h.1]
    · cases h
  | succ n ih =>
    intro r r1 t t1 h
    unfold ConsoleRunner.playLoop at h
    split at h
    · cases h
    · simp only [Option.some.injEq, Prod.mk.injEq] at h
      rw [← h.1]
    · split at h
      · cases h
      · rename_i r2 t2 hstep
        rw [ih _ _ _ _ h]
        exact playStep_status _ _ _ _ hstep

/-- `DRAW` comes out of the status resolution only for a full board without winner -/
theorem resolveStatus_draw (g g1 : Game) (h : ConsoleRunner.resolveStatus g = some g1)
    (hs : g.status ≠ GameStatus.DRAW) (hd : g1.status = GameStatus.DRAW) :
    g1.board = g.board ∧ g.board.full = true ∧ g.victory = some (-1) := by
  unfold ConsoleRunner.resolveStatus at h
  split_ifs at h with hf
  · split at h
    · cases h
    · rename_i w hw
      split_ifs at h with h1 h2 h3 <;> simp only [Option.some.injEq] at h <;> subst h
      · exact ⟨rfl, hf, by rw [hw, h1]⟩
      · cases hd
      · cases hd
      · exact absurd hd hs
  · split at h
    · cases h
    · split_ifs at h <;> simp only [Option.some.injEq] at h <;> subst h
      · cases hd
      · cases hd
      · exact absurd hd hs

/-- the status resolution on a 3×3 board, in terms of the value of `victory()` -/
theorem resolveStatus_eq (g : Game) (w : Int) (hw : g.victory = some w)
    (hexit : g.board.full = true ∨ w ≠ -1) (hr : w = -1 ∨ w = 0 ∨ w = 1) :
    ConsoleRunner.resolveStatus g = some { g with status :=
      if w = 0 then GameStatus.O_WON else if w = 1 then GameStatus.X_WON
      else GameStatus.DRAW } := by
  unfold ConsoleRunner.resolveStatus
  rw [hw]
  rcases hr with rfl | rfl | rfl
  · rcases hexit with hf | hne
    · simp [hf]
    · exact absurd rfl hne
  · by_cases hf : g.board.full = true <;> simp [hf]
  · by_cases hf : g.board.full = true <;> simp [hf]

theorem mem_cells_of_get (b : Board) (i j v : Int) (h : b.get i j = some v) :
    ∃ row ∈ b.table, v ∈ row := by
  obtain ⟨_, _, row, hrow, hcell⟩ := (Board.get_eq_some_iff b i j v).1 h
  exact ⟨row, List.getElem?_mem hrow, List.getElem?_mem hcell⟩

/-- a piece that fills a line is the value of some cell -/
theorem lineAll_cell (b : Board) (p : Int) (L : List (Int × Int)) (hL : L ∈ lines)
    (h : lineAll b p L) : ∃ row ∈ b.table, p ∈ row := by
  obtain ⟨c, q, r, rfl⟩ := lines_three L hL
  exact mem_cells_of_get b c.1 c.2 p (h c (by simp))

/-- with cells in `{-1, 0, 1}` the value of `victory()` is in `{-1, 0, 1}` -/
theorem victory_range (g : Game) (h : g.board.IsGrid 3 3)
    (hcells : ∀ row ∈ g.board.table, ∀ v ∈ row, v = -1 ∨ v = 0 ∨ v = 1) (w : Int)
    (hw : g.victory = some w) : w = -1 ∨ w = 0 ∨ w = 1 := by
  obtain ⟨w1, hw1, _, hline, _⟩ := victory_spec g h
  rw [hw] at hw1
  simp only [Option.some.injEq] at hw1
  subst hw1
  by_cases hne : w = -1
  · exact Or.inl hne
  · obtain ⟨L, hL, hall⟩ := hline hne
    obtain ⟨row, hrow, hmem⟩ := lineAll_cell g.board w L hL hall
    exact hcells row hrow w hmem

theorem printResult_eq (r : ConsoleRunner) :
    (r.printResult = "O won!\n" ↔ r.game.status = GameStatus.O_WON) ∧
    (r.printResult = "Draw!\n" ↔ r.game.status = GameStatus.DRAW) ∧
    (r.printResult = "X won!\n" ↔
      (r.game.status = GameStatus.X_WON ∨ r.game.status = GameStatus.IN_PROGRESS)) := by
  unfold ConsoleRunner.printResult
  cases r.game.status <;> decide

/-! ## The claims -/

/-- C1: on every 3×3 board `victory()` returns a value; that value differs from `-1`
exactly when some row, column or diagonal holds three identical non-Empty cells, and a
returned piece `w ≠ -1` fills some line; otherwise the value is `-1`. -/
theorem C1_victory_iff_three_in_line (g : Game) (h : g.board.IsGrid 3 3) :
    ∃ w, g.victory = some w ∧
      (w ≠ -1 ↔ ∃ L ∈ lines, ∃ p, p ≠ -1 ∧ lineAll g.board p L) ∧
      (w ≠ -1 → ∃ L ∈ lines, lineAll g.board w L) ∧
      ((¬ ∃ L ∈ lines, ∃ p, p ≠ -1 ∧ lineAll g.board p L) → w = -1) :=
  victory_spec g h

theorem C1_victory_iff_three_in_line_witness :
    (gameOn [[0, 1, 1], [-1, 0, 1], [1, -1, 0]]).board.IsGrid 3 3 ∧
    ∃ w, (gameOn [[0, 1, 1], [-1, 0, 1], [1, -1, 0]]).victory = some w ∧
      (w ≠ -1 ↔ ∃ L ∈ lines, ∃ p, p ≠ -1 ∧
        lineAll (gameOn [[0, 1, 1], [-1, 0, 1], [1, -1, 0]]).board p L) ∧
      (w ≠ -1 → ∃ L ∈ lines, lineAll (gameOn [[0, 1, 1], [-1, 0, 1], [1, -1, 0]]).board w L) ∧
      ((¬ ∃ L ∈ lines, ∃ p, p ≠ -1 ∧
        lineAll (gameOn [[0, 1, 1], [-1, 0, 1], [1, -1, 0]]).board p L) → w = -1) :=
  ⟨by decide, C1_victory_iff_three_in_line (gameOn [[0, 1, 1], [-1, 0, 1], [1, -1, 0]])
    (by decide)⟩

/-- C2: for an in-bounds move on an `N × M` board, `set` on an Empty target returns
`true`, the target then holds the placed piece and every other cell is unchanged; on a
non-Empty target it returns `false` and the board is unchanged, so that repeating the
move is rejected again with the same board. -/
theorem C2_set_places_or_rejects (b : Board) (N M : Nat) (m : Move) (hg : b.IsGrid N M)
    (hi : 0 ≤ m.i ∧ m.i < N) (hj : 0 ≤ m.j ∧ m.j < M) :
    (b.get m.i m.j = some (-1) →
      ∃ b1, b.set m = some (true, b1) ∧ b1.get m.i m.j = some m.piece ∧
        ∀ i j, ¬ (i = m.i ∧ j = m.j) → b1.get i j = b.get i j) ∧
    (b.get m.i m.j ≠ some (-1) →
      b.set m = some (false, b) ∧
        (b.set m).bind (fun r => r.2.set m) = some (false, b)) := by
  obtain ⟨v, hv⟩ := Board.get_isSome_of_isGrid b N M hg m.i m.j hi hj
  constructor
  · intro he
    obtain ⟨b1, hset, hget, _⟩ := Board.set_empty b m he
    refine ⟨b1, hset, ?_, ?_⟩
    · rw [hget, if_pos ⟨rfl, rfl⟩]
    · intro i j hne
      rw [hget, if_neg hne]
  · intro hne
    have hv1 : v ≠ -1 := by
      intro e
      rw [e] at hv
      exact hne hv
    have hset := Board.set_occupied b m v hv hv1
    refine ⟨hset, ?_⟩
    rw [hset]
    exact hset

theorem C2_set_places_or_rejects_witness :
    (Board.mk [[1, -1, -1], [-1, 0, -1], [-1, -1, -1]]).IsGrid 3 3 ∧
    (((Board.mk [[1, -1, -1], [-1, 0, -1], [-1, -1, -1]]).get 0 2 = some (-1) →
      ∃ b1, (Board.mk [[1, -1, -1], [-1, 0, -1], [-1, -1, -1]]).set ⟨0, 2, 1⟩ = some (true, b1) ∧
        b1.get 0 2 = some 1 ∧
        ∀ i j, ¬ (i = 0 ∧ j = 2) →
          b1.get i j = (Board.mk [[1, -1, -1], [-1, 0, -1], [-1, -1, -1]]).get i j) ∧
    ((Board.mk [[1, -1, -1], [-1, 0, -1], [-1, -1, -1]]).get 0 2 ≠ some (-1) →
      (Board.mk [[1, -1, -1], [-1, 0, -1], [-1, -1, -1]]).set ⟨0, 2, 1⟩ =
          some (false, Board.mk [[1, -1, -1], [-1, 0, -1], [-1, -1, -1]]) ∧
        ((Board.mk [[1, -1, -1], [-1, 0, -1], [-1, -1, -1]]).set ⟨0, 2, 1⟩).bind
            (fun r => r.2.set ⟨0, 2, 1⟩) =
          some (false, Board.mk [[1, -1, -1], [-1, 0, -1], [-1, -1, -1]]))) :=
  ⟨by decide,
    C2_set_places_or_rejects (Board.mk [[1, -1, -1], [-1, 0, -1], [-1, -1, -1]]) 3 3 ⟨0, 2, 1⟩
      (by decide) (by decide) (by decide)⟩

/-- C3: when exactly one line holds two cells of the AI's piece `s` and an Empty third
cell, and no line holds two opponent cells and an Empty one, `CleverAI::chooseMove`
returns the move `(r, c, s)` on the Empty cell `(r, c)` of that line. -/
theorem C3_clever_completes_unique_line (b : Board) (s : Int) (L : List (Int × Int))
    (r c : Int) (hb : b.IsGrid 3 3) (hs : s = 0 ∨ s = 1) (hL : L ∈ lines)
    (hwin : twoAndEmpty b s L) (huniq : ∀ K ∈ lines, twoAndEmpty b s K → K = L)
    (_hopp : ∀ K ∈ lines, ¬ twoAndEmpty b (1 - s) K)
    (hrc : (r, c) ∈ L) (hempty : b.get r c = some (-1)) :
    CleverAI.chooseMove s b = some ⟨r, c, s⟩ := by
  have hs1 : s ≠ -1 := by omega
  obtain ⟨m, hm, hmp, hcase⟩ := cleverChooseMove_spec b hb s hs1
  rcases hcase with ⟨pre, K, post, hl, _, hK, hmem, hget⟩ | ⟨hnone, _⟩ | ⟨hnone, _⟩
  · have hKL : K = L := huniq K (by rw [hl]; simp) hK
    subst hKL
    obtain ⟨p, q, t, rfl⟩ := lines_three K hL
    have := twoAndEmpty_cells b s p q t hs1 hwin (r, c) hrc hempty (m.i, m.j) hmem
    rcases this with h | h
    · rw [hm]
      obtain ⟨mi, mj, mp⟩ := m
      simp only [Prod.mk.injEq] at h
      simp only at hmp
      rw [h.1, h.2, hmp]
    · simp only at h
      rw [hget] at h
      simp only [Option.some.injEq] at h
      omega
  · exact absurd hwin (hnone L hL)
  · exact absurd hwin (hnone L hL)

theorem C3_clever_completes_unique_line_witness :
    (Board.mk [[1, 1, -1], [0, -1, -1], [-1, -1, 0]]).IsGrid 3 3 ∧
    [((0 : Int), (0 : Int)), (0, 1), (0, 2)] ∈ lines ∧
    twoAndEmpty (Board.mk [[1, 1, -1], [0, -1, -1], [-1, -1, 0]]) 1 [(0, 0), (0, 1), (0, 2)] ∧
    (∀ K ∈ lines, ¬ twoAndEmpty (Board.mk [[1, 1, -1], [0, -1, -1], [-1, -1, 0]]) (1 - 1) K) ∧
    CleverAI.chooseMove 1 (Board.mk [[1, 1, -1], [0, -1, -1], [-1, -1, 0]]) =
      some ⟨0, 2, 1⟩ :=
  ⟨by decide, by decide, by decide, by decide,
    C3_clever_completes_unique_line (Board.mk [[1, 1, -1], [0, -1, -1], [-1, -1, 0]]) 1
      [(0, 0), (0, 1), (0, 2)] 0 2 (by decide) (by decide) (by decide) (by decide)
      (by decide) (by decide) (by decide) (by decide)⟩

/-- C4: when no line holds two cells of the AI's piece `s` and an Empty one, but some line
holds two opponent cells and an Empty one, `CleverAI::chooseMove` returns a move with the
AI's own piece on the Empty cell of such an opponent line; once `set` has applied it the
line has no Empty cell left, so the opponent can no longer complete it. -/
theorem C4_clever_blocks_opponent (b : Board) (s : Int) (hb : b.IsGrid 3 3)
    (hs : s = 0 ∨ s = 1) (hnowin : ∀ K ∈ lines, ¬ twoAndEmpty b s K)
    (hthreat : ∃ K ∈ lines, twoAndEmpty b (1 - s) K) :
    ∃ m L b1, CleverAI.chooseMove s b = some m ∧ m.piece = s ∧ L ∈ lines ∧
      twoAndEmpty b (1 - s) L ∧ (m.i, m.j) ∈ L ∧ b.get m.i m.j = some (-1) ∧
      b.set m = some (true, b1) ∧ b1.get m.i m.j = some s ∧
      (∀ c ∈ L, b1.get c.1 c.2 ≠ some (-1)) ∧ ¬ twoAndEmpty b1 (1 - s) L := by
  have hs1 : s ≠ -1 := by omega
  have ho : (if s = 0 then (1 : Int) else 0) = 1 - s := by
    rcases hs with rfl | rfl <;> rfl
  have ho1 : (1 - s) ≠ -1 := by omega
  obtain ⟨m, hm, hmp, hcase⟩ := cleverChooseMove_spec b hb s hs1
  rw [ho] at hcase
  rcases hcase with ⟨pre, K, post, hl, _, hK, _⟩ | ⟨_, pre, K, post, hl, _, hK, hmem, hget⟩ |
    ⟨_, hnone, _⟩
  · exact absurd hK (hnowin K (by rw [hl]; simp))
  · have hKl : K ∈ lines := by rw [hl]; simp
    obtain ⟨b1, hset, hget1, _⟩ := Board.set_empty b m hget
    have hfilled : ∀ c ∈ K, b1.get c.1 c.2 ≠ some (-1) := by
      obtain ⟨p, q, t, rfl⟩ := lines_three K hKl
      intro d hd
      rw [hget1]
      split_ifs with hd1
      · rw [hmp]
        intro e
        simp only [Option.some.injEq] at e
        exact hs1 e
      · rcases twoAndEmpty_cells b (1 - s) p q t ho1 hK (m.i, m.j) hmem hget d hd with h | h
        · rw [h] at hd1
          exact absurd ⟨rfl, rfl⟩ hd1
        · rw [h]
          intro e
          simp only [Option.some.injEq] at e
          exact ho1 e
    refine ⟨m, K, b1, hm, hmp, hKl, hK, hmem, hget, hset, ?_, hfilled, ?_⟩
    · rw [hget1, if_pos ⟨rfl, rfl⟩, hmp]
    · rintro ⟨_, c, hc, hce⟩
      exact hfilled c hc hce
  · obtain ⟨K, hK, hKt⟩ := hthreat
    exact absurd hKt (hnone K hK)

theorem C4_clever_blocks_opponent_witness :
    (Board.mk [[1, -1, -1], [0, 0, -1], [-1, -1, 1]]).IsGrid 3 3 ∧
    (∀ K ∈ lines, ¬ twoAndEmpty (Board.mk [[1, -1, -1], [0, 0, -1], [-1, -1, 1]]) 1 K) ∧
    (∃ K ∈ lines, twoAndEmpty (Board.mk [[1, -1, -1], [0, 0, -1], [-1, -1, 1]]) (1 - 1) K) ∧
    ∃ m L b1, CleverAI.chooseMove 1 (Board.mk [[1, -1, -1], [0, 0, -1], [-1, -1, 1]]) = some m ∧
      m.piece = 1 ∧ L ∈ lines ∧
      twoAndEmpty (Board.mk [[1, -1, -1], [0, 0, -1], [-1, -1, 1]]) (1 - 1) L ∧
      (m.i, m.j) ∈ L ∧
      (Board.mk [[1, -1, -1], [0, 0, -1], [-1, -1, 1]]).get m.i m.j = some (-1) ∧
      (Board.mk [[1, -1, -1], [0, 0, -1], [-1, -1, 1]]).set m = some (true, b1) ∧
      b1.get m.i m.j = some 1 ∧
      (∀ c ∈ L, b1.get c.1 c.2 ≠ some (-1)) ∧ ¬ twoAndEmpty b1 (1 - 1) L :=
  ⟨by decide, by decide, by decide,
    C4_clever_blocks_opponent (Board.mk [[1, -1, -1], [0, 0, -1], [-1, -1, 1]]) 1
      (by decide) (by decide) (by decide) (by decide)⟩

/-- C5: on a 3×3 board that is not full, the move chosen by either AI variant holding
piece `0` or `1` lies inside the board, targets an Empty cell and carries the AI's piece;
`set` then returns `true`, so `makeMoveAI` places that piece. -/
theorem C5_ai_move_is_placed (g : Game) (ai : AI) (hb : g.board.IsGrid 3 3)
    (hs : ai.getSymbol = 0 ∨ ai.getSymbol = 1) (hai : g.pAI = some ai)
    (hnf : g.board.full = false) :
    ∃ m b1, ai.chooseMove g.board = some m ∧ 0 ≤ m.i ∧ m.i ≤ 2 ∧ 0 ≤ m.j ∧ m.j ≤ 2 ∧
      g.board.get m.i m.j = some (-1) ∧ m.piece = ai.getSymbol ∧
      g.board.set m = some (true, b1) ∧ b1.get m.i m.j = some ai.getSymbol ∧
      g.makeMoveAI = some { g with board := b1 } := by
  have key : ∃ m, ai.chooseMove g.board = some m ∧ g.board.get m.i m.j = some (-1) ∧
      m.piece = ai.getSymbol := by
    cases ai with
    | dumb s =>
      simp only [AI.getSymbol, AI.chooseMove] at *
      rcases dumbChooseMove_spec g.board s 3 3 hb with ⟨i1, j1, _, _, h3, h4, _⟩ | ⟨_, hall⟩
      · exact ⟨_, h3, h4, rfl⟩
      · exfalso
        have hfull : g.board.full = true := by
          rw [Board.full_iff]
          intro i j v hv hv1
          obtain ⟨h1, h2, h3, h4⟩ := get_some_range g.board 3 3 hb i j v hv
          have := hall i.toNat j.toNat (by omega) (by omega)
          rw [Int.toNat_of_nonneg h1, Int.toNat_of_nonneg h3, hv, hv1] at this
          exact this rfl
        rw [hfull] at hnf
        cases hnf
    | clever s =>
      simp only [AI.getSymbol, AI.chooseMove] at *
      have hs1 : s ≠ -1 := by omega
      obtain ⟨m, hm, hmp, hcase⟩ := cleverChooseMove_spec g.board hb s hs1
      rcases hcase with ⟨_, _, _, _, _, _, _, hget⟩ | ⟨_, _, _, _, _, _, _, _, hget⟩ |
        ⟨_, _, ⟨_, _, hget⟩ | ⟨hf, _⟩⟩
      · exact ⟨m, hm, hget, hmp⟩
      · exact ⟨m, hm, hget, hmp⟩
      · exact ⟨m, hm, hget, hmp⟩
      · rw [hf] at hnf
        cases hnf
  obtain ⟨m, hm, hget, hmp⟩ := key
  obtain ⟨h1, h2, h3, h4⟩ := get_some_range g.board 3 3 hb m.i m.j (-1) hget
  obtain ⟨b1, hset, hget1, _⟩ := Board.set_empty g.board m hget
  refine ⟨m, b1, hm, h1, by omega, h3, by omega, hget, hmp, hset, ?_, ?_⟩
  · rw [hget1, if_pos ⟨rfl, rfl⟩, hmp]
  · unfold Game.makeMoveAI
    rw [hai]
    simp only [hm, hset]

theorem C5_ai_move_is_placed_witness :
    (gameOn [[1, 0, -1], [-1, 1, -1], [-1, -1, 0]]).board.IsGrid 3 3 ∧
    (gameOn [[1, 0, -1], [-1, 1, -1], [-1, -1, 0]]).pAI = some (AI.clever 0) ∧
    (gameOn [[1, 0, -1], [-1, 1, -1], [-1, -1, 0]]).board.full = false ∧
    ∃ m b1, (AI.clever 0).chooseMove (gameOn [[1, 0, -1], [-1, 1, -1], [-1, -1, 0]]).board =
        some m ∧
      0 ≤ m.i ∧ m.i ≤ 2 ∧ 0 ≤ m.j ∧ m.j ≤ 2 ∧
      (gameOn [[1, 0, -1], [-1, 1, -1], [-1, -1, 0]]).board.get m.i m.j = some (-1) ∧
      m.piece = (AI.clever 0).getSymbol ∧
      (gameOn [[1, 0, -1], [-1, 1, -1], [-1, -1, 0]]).board.set m = some (true, b1) ∧
      b1.get m.i m.j = some (AI.clever 0).getSymbol ∧
      (gameOn [[1, 0, -1], [-1, 1, -1], [-1, -1, 0]]).makeMoveAI =
        some { gameOn [[1, 0, -1], [-1, 1, -1], [-1, -1, 0]] with board := b1 } :=
  ⟨by decide, rfl, by decide,
    C5_ai_move_is_placed (gameOn [[1, 0, -1], [-1, 1, -1], [-1, -1, 0]]) (AI.clever 0)
      (by decide) (by decide) rfl (by decide)⟩

/-- C6: on an `N × M` board with an Empty cell, `DumbAI::chooseMove` returns `(i, j, s)`
where `(i, j)` is Empty and every cell before it in row-major order is non-Empty.
Scenario: after the human has put X on `(0,0)` of the empty 3×3 board, the naive AI
holding O chooses `(0,1)`, and `makeMoveAI` puts O there and changes nothing else. -/
theorem C6_dumb_takes_first_empty (b : Board) (N M : Nat) (s : Int) (hg : b.IsGrid N M)
    (hex : ∃ i j, b.get i j = some (-1)) :
    (∃ i j : Nat, i < N ∧ j < M ∧ DumbAI.chooseMove s b = some ⟨i, j, s⟩ ∧
        b.get i j = some (-1) ∧
        ∀ k l : Nat, k < N → l < M → (k < i ∨ (k = i ∧ l < j)) →
          ∃ v, b.get k l = some v ∧ v ≠ -1) ∧
    (∃ g1 inp out g2, naiveGame.makeMovePlayer true [(0, 0)] "" = some (g1, inp, out) ∧
        g1.board = ⟨[[1, -1, -1], [-1, -1, -1], [-1, -1, -1]]⟩ ∧
        g1.pAI = some (AI.dumb 0) ∧
        DumbAI.chooseMove 0 g1.board = some ⟨0, 1, 0⟩ ∧
        g1.makeMoveAI = some g2 ∧
        g2.board = ⟨[[1, 0, -1], [-1, -1, -1], [-1, -1, -1]]⟩) := by
  constructor
  · rcases dumbChooseMove_spec b s N M hg with ⟨i1, j1, h1, h2, h3, h4, h5⟩ | ⟨_, hall⟩
    · refine ⟨i1, j1, h1, h2, h3, h4, ?_⟩
      intro k l hk hl hlt
      obtain ⟨v, hv⟩ := Board.get_isSome_of_isGrid b N M hg k l ⟨by omega, by omega⟩
        ⟨by omega, by omega⟩
      refine ⟨v, hv, ?_⟩
      intro e
      rw [e] at hv
      exact h5 k l hl hlt hv
    · exfalso
      obtain ⟨i, j, hv⟩ := hex
      obtain ⟨h1, h2, h3, h4⟩ := get_some_range b N M hg i j (-1) hv
      have := hall i.toNat j.toNat (by omega) (by omega)
      rw [Int.toNat_of_nonneg h1, Int.toNat_of_nonneg h3] at this
      exact this hv
  · exact ⟨_, _, _, _, rfl, rfl, rfl, rfl, rfl, rfl⟩

theorem C6_dumb_takes_first_empty_witness :
    (Board.mk [[1, -1, -1], [-1, -1, -1], [-1, -1, -1]]).IsGrid 3 3 ∧
    (∃ i j, (Board.mk [[1, -1, -1], [-1, -1, -1], [-1, -1, -1]]).get i j = some (-1)) ∧
    DumbAI.chooseMove 0 (Board.mk [[1, -1, -1], [-1, -1, -1], [-1, -1, -1]]) =
      some ⟨0, 1, 0⟩ ∧
    ∃ i j : Nat, i < 3 ∧ j < 3 ∧
      DumbAI.chooseMove 0 (Board.mk [[1, -1, -1], [-1, -1, -1], [-1, -1, -1]]) =
        some ⟨i, j, 0⟩ ∧
      (Board.mk [[1, -1, -1], [-1, -1, -1], [-1, -1, -1]]).get i j = some (-1) ∧
      ∀ k l : Nat, k < 3 → l < 3 → (k < i ∨ (k = i ∧ l < j)) →
        ∃ v, (Board.mk [[1, -1, -1], [-1, -1, -1], [-1, -1, -1]]).get k l = some v ∧ v ≠ -1 :=
  ⟨by decide, ⟨0, 1, by decide⟩, by decide,
    (C6_dumb_takes_first_empty (Board.mk [[1, -1, -1], [-1, -1, -1], [-1, -1, -1]]) 3 3 0
      (by decide) ⟨0, 1, by decide⟩).1⟩

/-- C7: with `s` on `(0,0)` and `(0,1)` and `(0,2)` Empty, the heuristic AI playing `s`
returns `(0, 2, s)`, whatever the other six cells hold. -/
theorem C7_clever_takes_top_row (b : Board) (s : Int) (hb : b.IsGrid 3 3) (hs : s ≠ -1)
    (h00 : b.get 0 0 = some s) (h01 : b.get 0 1 = some s) (h02 : b.get 0 2 = some (-1)) :
    CleverAI.chooseMove s b = some ⟨0, 2, s⟩ := by
  obtain ⟨a0, a1, a2, b0, b1, b2, c0, c1, c2, rfl⟩ := isGrid33_cases b hb
  simp only [get33_00, get33_01, get33_02, Option.some.injEq] at h00 h01 h02
  have hh : hit3 s s s (-1) := hit3_of_pattern _ _ _ _ hs (Or.inr (Or.inr ⟨rfl, rfl, rfl⟩))
  have he : (count3 s s s (-1)).2 = 2 := by
    rcases hit3_cases _ _ _ _ hs hh with ⟨_, h, _⟩ | ⟨_, _, h, _⟩ | ⟨h, _⟩
    · exact absurd h hs
    · exact absurd h hs
    · exact h
  unfold CleverAI.chooseMove
  rw [findWinningMove33, h00, h01, h02, if_pos hh, he]
  simp

theorem C7_clever_takes_top_row_witness :
    (Board.mk [[1, 1, -1], [0, 0, -1], [-1, -1, -1]]).IsGrid 3 3 ∧
    CleverAI.chooseMove 1 (Board.mk [[1, 1, -1], [0, 0, -1], [-1, -1, -1]]) =
      some ⟨0, 2, 1⟩ :=
  ⟨by decide,
    C7_clever_takes_top_row (Board.mk [[1, 1, -1], [0, 0, -1], [-1, -1, -1]]) 1
      (by decide) (by decide) (by decide) (by decide) (by decide)⟩

/-- C8: on a full 3×3 board without three identical pieces in a line the loop of
`play()` performs no move and the status resolution sets `DRAW`; conversely `play()`
sets the status to `DRAW` only when the final board is full and `victory()` is `-1`. -/
theorem C8_full_board_without_line_is_draw (r : ConsoleRunner) (fuel : Nat)
    (hb : r.game.board.IsGrid 3 3) (hfull : r.game.board.full = true)
    (hno : ¬ ∃ L ∈ lines, ∃ p, p ≠ -1 ∧ lineAll r.game.board p L) :
    (r.playLoop fuel true = some (r, true) ∧
      ∃ r1, r.play fuel = some r1 ∧ r1.game.board = r.game.board ∧ r1.input = r.input ∧
        r1.game.status = GameStatus.DRAW) ∧
    (∀ (q q1 : ConsoleRunner) (n : Nat), q.game.status ≠ GameStatus.DRAW →
      q.play n = some q1 → q1.game.status = GameStatus.DRAW →
      q1.game.board.full = true ∧ q1.game.victory = some (-1)) := by
  constructor
  · have hloop := playLoop_exit fuel r true (Or.inl hfull)
    refine ⟨hloop, ?_⟩
    obtain ⟨w, hw, _, _, hnone⟩ := victory_spec r.game hb
    have hw1 : w = -1 := hnone hno
    subst hw1
    unfold ConsoleRunner.play
    rw [hloop]
    simp only [ConsoleRunner.resolveStatus, hfull, hw, if_true]
    exact ⟨_, rfl, rfl, rfl, rfl⟩
  · intro q q1 n hq hplay hd
    unfold ConsoleRunner.play at hplay
    split at hplay
    · cases hplay
    · rename_i q2 t2 hloop
      split at hplay
      · cases hplay
      · rename_i g hres
        simp only [Option.some.injEq] at hplay
        subst hplay
        have hst : q2.game.status ≠ GameStatus.DRAW := by
          rw [playLoop_status n q q2 true t2 hloop]
          exact hq
        obtain ⟨hbd, hf, hv⟩ := resolveStatus_draw q2.game g hres hst hd
        refine ⟨?_, ?_⟩
        · show g.board.full = true
          rw [hbd]
          exact hf
        · rw [← hv]
          exact victory_congr q2.game g hbd

theorem C8_full_board_without_line_is_draw_witness :
    (gameOn [[1, 0, 1], [1, 0, 0], [0, 1, 1]]).board.IsGrid 3 3 ∧
    (gameOn [[1, 0, 1], [1, 0, 0], [0, 1, 1]]).board.full = true ∧
    (∃ r1, (ConsoleRunner.mk (gameOn [[1, 0, 1], [1, 0, 0], [0, 1, 1]]) [] "").play 0 = some r1 ∧
      r1.game.board = (gameOn [[1, 0, 1], [1, 0, 0], [0, 1, 1]]).board ∧ r1.input = [] ∧
      r1.game.status = GameStatus.DRAW) :=
  ⟨by decide, by decide,
    (C8_full_board_without_line_is_draw
      (ConsoleRunner.mk (gameOn [[1, 0, 1], [1, 0, 0], [0, 1, 1]]) [] "") 0
      (by decide) (by decide)
      (by
        rw [show (ConsoleRunner.mk (gameOn [[1, 0, 1], [1, 0, 0], [0, 1, 1]]) [] "").game.board =
          Board.mk [[1, 0, 1], [1, 0, 0], [0, 1, 1]] from rfl, exists_won33]
        decide)).1.2⟩

/-- the status resolution of `play()` on a 3×3 board with cells in `{-1, 0, 1}` on which
the loop exits at once: the status follows the value of `victory()`, and so do the
printed lines; when at most one piece has three in a line they follow the lines. -/
theorem terminal_status_spec (r : ConsoleRunner) (fuel : Nat)
    (hb : r.game.board.IsGrid 3 3) (hst : r.game.status = GameStatus.IN_PROGRESS)
    (hcells : ∀ row ∈ r.game.board.table, ∀ v ∈ row, v = -1 ∨ v = 0 ∨ v = 1)
    (hexit : r.game.board.full = true ∨ ∃ w, r.game.victory = some w ∧ w ≠ -1) :
    ∃ w r1, r.game.victory = some w ∧ r.play fuel = some r1 ∧
      r1.game.board = r.game.board ∧
      r1.game.status = (if w = 0 then GameStatus.O_WON else if w = 1 then GameStatus.X_WON
        else GameStatus.DRAW) ∧
      r1.game.status ≠ GameStatus.IN_PROGRESS ∧ r1.game.status ≠ r.game.status ∧
      (r1.printResult = "O won!\n" ↔ w = 0) ∧
      (r1.printResult = "X won!\n" ↔ w = 1) ∧
      (r1.printResult = "Draw!\n" ↔
        (¬ ∃ L ∈ lines, lineAll r.game.board 0 L) ∧ ¬ ∃ L ∈ lines, lineAll r.game.board 1 L) ∧
      (¬ ((∃ L ∈ lines, lineAll r.game.board 0 L) ∧ ∃ L ∈ lines, lineAll r.game.board 1 L) →
        (r1.printResult = "O won!\n" ↔ ∃ L ∈ lines, lineAll r.game.board 0 L) ∧
        (r1.printResult = "X won!\n" ↔ ∃ L ∈ lines, lineAll r.game.board 1 L)) := by
  obtain ⟨w, hw, hiff, hline, _⟩ := victory_spec r.game hb
  have hr := victory_range r.game hb hcells w hw
  have hex : r.game.board.full = true ∨ w ≠ -1 := by
    rcases hexit with h | ⟨w1, hw1, hne⟩
    · exact Or.inl h
    · rw [hw] at hw1
      simp only [Option.some.injEq] at hw1
      rw [hw1]
      exact Or.inr hne
  have hloop := playLoop_exit fuel r true hexit
  have hres := resolveStatus_eq r.game w hw hex hr
  have hplay : r.play fuel = some ⟨{ r.game with status :=
      if w = 0 then GameStatus.O_WON else if w = 1 then GameStatus.X_WON
      else GameStatus.DRAW }, r.input, r.output ++ r.game.board.print⟩ := by
    unfold ConsoleRunner.play
    rw [hloop]
    simp only [hres]
  have hpieces : (∃ L ∈ lines, ∃ p, p ≠ -1 ∧ lineAll r.game.board p L) ↔
      ((∃ L ∈ lines, lineAll r.game.board 0 L) ∨ ∃ L ∈ lines, lineAll r.game.board 1 L) := by
    constructor
    · rintro ⟨L, hL, p, hp, hall⟩
      obtain ⟨row, hrow, hmem⟩ := lineAll_cell r.game.board p L hL hall
      rcases hcells row hrow p hmem with h | h | h
      · exact absurd h hp
      · subst h; exact Or.inl ⟨L, hL, hall⟩
      · subst h; exact Or.inr ⟨L, hL, hall⟩
    · rintro (⟨L, hL, hall⟩ | ⟨L, hL, hall⟩)
      · exact ⟨L, hL, 0, by decide, hall⟩
      · exact ⟨L, hL, 1, by decide, hall⟩
  have hterm : (if w = 0 then GameStatus.O_WON else if w = 1 then GameStatus.X_WON
      else GameStatus.DRAW) ≠ GameStatus.IN_PROGRESS := by
    split_ifs <;> decide
  refine ⟨w, _, hw, hplay, rfl, rfl, hterm, by rw [hst]; exact hterm, ?_⟩
  obtain ⟨pO, pD, pX⟩ := printResult_eq ⟨{ r.game with status :=
      if w = 0 then GameStatus.O_WON else if w = 1 then GameStatus.X_WON
      else GameStatus.DRAW }, r.input, r.output ++ r.game.board.print⟩
  rw [pO, pD, pX]
  simp only
  rcases hr with rfl | rfl | rfl
  · have hn : ¬ ((∃ L ∈ lines, lineAll r.game.board 0 L) ∨
        ∃ L ∈ lines, lineAll r.game.board 1 L) := by
      rw [← hpieces, ← hiff]
      simp
    rw [not_or] at hn
    simp [hn.1, hn.2]
  · have h0 : ∃ L ∈ lines, lineAll r.game.board 0 L := hline (by decide)
    simp only [h0, true_and]
    simp
  · have h1 : ∃ L ∈ lines, lineAll r.game.board 1 L := hline (by decide)
    simp only [h1, and_true]
    simp

/-- C10: `full()` is true exactly when no cell of the board is Empty. -/
theorem C10_full_iff_no_empty_cell (b : Board) :
    b.full = true ↔ ∀ i j v, b.get i j = some v → v ≠ -1 :=
  Board.full_iff b

/-! ## Lemmas on counting, the move sources and the passes of the loop -/

theorem count_set (l : List Int) : ∀ (j : Nat) (c p q : Int), l[j]? = some c →
    (l.set j p).count q + (if c = q then 1 else 0) =
      l.count q + (if p = q then 1 else 0) := by
  induction l with
  | nil => intro j c p q h; simp at h
  | cons a rest ih =>
    intro j c p q h
    cases j with
    | zero =>
      simp only [List.getElem?_cons_zero, Option.some.injEq] at h
      subst h
      simp only [List.set_cons_zero, List.count_cons, beq_iff_eq]
      omega
    | succ n =>
      simp only [List.getElem?_cons_succ] at h
      have := ih n c p q h
      simp only [List.set_cons_succ, List.count_cons]
      omega

theorem sum_map_set (f : List Int → Nat) (t : List (List Int)) :
    ∀ (i : Nat) (row row1 : List Int), t[i]? = some row →
      ((t.set i row1).map f).sum + f row = (t.map f).sum + f row1 := by
  induction t with
  | nil => intro i row row1 h; simp at h
  | cons a rest ih =>
    intro i row row1 h
    cases i with
    | zero =>
      simp only [List.getElem?_cons_zero, Option.some.injEq] at h
      subst h
      simp only [List.set_cons_zero, List.map_cons, List.sum_cons]
      omega
    | succ n =>
      simp only [List.getElem?_cons_succ] at h
      have := ih n row row1 h
      simp only [List.set_cons_succ, List.map_cons, List.sum_cons]
      omega

/-- what a successful `set` does: the piece lands on an Empty cell, nothing else changes -/
theorem set_true_placed (b b1 : Board) (m : Move) (h : b.set m = some (true, b1)) :
    Placed b b1 m.i m.j m.piece := by
  unfold Board.set at h
  cases hg : b.get m.i m.j with
  | none => rw [hg] at h; cases h
  | some v =>
    rw [hg] at h
    simp only at h
    by_cases hv : v = -1
    · subst hv
      rw [if_pos rfl] at h
      simp only [Option.some.injEq, Prod.mk.injEq, true_and] at h
      obtain ⟨hi, hj, row, hrow, hcell⟩ := (Board.get_eq_some_iff b m.i m.j (-1)).1 hg
      have hD : b.table.getD m.i.toNat [] = row := by
        simp [hrow]
      rw [hD] at h
      subst h
      refine ⟨hg, ?_, ?_, ?_⟩
      · intro k l
        rw [Board.get_set_table b m.i.toNat m.j.toNat row m.piece (-1) hrow hcell k l,
          Int.toNat_of_nonneg hi, Int.toNat_of_nonneg hj]
      · intro q
        have h1 : ((b.table.set m.i.toNat (row.set m.j.toNat m.piece)).map
            (fun r => r.count q)).sum + row.count q =
            (b.table.map (fun r => r.count q)).sum + (row.set m.j.toNat m.piece).count q :=
          sum_map_set (fun r => r.count q) b.table m.i.toNat row
            (row.set m.j.toNat m.piece) hrow
        have h2 := count_set row m.j.toNat (-1) m.piece q hcell
        have e1 : (if (-1 : Int) = q then 1 else 0) = (if q = -1 then 1 else 0) := by
          by_cases hq : q = -1
          · simp [hq]
          · have : ¬ (-1 : Int) = q := fun e => hq e.symm
            simp [hq, this]
        have e2 : (if m.piece = q then 1 else 0) = (if q = m.piece then 1 else 0) := by
          by_cases hq : q = m.piece
          · simp [hq]
          · have : ¬ m.piece = q := fun e => hq e.symm
            simp [hq, this]
        rw [e1, e2] at h2
        show ((b.table.set m.i.toNat (row.set m.j.toNat m.piece)).map
            (fun r => r.count q)).sum + (if q = -1 then 1 else 0) =
            (b.table.map (fun r => r.count q)).sum + (if q = m.piece then 1 else 0)
        omega
      · intro N M hg1
        exact Board.isGrid_set_table b m.i.toNat m.j.toNat row m.piece hrow N M hg1
    · rw [if_neg hv] at h
      simp only [Option.some.injEq, Prod.mk.injEq] at h
      exact absurd h.1 (by decide)

theorem set_false_same (b b1 : Board) (m : Move) (h : b.set m = some (false, b1)) :
    b1 = b := by
  unfold Board.set at h
  cases hg : b.get m.i m.j with
  | none => rw [hg] at h; cases h
  | some v =>
    rw [hg] at h
    simp only at h
    by_cases hv : v = -1
    · rw [if_pos hv] at h
      simp only [Option.some.injEq, Prod.mk.injEq] at h
      exact absurd h.1 (by decide)
    · rw [if_neg hv] at h
      simp only [Option.some.injEq, Prod.mk.injEq] at h
      exact h.2.symm

theorem new_isGrid (N M : Nat) : (Board.new N M).IsGrid N M := by
  unfold Board.new Board.IsGrid
  refine ⟨List.length_replicate _ _, ?_⟩
  intro row hrow
  rw [List.eq_of_mem_replicate hrow]
  exact List.length_replicate _ _

/-- one `set` with an in-bounds move keeps the grid and every non-Empty cell -/
theorem set_keeps (b : Board) (N M : Nat) (m : Move) (hg : b.IsGrid N M)
    (hi : 0 ≤ m.i ∧ m.i < N) (hj : 0 ≤ m.j ∧ m.j < M) :
    ∃ r b1, b.set m = some (r, b1) ∧ b1.IsGrid N M ∧
      ∀ i j p, b.get i j = some p → p ≠ -1 → b1.get i j = some p := by
  obtain ⟨v, hv⟩ := Board.get_isSome_of_isGrid b N M hg m.i m.j hi hj
  by_cases hv1 : v = -1
  · subst hv1
    obtain ⟨b1, hset, hget, hgrid⟩ := Board.set_empty b m hv
    refine ⟨true, b1, hset, hgrid N M hg, ?_⟩
    intro i j p hp hp1
    rw [hget]
    split_ifs with h
    · exfalso
      rw [h.1, h.2, hv] at hp
      simp only [Option.some.injEq] at hp
      exact hp1 hp.symm
    · exact hp
  · exact ⟨false, b, Board.set_occupied b m v hv hv1, hg, fun i j p hp _ => hp⟩

/-- a sequence of `set` calls with in-bounds moves keeps the grid and every non-Empty
cell -/
theorem setAll_keeps (N M : Nat) (ms : List Move) : ∀ (b : Board), b.IsGrid N M →
    (∀ m ∈ ms, (0 ≤ m.i ∧ m.i < N) ∧ (0 ≤ m.j ∧ m.j < M)) →
    ∃ b1, b.setAll ms = some b1 ∧ b1.IsGrid N M ∧
      ∀ i j p, b.get i j = some p → p ≠ -1 → b1.get i j = some p := by
  induction ms with
  | nil =>
    intro b hg _
    exact ⟨b, rfl, hg, fun i j p hp _ => hp⟩
  | cons m rest ih =>
    intro b hg hin
    obtain ⟨hi, hj⟩ := hin m (by simp)
    obtain ⟨r, b1, hset, hg1, hkeep1⟩ := set_keeps b N M m hg hi hj
    obtain ⟨b2, hall, hg2, hkeep2⟩ := ih b1 hg1 (fun k hk => hin k (by simp [hk]))
    refine ⟨b2, ?_, hg2, ?_⟩
    · unfold Board.setAll
      rw [hset]
      exact hall
    · intro i j p hp hp1
      exact hkeep2 i j p (hkeep1 i j p hp hp1) hp1

/-- the retry loop of `Player::chooseMove` ends by putting the player's piece on one
Empty cell -/
theorem playerChooseMove_placed (p : Player) (inp : List (Int × Int)) :
    ∀ (b b1 : Board) (out out1 : String) (inp1 : List (Int × Int)),
      p.chooseMove inp b out = some (b1, inp1, out1) →
      ∃ i j, Placed b b1 i j p.symbol := by
  induction inp with
  | nil =>
    intro b b1 out out1 inp1 h
    unfold Player.chooseMove at h
    cases h
  | cons ij rest ih =>
    intro b b1 out out1 inp1 h
    obtain ⟨i, j⟩ := ij
    unfold Player.chooseMove at h
    cases hset : b.set ⟨i, j, p.symbol⟩ with
    | none => rw [hset] at h; cases h
    | some res =>
      obtain ⟨ok, b2⟩ := res
      rw [hset] at h
      cases ok with
      | true =>
        simp only [Option.some.injEq, Prod.mk.injEq] at h
        rw [← h.1]
        exact ⟨i, j, set_true_placed b b2 ⟨i, j, p.symbol⟩ hset⟩
      | false =>
        simp only at h
        have hb2 := set_false_same b b2 ⟨i, j, p.symbol⟩ hset
        rw [hb2] at h
        exact ih b b1 _ out1 inp1 h

/-- an accepted pair makes `Player::chooseMove` return -/
theorem playerChooseMove_some (p : Player) (i j : Int) (rest : List (Int × Int)) (b : Board)
    (out : String) (h : b.get i j = some (-1)) :
    ∃ res, p.chooseMove ((i, j) :: rest) b out = some res := by
  obtain ⟨b1, hset, _⟩ := Board.set_empty b ⟨i, j, p.symbol⟩ h
  unfold Player.chooseMove
  rw [hset]
  exact ⟨_, rfl⟩

/-- the move of either AI on a 3×3 board that is not full targets an Empty cell and
carries the AI's piece -/
theorem aiChooseMove_legal (ai : AI) (b : Board) (hb : b.IsGrid 3 3)
    (hs : ai.getSymbol = 0 ∨ ai.getSymbol = 1) (hnf : b.full = false) :
    ∃ m, ai.chooseMove b = some m ∧ b.get m.i m.j = some (-1) ∧ m.piece = ai.getSymbol := by
  cases ai with
  | dumb s =>
    simp only [AI.getSymbol, AI.chooseMove] at *
    rcases dumbChooseMove_spec b s 3 3 hb with ⟨i1, j1, _, _, h3, h4, _⟩ | ⟨_, hall⟩
    · exact ⟨_, h3, h4, rfl⟩
    · exfalso
      have hfull : b.full = true := by
        rw [Board.full_iff]
        intro i j v hv hv1
        obtain ⟨h1, h2, h3, h4⟩ := get_some_range b 3 3 hb i j v hv
        have := hall i.toNat j.toNat (by omega) (by omega)
        rw [Int.toNat_of_nonneg h1, Int.toNat_of_nonneg h3, hv, hv1] at this
        exact this rfl
      rw [hfull] at hnf
      cases hnf
  | clever s =>
    simp only [AI.getSymbol, AI.chooseMove] at *
    have hs1 : s ≠ -1 := by omega
    obtain ⟨m, hm, hmp, hcase⟩ := cleverChooseMove_spec b hb s hs1
    rcases hcase with ⟨_, _, _, _, _, _, _, hget⟩ | ⟨_, _, _, _, _, _, _, _, hget⟩ |
      ⟨_, _, ⟨_, _, hget⟩ | ⟨hf, _⟩⟩
    · exact ⟨m, hm, hget, hmp⟩
    · exact ⟨m, hm, hget, hmp⟩
    · exact ⟨m, hm, hget, hmp⟩
    · rw [hf] at hnf
      cases hnf

theorem loopGuard_true (g : Game) (h : ConsoleRunner.loopGuard g = some true) :
    g.board.full = false ∧ g.victory = some (-1) := by
  unfold ConsoleRunner.loopGuard at h
  cases hf : g.board.full with
  | true => rw [hf] at h; simp at h
  | false =>
    rw [hf] at h
    refine ⟨rfl, ?_⟩
    cases hv : g.victory with
    | none => rw [hv] at h; simp at h
    | some w =>
      rw [hv] at h
      simp only [Bool.false_eq_true, if_false, Option.some.injEq, decide_eq_true_eq] at h
      rw [h]

theorem loopGuard_some (g : Game) (hb : g.board.IsGrid 3 3) :
    ∃ c, ConsoleRunner.loopGuard g = some c := by
  obtain ⟨w, hw, _⟩ := victory_spec g hb
  unfold ConsoleRunner.loopGuard
  rw [hw]
  split_ifs <;> exact ⟨_, rfl⟩

theorem sourcePiece_wellFormed (g : Game) (h : g.WellFormed) (t : Bool) :
    g.sourcePiece t = 0 ∨ g.sourcePiece t = 1 := by
  obtain ⟨_, h1, h2, h3⟩ := h
  unfold Game.sourcePiece
  cases t with
  | true => simpa using h1
  | false =>
    cases htp : g.isTwoPlayers with
    | true => simpa using h2
    | false =>
      obtain ⟨ai, hai, hs⟩ := h3 htp
      simpa [hai] using hs

/-- one pass through the loop body puts the piece of the source whose turn it is on one
Empty cell, flips the flag and changes nothing else in the game -/
theorem playStep_placed (r r1 : ConsoleRunner) (t t1 : Bool) (hwf : r.game.WellFormed)
    (hguard : ConsoleRunner.loopGuard r.game = some true)
    (h : ConsoleRunner.playStep r t = some (r1, t1)) :
    t1 = (!t) ∧ r1.game = { r.game with board := r1.game.board } ∧
      ∃ i j, Placed r.game.board r1.game.board i j (r.game.sourcePiece t) := by
  obtain ⟨hnf, _⟩ := loopGuard_true r.game hguard
  have human : ∀ (first : Bool) (g : Game) (inp : List (Int × Int)) (out : String),
      r.game.makeMovePlayer first r.input (r.output ++ r.game.board.print) =
        some (g, inp, out) →
      g = { r.game with board := g.board } ∧
        ∃ i j, Placed r.game.board g.board i j
          (if first then r.game.player1.symbol else r.game.player2.symbol) := by
    intro first g inp out hm
    unfold Game.makeMovePlayer at hm
    split at hm
    · cases hm
    · rename_i b inp1 out1 hc
      simp only [Option.some.injEq, Prod.mk.injEq] at hm
      rw [← hm.1]
      refine ⟨rfl, ?_⟩
      obtain ⟨i, j, hp⟩ := playerChooseMove_placed _ _ _ _ _ _ _ hc
      refine ⟨i, j, ?_⟩
      cases first <;> simpa using hp
  unfold ConsoleRunner.playStep at h
  simp only at h
  cases htp : r.game.isTwoPlayers with
  | true =>
    rw [htp] at h
    simp only [if_true] at h
    split at h
    · cases h
    · rename_i g inp out1 hmv
      simp only [Option.some.injEq, Prod.mk.injEq] at h
      obtain ⟨hg, i, j, hp⟩ := human t g inp out1 hmv
      rw [← h.1, ← h.2]
      refine ⟨rfl, hg, i, j, ?_⟩
      unfold Game.sourcePiece
      cases t <;> simpa [htp] using hp
  | false =>
    rw [htp] at h
    simp only [Bool.false_eq_true, if_false] at h
    cases t with
    | true =>
      simp only [if_true] at h
      split at h
      · cases h
      · rename_i g inp out1 hmv
        simp only [Option.some.injEq, Prod.mk.injEq] at h
        obtain ⟨hg, i, j, hp⟩ := human true g inp out1 hmv
        rw [← h.1, ← h.2]
        refine ⟨rfl, hg, i, j, ?_⟩
        unfold Game.sourcePiece
        simpa using hp
    | false =>
      simp only [Bool.false_eq_true, if_false] at h
      obtain ⟨ai, hai, hs⟩ := hwf.2.2.2 htp
      obtain ⟨m, hm, hget, hmp⟩ := aiChooseMove_legal ai r.game.board hwf.1 hs hnf
      obtain ⟨b1, hset, _⟩ := Board.set_empty r.game.board m hget
      have hmk : r.game.makeMoveAI = some { r.game with board := b1 } := by
        unfold Game.makeMoveAI
        rw [hai]
        simp only [hm, hset]
        rw [hai]
      rw [hmk] at h
      simp only [Option.some.injEq, Prod.mk.injEq] at h
      rw [← h.1, ← h.2]
      refine ⟨rfl, rfl, m.i, m.j, ?_⟩
      have hp := set_true_placed r.game.board b1 m hset
      unfold Game.sourcePiece
      simpa [htp, hai, hmp] using hp

theorem passes_succ_inv (k : Nat) : ∀ (r r2 : ConsoleRunner) (t t2 : Bool),
    ConsoleRunner.passes (k + 1) r t = some (r2, t2) →
    ∃ r1 t1, ConsoleRunner.passes k r t = some (r1, t1) ∧
      ConsoleRunner.loopGuard r1.game = some true ∧
      ConsoleRunner.playStep r1 t1 = some (r2, t2) := by
  induction k with
  | zero =>
    intro r r2 t t2 h
    unfold ConsoleRunner.passes at h
    split at h
    · rename_i hg
      split at h
      · cases h
      · rename_i r1 t1 hstep
        unfold ConsoleRunner.passes at h
        simp only [Option.some.injEq, Prod.mk.injEq] at h
        refine ⟨r, t, rfl, hg, ?_⟩
        rw [hstep, h.1, h.2]
    · cases h
  | succ n ih =>
    intro r r2 t t2 h
    unfold ConsoleRunner.passes at h
    split at h
    · rename_i hg
      split at h
      · cases h
      · rename_i r1 t1 hstep
        obtain ⟨r3, t3, h3, hg3, hs3⟩ := ih r1 r2 t1 t2 h
        refine ⟨r3, t3, ?_, hg3, hs3⟩
        unfold ConsoleRunner.passes
        simp only [hg, hstep]
        exact h3
    · cases h

theorem passes_succ_end (k : Nat) : ∀ (r r1 r2 : ConsoleRunner) (t t1 t2 : Bool),
    ConsoleRunner.passes k r t = some (r1, t1) →
    ConsoleRunner.loopGuard r1.game = some true →
    ConsoleRunner.playStep r1 t1 = some (r2, t2) →
    ConsoleRunner.passes (k + 1) r t = some (r2, t2) := by
  induction k with
  | zero =>
    intro r r1 r2 t t1 t2 h hg hs
    unfold ConsoleRunner.passes at h
    simp only [Option.some.injEq, Prod.mk.injEq] at h
    obtain ⟨rfl, rfl⟩ := h
    unfold ConsoleRunner.passes
    simp only [hg, hs]
    rfl
  | succ n ih =>
    intro r r1 r2 t t1 t2 h hg hs
    unfold ConsoleRunner.passes at h
    split at h
    · rename_i hg0
      split at h
      · cases h
      · rename_i r3 t3 hstep
        have := ih r3 r1 r2 t3 t1 t2 h hg hs
        unfold ConsoleRunner.passes
        simp only [hg0, hstep]
        exact this
    · cases h

/-- the loop returns the state after its last pass -/
theorem playLoop_of_passes (k : Nat) : ∀ (r r1 : ConsoleRunner) (t t1 : Bool) (fuel : Nat),
    ConsoleRunner.passes k r t = some (r1, t1) →
    ConsoleRunner.loopGuard r1.game = some false → k ≤ fuel →
    ConsoleRunner.playLoop fuel r t = some (r1, t1) := by
  induction k with
  | zero =>
    intro r r1 t t1 fuel h hg _
    unfold ConsoleRunner.passes at h
    simp only [Option.some.injEq, Prod.mk.injEq] at h
    rw [← h.1] at hg
    rw [← h.1, ← h.2]
    cases fuel with
    | zero => unfold ConsoleRunner.playLoop; rw [hg]
    | succ n => unfold ConsoleRunner.playLoop; rw [hg]
  | succ n ih =>
    intro r r1 t t1 fuel h hg hle
    unfold ConsoleRunner.passes at h
    split at h
    · rename_i hg0
      split at h
      · cases h
      · rename_i r3 t3 hstep
        cases fuel with
        | zero => omega
        | succ f =>
          unfold ConsoleRunner.playLoop
          simp only [hg0, hstep]
          exact ih r3 r1 t3 t1 f h hg (by omega)
    · cases h

/-- the state returned by the loop is reached by some number of passes and fails the
loop test -/
theorem passes_of_playLoop (fuel : Nat) : ∀ (r r1 : ConsoleRunner) (t t1 : Bool),
    ConsoleRunner.playLoop fuel r t = some (r1, t1) →
    ∃ k, k ≤ fuel ∧ ConsoleRunner.passes k r t = some (r1, t1) ∧
      ConsoleRunner.loopGuard r1.game = some false := by
  induction fuel with
  | zero =>
    intro r r1 t t1 h
    unfold ConsoleRunner.playLoop at h
    split at h
    · cases h
    · rename_i hg
      simp only [Option.some.injEq, Prod.mk.injEq] at h
      refine ⟨0, le_refl 0, ?_, ?_⟩
      · unfold ConsoleRunner.passes
        rw [h.1, h.2]
      · rw [← h.1]
        exact hg
    · cases h
  | succ n ih =>
    intro r r1 t t1 h
    unfold ConsoleRunner.playLoop at h
    split at h
    · cases h
    · rename_i hg
      simp only [Option.some.injEq, Prod.mk.injEq] at h
      refine ⟨0, Nat.zero_le _, ?_, ?_⟩
      · unfold ConsoleRunner.passes
        rw [h.1, h.2]
      · rw [← h.1]
        exact hg
    · rename_i hg
      split at h
      · cases h
      · rename_i r3 t3 hstep
        obtain ⟨k, hk, hp, hgf⟩ := ih r3 r1 t3 t1 h
        refine ⟨k + 1, by omega, ?_, hgf⟩
        unfold ConsoleRunner.passes
        simp only [hg, hstep]
        exact hp

theorem sourcePiece_congr (g g1 : Game) (h : g1 = { g with board := g1.board }) (t : Bool) :
    g1.sourcePiece t = g.sourcePiece t := by
  rw [h]
  rfl

theorem setup_trans (g0 g1 g2 : Game) (h1 : g1 = { g0 with board := g1.board })
    (h2 : g2 = { g1 with board := g2.board }) : g2 = { g0 with board := g2.board } := by
  cases g0
  cases g1
  cases g2
  simp only [Game.mk.injEq, true_and] at h1 h2 ⊢
  obtain ⟨a1, a2, a3, a4, a5⟩ := h1
  obtain ⟨b1, b2, b3, b4, b5⟩ := h2
  exact ⟨b1.trans a1, b2.trans a2, b3.trans a3, b4.trans a4, b5.trans a5⟩

theorem wellFormed_step (g g1 : Game) (hwf : g.WellFormed)
    (h : g1 = { g with board := g1.board }) (hgrid : g1.board.IsGrid 3 3) :
    g1.WellFormed := by
  obtain ⟨_, h1, h2, h3⟩ := hwf
  rw [h]
  exact ⟨hgrid, h1, h2, h3⟩

/-- what every state reached by `k` passes from a well-formed game satisfies: the game is
the initial one up to its board, the flag has flipped `k` times and `k` cells have been
filled -/
theorem passes_invariant (r0 : ConsoleRunner) (t0 : Bool) (hwf : r0.game.WellFormed)
    (k : Nat) :
    ∀ (r : ConsoleRunner) (t : Bool), ConsoleRunner.passes k r0 t0 = some (r, t) →
      r.game.WellFormed ∧ r.game = { r0.game with board := r.game.board } ∧
      t = (if k % 2 = 0 then t0 else !t0) ∧
      r.game.board.countCells (-1) + k = r0.game.board.countCells (-1) := by
  induction k with
  | zero =>
    intro r t h
    unfold ConsoleRunner.passes at h
    simp only [Option.some.injEq, Prod.mk.injEq] at h
    rw [← h.1, ← h.2]
    exact ⟨hwf, rfl, rfl, rfl⟩
  | succ n ih =>
    intro r t h
    obtain ⟨r1, t1, hp, hg, hs⟩ := passes_succ_inv n r0 r t0 t h
    obtain ⟨hwf1, hcfg1, ht1, hc1⟩ := ih r1 t1 hp
    obtain ⟨ht, hcfg, i, j, hget, _, hcount, hgrid⟩ := playStep_placed r1 r t1 t hwf1 hg hs
    have hP := sourcePiece_wellFormed r1.game hwf1 t1
    refine ⟨wellFormed_step r1.game r.game hwf1 hcfg (hgrid 3 3 hwf1.1),
      setup_trans r0.game r1.game r.game hcfg1 hcfg, ?_, ?_⟩
    · rw [ht, ht1]
      rcases Nat.mod_two_eq_zero_or_one n with h0 | h0
      · have : (n + 1) % 2 = 1 := by omega
        simp [h0, this]
      · have : (n + 1) % 2 = 0 := by omega
        simp [h0, this]
    · have hc := hcount (-1)
      have hne1 : ¬ (-1 : Int) = r1.game.sourcePiece t1 := by omega
      rw [if_pos rfl, if_neg hne1] at hc
      omega

theorem new_wellFormed (twoPlayers : Bool) (difficulty : Int) (name1 name2 : String)
    (symbol1 : Char) : (Game.new twoPlayers difficulty name1 symbol1 name2).WellFormed := by
  refine ⟨new_isGrid 3 3, ?_, ?_, ?_⟩
  · by_cases h : symbol1 = 'O' <;> simp [Game.new, Player.new, h]
  · by_cases h : symbol1 = 'X' <;> simp [Game.new, Player.new, h]
  · intro htp
    simp only [Game.new] at htp
    subst htp
    by_cases h : symbol1 = 'O' <;> by_cases hd : difficulty = 1 <;>
      simp [Game.new, AI.getSymbol, h, hd]

theorem full_of_count_zero (b : Board) (h : b.countCells (-1) = 0) : b.full = true := by
  unfold Board.full
  rw [Board.fullFrom_iff]
  unfold Board.countCells at h
  generalize b.table = t at h
  induction t with
  | nil => intro row hrow; cases hrow
  | cons a rest ih =>
    simp only [List.map_cons, List.sum_cons, Nat.add_eq_zero] at h
    intro row hrow
    rcases List.mem_cons.1 hrow with rfl | hmem
    · exact List.count_eq_zero.1 h.1
    · exact ih h.2 row hmem

theorem humanMovesAccepted_at (r0 : ConsoleRunner) (n : Nat) :
    r0.humanMovesAccepted n = true → ∀ (k : Nat) (r : ConsoleRunner) (t : Bool), k < n →
      ConsoleRunner.passes k r0 true = some (r, t) →
      ConsoleRunner.loopGuard r.game = some true → r.humanMoveAccepted t = true := by
  induction n with
  | zero => intro _ k r t hk; omega
  | succ m ih =>
    intro h k r t hk hp hg
    unfold ConsoleRunner.humanMovesAccepted at h
    simp only [Bool.and_eq_true] at h
    by_cases hkm : k = m
    · subst hkm
      have h2 := h.2
      rw [hp] at h2
      simp only [hg, if_true] at h2
      exact h2
    · exact ih h.1 k r t (by omega) hp hg

/-- with an accepted human move (or the AI to move) a pass through the body succeeds -/
theorem playStep_some (r : ConsoleRunner) (t : Bool) (hwf : r.game.WellFormed)
    (hguard : ConsoleRunner.loopGuard r.game = some true)
    (hacc : r.humanMoveAccepted t = true) : ∃ res, ConsoleRunner.playStep r t = some res := by
  obtain ⟨hnf, _⟩ := loopGuard_true r.game hguard
  have human : ∀ first : Bool, (r.game.isTwoPlayers || t) = true →
      ∃ res, r.game.makeMovePlayer first r.input (r.output ++ r.game.board.print) =
        some res := by
    intro first hh
    unfold ConsoleRunner.humanMoveAccepted at hacc
    rw [if_pos hh] at hacc
    cases hin : r.input with
    | nil => rw [hin] at hacc; cases hacc
    | cons ij rest =>
      obtain ⟨i, j⟩ := ij
      rw [hin] at hacc
      simp only [decide_eq_true_eq] at hacc
      obtain ⟨res, hres⟩ := playerChooseMove_some (if first then r.game.player1
        else r.game.player2) i j rest r.game.board (r.output ++ r.game.board.print) hacc
      unfold Game.makeMovePlayer
      rw [hres]
      exact ⟨_, rfl⟩
  unfold ConsoleRunner.playStep
  simp only
  cases htp : r.game.isTwoPlayers with
  | true =>
    obtain ⟨res, hres⟩ := human t (by simp [htp])
    simp only [if_true, hres]
    exact ⟨_, rfl⟩
  | false =>
    cases t with
    | true =>
      obtain ⟨res, hres⟩ := human true (by simp)
      simp only [Bool.false_eq_true, if_false, if_true, hres]
      exact ⟨_, rfl⟩
    | false =>
      obtain ⟨ai, hai, hs⟩ := hwf.2.2.2 htp
      obtain ⟨m, hm, hget, _⟩ := aiChooseMove_legal ai r.game.board hwf.1 hs hnf
      obtain ⟨b1, hset, _⟩ := Board.set_empty r.game.board m hget
      have hmk : ∃ g, r.game.makeMoveAI = some g := by
        unfold Game.makeMoveAI
        rw [hai]
        simp only [hm, hset]
        exact ⟨_, rfl⟩
      obtain ⟨g, hg⟩ := hmk
      simp only [Bool.false_eq_true, if_false, hg]
      exact ⟨_, rfl⟩

theorem passes_prefix (r0 : ConsoleRunner) (t0 : Bool) (k : Nat) :
    ∀ (r r1 : ConsoleRunner) (t t1 : Bool) (j : Nat),
      ConsoleRunner.passes k r0 t0 = some (r, t) → j < k →
      ConsoleRunner.passes j r0 t0 = some (r1, t1) →
      ConsoleRunner.loopGuard r1.game = some true := by
  induction k with
  | zero => intro r r1 t t1 j _ hj; omega
  | succ n ih =>
    intro r r1 t t1 j h hj hp
    obtain ⟨r2, t2, hp2, hg2, _⟩ := passes_succ_inv n r0 r t0 t h
    by_cases hjn : j = n
    · subst hjn
      rw [hp] at hp2
      simp only [Option.some.injEq, Prod.mk.injEq] at hp2
      rw [hp2.1]
      exact hg2
    · exact ih r2 r1 t2 t1 j hp2 (by omega) hp

/-- from a well-formed game whose humans type accepted moves the loop test fails after
at most as many passes as there are Empty cells -/
theorem loop_exits (r0 : ConsoleRunner) (hwf : r0.game.WellFormed) (n : Nat)
    (hacc : r0.humanMovesAccepted n = true) :
    ∀ (d k : Nat) (r : ConsoleRunner) (t : Bool),
      ConsoleRunner.passes k r0 true = some (r, t) → r.game.board.countCells (-1) = d →
      k + d ≤ n →
      ∃ k1 r1 t1, k1 ≤ n ∧ ConsoleRunner.passes k1 r0 true = some (r1, t1) ∧
        ConsoleRunner.loopGuard r1.game = some false := by
  intro d
  induction d with
  | zero =>
    intro k r t hp hd hk
    have hfull := full_of_count_zero r.game.board hd
    exact ⟨k, r, t, by omega, hp, loopGuard_exit r.game (Or.inl hfull)⟩
  | succ e ih =>
    intro k r t hp hd hk
    obtain ⟨hwf1, _, _, hc1⟩ := passes_invariant r0 true hwf k r t hp
    obtain ⟨c, hc⟩ := loopGuard_some r.game hwf1.1
    cases c with
    | false => exact ⟨k, r, t, by omega, hp, hc⟩
    | true =>
      have ha := humanMovesAccepted_at r0 n hacc k r t (by omega) hp hc
      obtain ⟨⟨r2, t2⟩, hs⟩ := playStep_some r t hwf1 hc ha
      have hp2 := passes_succ_end k r0 r r2 true t t2 hp hc hs
      obtain ⟨_, _, _, hc2⟩ := passes_invariant r0 true hwf (k + 1) r2 t2 hp2
      exact ih (k + 1) r2 t2 hp2 (by omega) (by omega)

theorem dumbChooseMove33 (a0 a1 a2 b0 b1 b2 c0 c1 c2 s : Int) :
    DumbAI.chooseMove s ⟨[[a0, a1, a2], [b0, b1, b2], [c0, c1, c2]]⟩ = some (
      if a0 = -1 then ⟨0, 0, s⟩
      else if a1 = -1 then ⟨0, 1, s⟩
      else if a2 = -1 then ⟨0, 2, s⟩
      else if b0 = -1 then ⟨1, 0, s⟩
      else if b1 = -1 then ⟨1, 1, s⟩
      else if b2 = -1 then ⟨1, 2, s⟩
      else if c0 = -1 then ⟨2, 0, s⟩
      else if c1 = -1 then ⟨2, 1, s⟩
      else if c2 = -1 then ⟨2, 2, s⟩
      else ⟨0, 0, s⟩) := by
  have hr : List.range 3 = [0, 1, 2] := rfl
  simp only [DumbAI.chooseMove, Board.getRows, List.length_cons, List.length_nil, hr,
    DumbAI.scanRows, Board.getCols, DumbAI.scanCols, Nat.cast_zero, Nat.cast_one,
    Nat.cast_ofNat, get33_00, get33_01, get33_02, get33_10, get33_11, get33_12, get33_20,
    get33_21, get33_22, Nat.reduceAdd]
  split_ifs <;> rfl

/-- on a 3×3 board the naive AI computes what step 3 of the heuristic AI computes -/
theorem dumb_eq_fallback33 (b : Board) (hb : b.IsGrid 3 3) (s : Int) :
    DumbAI.chooseMove s b =
      (match CleverAI.firstFree b s [0, 1, 2] with
       | none => none
       | some (some m) => some m
       | some none => some ⟨0, 0, s⟩) := by
  obtain ⟨a0, a1, a2, b0, b1, b2, c0, c1, c2, rfl⟩ := isGrid33_cases b hb
  rw [dumbChooseMove33, firstFree33]
  by_cases h1 : a0 = -1
  · simp only [if_pos h1]
  simp only [if_neg h1]
  by_cases h2 : a1 = -1
  · simp only [if_pos h2]
  simp only [if_neg h2]
  by_cases h3 : a2 = -1
  · simp only [if_pos h3]
  simp only [if_neg h3]
  by_cases h4 : b0 = -1
  · simp only [if_pos h4]
  simp only [if_neg h4]
  by_cases h5 : b1 = -1
  · simp only [if_pos h5]
  simp only [if_neg h5]
  by_cases h6 : b2 = -1
  · simp only [if_pos h6]
  simp only [if_neg h6]
  by_cases h7 : c0 = -1
  · simp only [if_pos h7]
  simp only [if_neg h7]
  by_cases h8 : c1 = -1
  · simp only [if_pos h8]
  simp only [if_neg h8]
  by_cases h9 : c2 = -1
  · simp only [if_pos h9]
  simp only [if_neg h9]

/-- after a piece `p` is put on an Empty cell of a 3×3 board without winner, every line
of three identical pieces holds `p` -/
theorem line_after_place (g g1 : Game) (hb : g.board.IsGrid 3 3)
    (hv : g.victory = some (-1)) (i j p : Int)
    (hget : ∀ k l, g1.board.get k l = if k = i ∧ l = j then some p else g.board.get k l)
    (q : Int) (L : List (Int × Int)) (hL : L ∈ lines) (hq : q ≠ -1)
    (hall : lineAll g1.board q L) : q = p := by
  by_cases hmem : (i, j) ∈ L
  · have h1 := hall (i, j) hmem
    simp only at h1
    rw [hget, if_pos ⟨rfl, rfl⟩] at h1
    simp only [Option.some.injEq] at h1
    exact h1.symm
  · exfalso
    have hold : lineAll g.board q L := by
      intro c hc
      have h1 := hall c hc
      rw [hget] at h1
      have hne : ¬ (c.1 = i ∧ c.2 = j) := by
        rintro ⟨e1, e2⟩
        apply hmem
        have : c = (i, j) := Prod.ext e1 e2
        rw [← this]
        exact hc
      rw [if_neg hne] at h1
      exact h1
    obtain ⟨w, hw, hiff, _, _⟩ := victory_spec g hb
    rw [hv] at hw
    simp only [Option.some.injEq] at hw
    subst hw
    exact (hiff.2 ⟨L, hL, q, hq, hold⟩) rfl

theorem get_none_of_out_of_range (b : Board) (N M : Nat) (hg : b.IsGrid N M) (i j : Int)
    (hout : i < 0 ∨ (N : Int) ≤ i ∨ j < 0 ∨ (M : Int) ≤ j) : b.get i j = none := by
  cases h : b.get i j with
  | none => rfl
  | some v =>
    have := get_some_range b N M hg i j v h
    omega

theorem cellChar_eq_specSymbol (c : Int) (h : c = -1 ∨ c = 0 ∨ c = 1) :
    Board.cellChar c = specSymbol c := by
  rcases h with rfl | rfl | rfl <;> rfl

theorem printRow_eq (row : List Int) (h : ∀ v ∈ row, v = -1 ∨ v = 0 ∨ v = 1) :
    Board.printRow row = specLineFollowed row := by
  induction row with
  | nil => rfl
  | cons c rest ih =>
    have hc := cellChar_eq_specSymbol c (h c (by simp))
    have hr := ih (fun v hv => h v (by simp [hv]))
    unfold Board.printRow
    rw [hc, hr]
    rfl

theorem printRows_eq (t : List (List Int))
    (h : ∀ row ∈ t, ∀ v ∈ row, v = -1 ∨ v = 0 ∨ v = 1) :
    Board.printRows t = specText specLineFollowed ⟨t⟩ := by
  induction t with
  | nil => rfl
  | cons row rows ih =>
    have hr := printRow_eq row (h row (by simp))
    have ht := ih (fun r hr v hv => h r (by simp [hr]) v hv)
    unfold Board.printRows
    rw [hr, ht]
    rfl

theorem resolveStatus_some (g : Game) (hb : g.board.IsGrid 3 3) :
    ∃ g1, ConsoleRunner.resolveStatus g = some g1 := by
  obtain ⟨w, hw, _⟩ := victory_spec g hb
  unfold ConsoleRunner.resolveStatus
  rw [hw]
  simp only
  split_ifs <;> exact ⟨_, rfl⟩

theorem new_count_empty (twoPlayers : Bool) (difficulty : Int) (name1 name2 : String)
    (symbol1 : Char) :
    (Game.new twoPlayers difficulty name1 symbol1 name2).board.countCells (-1) = 9 := rfl

theorem new_get (N M : Nat) (i j v : Int) (h : (Board.new N M).get i j = some v) :
    v = -1 := by
  obtain ⟨row, hrow, hv⟩ := mem_cells_of_get (Board.new N M) i j v h
  unfold Board.new at hrow
  rw [List.eq_of_mem_replicate hrow] at hv
  exact List.eq_of_mem_replicate hv

theorem cells_table_of_get (b : Board) (P : Int → Prop)
    (h : ∀ i j v, b.get i j = some v → P v) : ∀ row ∈ b.table, ∀ v ∈ row, P v := by
  intro row hrow v hv
  obtain ⟨i, hi⟩ := List.mem_iff_getElem?.1 hrow
  obtain ⟨j, hj⟩ := List.mem_iff_getElem?.1 hv
  refine h (i : Int) (j : Int) v ?_
  rw [Board.get_eq_some_iff]
  exact ⟨Int.ofNat_nonneg i, Int.ofNat_nonneg j, row, by simpa using hi, by simpa using hj⟩

/-- every cell of a board reached by the loop from the constructor's game is Empty or
holds piece `0` or `1` -/
theorem reached_cells (twoPlayers : Bool) (difficulty : Int) (name1 name2 : String)
    (symbol1 : Char) (inp : List (Int × Int)) (out : String) (k : Nat) :
    ∀ (r : ConsoleRunner) (t : Bool),
      (ConsoleRunner.mk (Game.new twoPlayers difficulty name1 symbol1 name2) inp out).passes
        k true = some (r, t) →
      ∀ i j v, r.game.board.get i j = some v → v = -1 ∨ v = 0 ∨ v = 1 := by
  have hwf := new_wellFormed twoPlayers difficulty name1 name2 symbol1
  induction k with
  | zero =>
    intro r t hp i j v hv
    unfold ConsoleRunner.passes at hp
    simp only [Option.some.injEq, Prod.mk.injEq] at hp
    rw [← hp.1] at hv
    exact Or.inl (new_get 3 3 i j v hv)
  | succ n ih =>
    intro r t hp i j v hv
    obtain ⟨r1, t1, hp1, hg, hs⟩ := passes_succ_inv n _ r true t hp
    obtain ⟨hwf1, _, _, _⟩ := passes_invariant _ true hwf n r1 t1 hp1
    obtain ⟨_, _, a, c, _, hget, _, _⟩ := playStep_placed r1 r t1 t hwf1 hg hs
    have hP := sourcePiece_wellFormed r1.game hwf1 t1
    rw [hget] at hv
    split_ifs at hv
    · simp only [Option.some.injEq] at hv
      rw [← hv]
      exact Or.inr hP
    · exact ih r1 t1 hp1 i j v hv

/-- on a board reached by the loop from the constructor's game, a line of three identical
pieces holds the piece of the source that made the last half-move -/
theorem reached_lines (twoPlayers : Bool) (difficulty : Int) (name1 name2 : String)
    (symbol1 : Char) (inp : List (Int × Int)) (out : String) (k : Nat) (r : ConsoleRunner)
    (t : Bool)
    (hp : (ConsoleRunner.mk (Game.new twoPlayers difficulty name1 symbol1 name2)
      inp out).passes k true = some (r, t))
    (q : Int) (L : List (Int × Int)) (hL : L ∈ lines) (hq : q ≠ -1)
    (hall : lineAll r.game.board q L) :
    0 < k ∧ q = (Game.new twoPlayers difficulty name1 symbol1 name2).sourcePiece (!t) := by
  have hwf := new_wellFormed twoPlayers difficulty name1 name2 symbol1
  cases k with
  | zero =>
    exfalso
    unfold ConsoleRunner.passes at hp
    simp only [Option.some.injEq, Prod.mk.injEq] at hp
    rw [← hp.1] at hall
    obtain ⟨c, _, _, rfl⟩ := lines_three L hL
    exact hq (new_get 3 3 c.1 c.2 q (hall c (by simp)))
  | succ n =>
    obtain ⟨r1, t1, hp1, hg, hs⟩ := passes_succ_inv n _ r true t hp
    obtain ⟨hwf1, hcfg1, _, _⟩ := passes_invariant _ true hwf n r1 t1 hp1
    obtain ⟨_, hv1⟩ := loopGuard_true r1.game hg
    obtain ⟨ht, _, i, j, _, hget, _, _⟩ := playStep_placed r1 r t1 t hwf1 hg hs
    rw [sourcePiece_congr _ r1.game hcfg1 t1] at hget
    have ht1 : t1 = (!t) := by rw [ht]; simp
    refine ⟨Nat.succ_pos n, ?_⟩
    rw [← ht1]
    exact line_after_place r1.game r.game hwf1.1 hv1 i j _ hget q L hL hq hall

theorem loopGuard_false (g : Game) (h : ConsoleRunner.loopGuard g = some false) :
    g.board.full = true ∨ ∃ w, g.victory = some w ∧ w ≠ -1 := by
  unfold ConsoleRunner.loopGuard at h
  cases hf : g.board.full with
  | true => exact Or.inl rfl
  | false =>
    rw [hf] at h
    cases hv : g.victory with
    | none => rw [hv] at h; simp at h
    | some w =>
      rw [hv] at h
      simp only [Bool.false_eq_true, if_false, Option.some.injEq, decide_eq_false_iff_not] at h
      exact Or.inr ⟨w, rfl, h⟩

/-- `play()` resolves the status of the state its loop returns -/
theorem play_of_playLoop (r0 r : ConsoleRunner) (t : Bool) (fuel : Nat)
    (h : r0.playLoop fuel true = some (r, t)) :
    r0.play fuel =
      (match ConsoleRunner.resolveStatus r.game with
       | none => none
       | some g => some ⟨g, r.input, r.output ++ g.board.print⟩) := by
  unfold ConsoleRunner.play
  simp only [h]

/-- C9: on every state `(r, t)` that the loop of `play()` returns from the constructor's
game, the board is full or has a winner, its cells are in `{-1, 0, 1}` and the status is
still `IN_PROGRESS`; `play()` then returns with the status `O_WON` when `victory()` is `0`,
`X_WON` when it is `1` and `DRAW` otherwise, never `IN_PROGRESS`, and `printResult` prints
"O won!" iff piece O has three in a line, "X won!" iff piece X has three in a line and
"Draw!" iff neither. The status part holds for every 3×3 board with cells in
`{-1, 0, 1}` on which the loop exits, and so does the printed result as long as the two
pieces do not both have a line; and the loop does return when every human half-move is
an accepted one. -/
theorem C9_terminal_status (twoPlayers : Bool) (difficulty : Int) (name1 name2 : String)
    (symbol1 : Char) (inp : List (Int × Int)) (out : String) (fuel : Nat)
    (r : ConsoleRunner) (t : Bool)
    (hloop : (ConsoleRunner.mk (Game.new twoPlayers difficulty name1 symbol1 name2)
      inp out).playLoop fuel true = some (r, t)) :
    ((r.game.board.full = true ∨ ∃ w, r.game.victory = some w ∧ w ≠ -1) ∧
      (∀ row ∈ r.game.board.table, ∀ v ∈ row, v = -1 ∨ v = 0 ∨ v = 1) ∧
      r.game.status = GameStatus.IN_PROGRESS ∧
      ∃ w r1, r.game.victory = some w ∧
        (ConsoleRunner.mk (Game.new twoPlayers difficulty name1 symbol1 name2)
          inp out).play fuel = some r1 ∧
        r1.game.board = r.game.board ∧
        r1.game.status = (if w = 0 then GameStatus.O_WON
          else if w = 1 then GameStatus.X_WON else GameStatus.DRAW) ∧
        r1.game.status ≠ GameStatus.IN_PROGRESS ∧
        (r1.printResult = "O won!\n" ↔ ∃ L ∈ lines, lineAll r.game.board 0 L) ∧
        (r1.printResult = "X won!\n" ↔ ∃ L ∈ lines, lineAll r.game.board 1 L) ∧
        (r1.printResult = "Draw!\n" ↔
          (¬ ∃ L ∈ lines, lineAll r.game.board 0 L) ∧
            ¬ ∃ L ∈ lines, lineAll r.game.board 1 L)) ∧
    (∀ (q : ConsoleRunner) (n : Nat), q.game.board.IsGrid 3 3 →
      q.game.status = GameStatus.IN_PROGRESS →
      (∀ row ∈ q.game.board.table, ∀ v ∈ row, v = -1 ∨ v = 0 ∨ v = 1) →
      (q.game.board.full = true ∨ ∃ w, q.game.victory = some w ∧ w ≠ -1) →
      ∃ w q1, q.game.victory = some w ∧ q.play n = some q1 ∧
        q1.game.status = (if w = 0 then GameStatus.O_WON
          else if w = 1 then GameStatus.X_WON else GameStatus.DRAW) ∧
        q1.game.status ≠ GameStatus.IN_PROGRESS ∧
        (q1.printResult = "Draw!\n" ↔
          (¬ ∃ L ∈ lines, lineAll q.game.board 0 L) ∧
            ¬ ∃ L ∈ lines, lineAll q.game.board 1 L) ∧
        (¬ ((∃ L ∈ lines, lineAll q.game.board 0 L) ∧
            ∃ L ∈ lines, lineAll q.game.board 1 L) →
          (q1.printResult = "O won!\n" ↔ ∃ L ∈ lines, lineAll q.game.board 0 L) ∧
          (q1.printResult = "X won!\n" ↔ ∃ L ∈ lines, lineAll q.game.board 1 L))) ∧
    ((ConsoleRunner.mk (Game.new twoPlayers difficulty name1 symbol1 name2)
        inp out).humanMovesAccepted 9 = true →
      ∃ r2 t2 r3, ∀ n, 9 ≤ n →
        (ConsoleRunner.mk (Game.new twoPlayers difficulty name1 symbol1 name2)
          inp out).playLoop n true = some (r2, t2) ∧
        (ConsoleRunner.mk (Game.new twoPlayers difficulty name1 symbol1 name2)
          inp out).play n = some r3 ∧
        r3.game.status ≠ GameStatus.IN_PROGRESS) := by
  have hwf := new_wellFormed twoPlayers difficulty name1 name2 symbol1
  have hreach : ∀ (k : Nat) (r : ConsoleRunner) (t : Bool),
      (ConsoleRunner.mk (Game.new twoPlayers difficulty name1 symbol1 name2)
        inp out).passes k true = some (r, t) →
      ConsoleRunner.loopGuard r.game = some false →
      r.game.board.IsGrid 3 3 ∧ r.game.status = GameStatus.IN_PROGRESS ∧
      (∀ row ∈ r.game.board.table, ∀ v ∈ row, v = -1 ∨ v = 0 ∨ v = 1) ∧
      (r.game.board.full = true ∨ ∃ w, r.game.victory = some w ∧ w ≠ -1) := by
    intro k r t hp hgf
    obtain ⟨hwf1, hcfg, _, _⟩ := passes_invariant _ true hwf k r t hp
    refine ⟨hwf1.1, ?_, cells_table_of_get r.game.board (fun v => v = -1 ∨ v = 0 ∨ v = 1)
      (reached_cells twoPlayers difficulty name1 name2 symbol1 inp out k r t hp),
      loopGuard_false r.game hgf⟩
    rw [hcfg]
    rfl
  refine ⟨?_, ?_, ?_⟩
  · obtain ⟨k, _, hp, hgf⟩ := passes_of_playLoop fuel _ r true t hloop
    obtain ⟨hwf1, hcfg, _, _⟩ := passes_invariant _ true hwf k r t hp
    have hexit := loopGuard_false r.game hgf
    have hcells := cells_table_of_get r.game.board (fun v => v = -1 ∨ v = 0 ∨ v = 1)
      (reached_cells twoPlayers difficulty name1 name2 symbol1 inp out k r t hp)
    have hst : r.game.status = GameStatus.IN_PROGRESS := by
      rw [hcfg]
      rfl
    have hone : ¬ ((∃ L ∈ lines, lineAll r.game.board 0 L) ∧
        ∃ L ∈ lines, lineAll r.game.board 1 L) := by
      rintro ⟨⟨L0, hL0, h0⟩, ⟨L1, hL1, h1⟩⟩
      have e0 := (reached_lines twoPlayers difficulty name1 name2 symbol1 inp out k r t hp
        0 L0 hL0 (by decide) h0).2
      have e1 := (reached_lines twoPlayers difficulty name1 name2 symbol1 inp out k r t hp
        1 L1 hL1 (by decide) h1).2
      rw [← e0] at e1
      exact absurd e1 (by decide)
    obtain ⟨w, r1, hw, hplay, hbd, hstat, hne, _, _, _, hD, hsingle⟩ :=
      terminal_status_spec r 0 hwf1.1 hst hcells hexit
    obtain ⟨hO, hX⟩ := hsingle hone
    have hsame : (ConsoleRunner.mk (Game.new twoPlayers difficulty name1 symbol1 name2)
        inp out).play fuel = r.play 0 := by
      rw [play_of_playLoop _ r t fuel hloop,
        play_of_playLoop r r true 0 (playLoop_exit 0 r true hexit)]
    exact ⟨hexit, hcells, hst, w, r1, hw, hsame.trans hplay, hbd, hstat, hne, hO, hX, hD⟩
  · intro q n hb hst hcells hexit
    obtain ⟨w, q1, hw, hplay, _, hstat, hne, _, _, _, hD, hsingle⟩ :=
      terminal_status_spec q n hb hst hcells hexit
    exact ⟨w, q1, hw, hplay, hstat, hne, hD, hsingle⟩
  · intro hacc
    obtain ⟨k, r2, t2, hk, hp, hgf⟩ := loop_exits _ hwf 9 hacc 9 0 _ true rfl
      (new_count_empty twoPlayers difficulty name1 name2 symbol1) (by omega)
    obtain ⟨hb, hst, hcells, hexit⟩ := hreach k r2 t2 hp hgf
    obtain ⟨w, r3, _, hplay, _, _, hne, _⟩ := terminal_status_spec r2 0 hb hst hcells hexit
    refine ⟨r2, t2, r3, ?_⟩
    intro n hn
    have hl := playLoop_of_passes k _ r2 true t2 n hp hgf (by omega)
    refine ⟨hl, ?_, hne⟩
    rw [play_of_playLoop _ r2 t2 n hl,
      ← play_of_playLoop r2 r2 true 0 (playLoop_exit 0 r2 true hexit)]
    exact hplay

theorem C9_terminal_status_witness :
    ∃ r t, (ConsoleRunner.mk (Game.new false 2 "Gracz" 'X' "Player2")
        [(1, 1), (0, 1), (0, 2), (1, 0)] "").playLoop 9 true = some (r, t) ∧
      r.game.board = ⟨[[0, 1, 1], [1, 1, -1], [0, 0, 0]]⟩ ∧
      ∃ w r1, r.game.victory = some w ∧
        (ConsoleRunner.mk (Game.new false 2 "Gracz" 'X' "Player2")
          [(1, 1), (0, 1), (0, 2), (1, 0)] "").play 9 = some r1 ∧
        r1.game.board = r.game.board ∧
        r1.game.status = (if w = 0 then GameStatus.O_WON
          else if w = 1 then GameStatus.X_WON else GameStatus.DRAW) ∧
        r1.game.status ≠ GameStatus.IN_PROGRESS ∧
        (r1.printResult = "O won!\n" ↔ ∃ L ∈ lines, lineAll r.game.board 0 L) ∧
        (r1.printResult = "X won!\n" ↔ ∃ L ∈ lines, lineAll r.game.board 1 L) ∧
        (r1.printResult = "Draw!\n" ↔
          (¬ ∃ L ∈ lines, lineAll r.game.board 0 L) ∧
            ¬ ∃ L ∈ lines, lineAll r.game.board 1 L) :=
  ⟨_, _, rfl, rfl,
    (C9_terminal_status false 2 "Gracz" "Player2" 'X' [(1, 1), (0, 1), (0, 2), (1, 0)] "" 9
      _ _ rfl).1.2.2.2⟩

/-- C11: on a 3×3 board `findWinningMove` for a piece `s` in `{0, 1}` returns a move with
piece `s` that is either the sentinel `(-1, -1)`, exactly when no line holds two cells
equal to `s` and an Empty one, or the Empty cell of the first such line in the order
row 0, row 1, row 2, column 0, column 1, column 2, main diagonal, anti-diagonal. -/
theorem C11_findWinningMove_first_line (b : Board) (s : Int) (hb : b.IsGrid 3 3)
    (hs : s = 0 ∨ s = 1) :
    lines = [[(0, 0), (0, 1), (0, 2)], [(1, 0), (1, 1), (1, 2)], [(2, 0), (2, 1), (2, 2)],
      [(0, 0), (1, 0), (2, 0)], [(0, 1), (1, 1), (2, 1)], [(0, 2), (1, 2), (2, 2)],
      [(0, 0), (1, 1), (2, 2)], [(0, 2), (1, 1), (2, 0)]] ∧
    ∃ m, CleverAI.findWinningMove b s = some m ∧ m.piece = s ∧
      ((m.i = -1 ∧ m.j = -1) ↔ ∀ L ∈ lines, ¬ twoAndEmpty b s L) ∧
      ((∃ L ∈ lines, twoAndEmpty b s L) →
        ∃ pre L post, lines = pre ++ L :: post ∧ (∀ K ∈ pre, ¬ twoAndEmpty b s K) ∧
          twoAndEmpty b s L ∧ (m.i, m.j) ∈ L ∧ b.get m.i m.j = some (-1)) := by
  refine ⟨rfl, ?_⟩
  have hs1 : s ≠ -1 := by omega
  obtain ⟨m, hm, hmp, hcase⟩ := findWinningMove_spec b hb s hs1
  refine ⟨m, hm, hmp, ?_, ?_⟩
  · rcases hcase with ⟨hi, hj, hnone⟩ | ⟨pre, L, post, hl, _, hL, _, hget⟩
    · exact ⟨fun _ => hnone, fun _ => ⟨hi, hj⟩⟩
    · constructor
      · rintro ⟨hi, _⟩
        have := ((Board.get_eq_some_iff b m.i m.j (-1)).1 hget).1
        omega
      · intro hnone
        exact absurd hL (hnone L (by rw [hl]; simp))
  · rintro ⟨K, hK, hKt⟩
    rcases hcase with ⟨_, _, hnone⟩ | h
    · exact absurd hKt (hnone K hK)
    · exact h

theorem C11_findWinningMove_first_line_witness :
    (Board.mk [[1, 1, -1], [1, -1, -1], [-1, -1, -1]]).IsGrid 3 3 ∧
    CleverAI.findWinningMove (Board.mk [[1, 1, -1], [1, -1, -1], [-1, -1, -1]]) 1 =
      some ⟨0, 2, 1⟩ ∧
    ∃ m, CleverAI.findWinningMove (Board.mk [[1, 1, -1], [1, -1, -1], [-1, -1, -1]]) 1 = some m ∧
      m.piece = 1 ∧
      ((m.i = -1 ∧ m.j = -1) ↔
        ∀ L ∈ lines, ¬ twoAndEmpty (Board.mk [[1, 1, -1], [1, -1, -1], [-1, -1, -1]]) 1 L) ∧
      ((∃ L ∈ lines, twoAndEmpty (Board.mk [[1, 1, -1], [1, -1, -1], [-1, -1, -1]]) 1 L) →
        ∃ pre L post, lines = pre ++ L :: post ∧
          (∀ K ∈ pre, ¬ twoAndEmpty (Board.mk [[1, 1, -1], [1, -1, -1], [-1, -1, -1]]) 1 K) ∧
          twoAndEmpty (Board.mk [[1, 1, -1], [1, -1, -1], [-1, -1, -1]]) 1 L ∧ (m.i, m.j) ∈ L ∧
          (Board.mk [[1, 1, -1], [1, -1, -1], [-1, -1, -1]]).get m.i m.j = some (-1)) :=
  ⟨by decide, by decide,
    (C11_findWinningMove_first_line (Board.mk [[1, 1, -1], [1, -1, -1], [-1, -1, -1]]) 1
      (by decide) (by decide)).2⟩

/-- C12 (defect of the code): a pair outside the `N × M` grid is not treated like an
occupied cell. `Board::set` indexes the grid with it unchecked, so the access is
undefined and `set` yields no result, in particular not `false` with the board
unchanged; `Player::chooseMove` then yields no result either and never reads the next
pair. -/
theorem C12_out_of_range_is_unchecked (b : Board) (N M : Nat) (p : Player) (i j : Int)
    (rest : List (Int × Int)) (out : String) (hg : b.IsGrid N M)
    (hout : i < 0 ∨ (N : Int) ≤ i ∨ j < 0 ∨ (M : Int) ≤ j) :
    b.set ⟨i, j, p.symbol⟩ = none ∧ b.set ⟨i, j, p.symbol⟩ ≠ some (false, b) ∧
      p.chooseMove ((i, j) :: rest) b out = none := by
  have hget := get_none_of_out_of_range b N M hg i j hout
  have hset : b.set ⟨i, j, p.symbol⟩ = none := by
    unfold Board.set
    simp only [hget]
  refine ⟨hset, ?_, ?_⟩
  · rw [hset]
    exact fun h => Option.noConfusion h
  · unfold Player.chooseMove
    simp only [hset]

theorem C12_out_of_range_is_unchecked_witness :
    (Board.new 3 3).IsGrid 3 3 ∧ ((3 : Int) < 0 ∨ ((3 : Nat) : Int) ≤ 3 ∨ (0 : Int) < 0 ∨
      ((3 : Nat) : Int) ≤ 0) ∧
    (Board.new 3 3).set ⟨3, 0, (Player.new "Gracz" 'X').symbol⟩ = none ∧
    (Board.new 3 3).set ⟨3, 0, (Player.new "Gracz" 'X').symbol⟩ ≠ some (false, Board.new 3 3) ∧
    (Player.new "Gracz" 'X').chooseMove [(3, 0), (0, 0)] (Board.new 3 3) "" = none :=
  ⟨by decide, by decide,
    C12_out_of_range_is_unchecked (Board.new 3 3) 3 3 (Player.new "Gracz" 'X') 3 0 [(0, 0)] ""
      (by decide) (by decide)⟩

/-- C13: on the board reached from the all-Empty `N × M` board by any sequence of `set`
calls with in-bounds moves of piece `0` or `1`, every further such sequence leaves each
non-Empty cell with the piece it holds, and each successful `set` lowers the number of
Empty cells by exactly one. -/
theorem C13_cells_are_written_once (N M : Nat) (ms ms2 : List Move)
    (hin : ∀ m ∈ ms ++ ms2,
      (0 ≤ m.i ∧ m.i < N) ∧ (0 ≤ m.j ∧ m.j < M) ∧ (m.piece = 0 ∨ m.piece = 1)) :
    ∃ b1 b2, (Board.new N M).setAll ms = some b1 ∧ b1.setAll ms2 = some b2 ∧
      (∀ i j p, b1.get i j = some p → p ≠ -1 → b2.get i j = some p) ∧
      (∀ m b3, (m.piece = 0 ∨ m.piece = 1) → b1.set m = some (true, b3) →
        b3.countCells (-1) + 1 = b1.countCells (-1) ∧ b3.get m.i m.j = some m.piece) := by
  obtain ⟨b1, h1, hg1, _⟩ := setAll_keeps N M ms (Board.new N M) (new_isGrid N M)
    (fun m hm => ⟨(hin m (by simp [hm])).1, (hin m (by simp [hm])).2.1⟩)
  obtain ⟨b2, h2, _, hkeep⟩ := setAll_keeps N M ms2 b1 hg1
    (fun m hm => ⟨(hin m (by simp [hm])).1, (hin m (by simp [hm])).2.1⟩)
  refine ⟨b1, b2, h1, h2, hkeep, ?_⟩
  intro m b3 hp hset
  obtain ⟨_, hget, hcount, _⟩ := set_true_placed b1 b3 m hset
  have hc := hcount (-1)
  have hne : ¬ (-1 : Int) = m.piece := by omega
  rw [if_pos rfl, if_neg hne] at hc
  refine ⟨by omega, ?_⟩
  rw [hget, if_pos ⟨rfl, rfl⟩]

theorem C13_cells_are_written_once_witness :
    (∀ m ∈ [Move.mk 0 0 1, Move.mk 1 1 0] ++ [Move.mk 0 0 0, Move.mk 2 2 1],
      (0 ≤ m.i ∧ m.i < (3 : Nat)) ∧ (0 ≤ m.j ∧ m.j < (3 : Nat)) ∧
        (m.piece = 0 ∨ m.piece = 1)) ∧
    (Board.new 3 3).setAll [Move.mk 0 0 1, Move.mk 1 1 0] =
      some ⟨[[1, -1, -1], [-1, 0, -1], [-1, -1, -1]]⟩ ∧
    (Board.mk [[1, -1, -1], [-1, 0, -1], [-1, -1, -1]]).setAll [Move.mk 0 0 0, Move.mk 2 2 1] =
      some ⟨[[1, -1, -1], [-1, 0, -1], [-1, -1, 1]]⟩ ∧
    ∃ b1 b2, (Board.new 3 3).setAll [Move.mk 0 0 1, Move.mk 1 1 0] = some b1 ∧
      b1.setAll [Move.mk 0 0 0, Move.mk 2 2 1] = some b2 ∧
      (∀ i j p, b1.get i j = some p → p ≠ -1 → b2.get i j = some p) ∧
      (∀ m b3, (m.piece = 0 ∨ m.piece = 1) → b1.set m = some (true, b3) →
        b3.countCells (-1) + 1 = b1.countCells (-1) ∧ b3.get m.i m.j = some m.piece) :=
  ⟨by decide, by decide, by decide,
    C13_cells_are_written_once 3 3 [Move.mk 0 0 1, Move.mk 1 1 0]
      [Move.mk 0 0 0, Move.mk 2 2 1] (by decide)⟩

/-- C14 as stated fails: on the board with X on `(0,0)` and O on `(0,1)` the text written
by `print` is "X O . " and two times ". . . ", each line ending with a space before its
newline, and not the symbols separated by spaces. -/
theorem C14_counterexample :
    (Board.mk [[1, 0, -1], [-1, -1, -1], [-1, -1, -1]]).IsGrid 3 3 ∧
    (∀ row ∈ (Board.mk [[1, 0, -1], [-1, -1, -1], [-1, -1, -1]]).table, ∀ v ∈ row,
      v = -1 ∨ v = 0 ∨ v = 1) ∧
    specText specLineSeparated (Board.mk [[1, 0, -1], [-1, -1, -1], [-1, -1, -1]]) =
      "X O .\n. . .\n. . .\n" ∧
    (Board.mk [[1, 0, -1], [-1, -1, -1], [-1, -1, -1]]).print = "X O . \n. . . \n. . . \n" ∧
    (Board.mk [[1, 0, -1], [-1, -1, -1], [-1, -1, -1]]).print ≠
      specText specLineSeparated (Board.mk [[1, 0, -1], [-1, -1, -1], [-1, -1, -1]]) := by
  refine ⟨by decide, by decide, by decide, by decide, by decide⟩

/-- C14 (amended): for every board with cells in `{-1, 0, 1}`, in particular every 3×3
one, `print` writes exactly one line per row, in row order, and each line consists of
the row's symbols in column order, each symbol followed by one space, where Empty is
rendered as `.`, piece 0 as `O` and piece 1 as `X`. -/
theorem C14_print_renders_rows (b : Board)
    (hcells : ∀ row ∈ b.table, ∀ v ∈ row, v = -1 ∨ v = 0 ∨ v = 1) :
    b.print = specText specLineFollowed b ∧
    specSymbol (-1) = '.' ∧ specSymbol 0 = 'O' ∧ specSymbol 1 = 'X' ∧
    (∀ a0 a1 a2 b0 b1 b2 c0 c1 c2 : Int, b = ⟨[[a0, a1, a2], [b0, b1, b2], [c0, c1, c2]]⟩ →
      b.print =
        String.mk [specSymbol a0, ' ', specSymbol a1, ' ', specSymbol a2, ' ', '\n',
          specSymbol b0, ' ', specSymbol b1, ' ', specSymbol b2, ' ', '\n',
          specSymbol c0, ' ', specSymbol c1, ' ', specSymbol c2, ' ', '\n']) := by
  have hp : b.print = specText specLineFollowed b := printRows_eq b.table hcells
  refine ⟨hp, rfl, rfl, rfl, ?_⟩
  intro a0 a1 a2 b0 b1 b2 c0 c1 c2 hb
  rw [hp, hb]
  rfl

theorem C14_print_renders_rows_witness :
    (∀ row ∈ (Board.mk [[1, 0, -1], [-1, 1, -1], [-1, -1, 0]]).table, ∀ v ∈ row,
      v = -1 ∨ v = 0 ∨ v = 1) ∧
    (Board.mk [[1, 0, -1], [-1, 1, -1], [-1, -1, 0]]).print = "X O . \n. X . \n. . O \n" ∧
    (Board.mk [[1, 0, -1], [-1, 1, -1], [-1, -1, 0]]).print =
      specText specLineFollowed (Board.mk [[1, 0, -1], [-1, 1, -1], [-1, -1, 0]]) :=
  ⟨by decide, by decide,
    (C14_print_renders_rows (Board.mk [[1, 0, -1], [-1, 1, -1], [-1, -1, 0]])
      (by decide)).1⟩

/-- C15: on a 3×3 board without winner on which some line holds two cells of the AI's
piece `s` and an Empty third one, applying the move of `CleverAI::chooseMove` with `set`
makes `victory()` return `s`, whatever opportunities the opponent has. -/
theorem C15_win_before_block (g : Game) (s : Int) (hb : g.board.IsGrid 3 3)
    (hs : s = 0 ∨ s = 1) (hv : g.victory = some (-1))
    (hwin : ∃ L ∈ lines, twoAndEmpty g.board s L) :
    ∃ m b1, CleverAI.chooseMove s g.board = some m ∧ m.piece = s ∧
      g.board.set m = some (true, b1) ∧ ({ g with board := b1 } : Game).victory = some s := by
  have hs1 : s ≠ -1 := by omega
  obtain ⟨m, hm, hmp, hcase⟩ := cleverChooseMove_spec g.board hb s hs1
  rcases hcase with ⟨pre, L, post, hl, _, hL, hmem, hget⟩ | ⟨hnone, _⟩ | ⟨hnone, _⟩
  · have hLl : L ∈ lines := by rw [hl]; simp
    obtain ⟨b1, hset, hget1, hgrid⟩ := Board.set_empty g.board m hget
    refine ⟨m, b1, hm, hmp, hset, ?_⟩
    have hb1 : ({ g with board := b1 } : Game).board.IsGrid 3 3 := hgrid 3 3 hb
    have hall : lineAll b1 s L := by
      obtain ⟨p, q, t, rfl⟩ := lines_three L hLl
      intro d hd
      rw [hget1]
      split_ifs with hd1
      · rw [hmp]
      · rcases twoAndEmpty_cells g.board s p q t hs1 hL (m.i, m.j) hmem hget d hd with h | h
        · rw [h] at hd1
          exact absurd ⟨rfl, rfl⟩ hd1
        · exact h
    obtain ⟨w, hw, hiff, hline, _⟩ := victory_spec { g with board := b1 } hb1
    have hw1 : w ≠ -1 := hiff.2 ⟨L, hLl, s, hs1, hall⟩
    obtain ⟨K, hK, hKall⟩ := hline hw1
    have := line_after_place g { g with board := b1 } hb hv m.i m.j m.piece hget1 w K hK hw1
      hKall
    rw [hw, this, hmp]
  · obtain ⟨K, hK, hKt⟩ := hwin
    exact absurd hKt (hnone K hK)
  · obtain ⟨K, hK, hKt⟩ := hwin
    exact absurd hKt (hnone K hK)

theorem C15_win_before_block_witness :
    (gameOn [[1, 1, -1], [0, 0, -1], [-1, -1, -1]]).board.IsGrid 3 3 ∧
    (gameOn [[1, 1, -1], [0, 0, -1], [-1, -1, -1]]).victory = some (-1) ∧
    (∃ L ∈ lines, twoAndEmpty (gameOn [[1, 1, -1], [0, 0, -1], [-1, -1, -1]]).board 0 L) ∧
    (∃ L ∈ lines, twoAndEmpty (gameOn [[1, 1, -1], [0, 0, -1], [-1, -1, -1]]).board 1 L) ∧
    ∃ m b1, CleverAI.chooseMove 0 (gameOn [[1, 1, -1], [0, 0, -1], [-1, -1, -1]]).board =
        some m ∧ m.piece = 0 ∧
      (gameOn [[1, 1, -1], [0, 0, -1], [-1, -1, -1]]).board.set m = some (true, b1) ∧
      ({ gameOn [[1, 1, -1], [0, 0, -1], [-1, -1, -1]] with board := b1 } : Game).victory =
        some 0 :=
  ⟨by decide, by decide, by decide, by decide,
    C15_win_before_block (gameOn [[1, 1, -1], [0, 0, -1], [-1, -1, -1]]) 0 (by decide)
      (by decide) (by decide) (by decide)⟩

/-- C16: on a 3×3 board on which neither the AI's piece `s` nor the opponent's has two
cells and an Empty third one on a line, `CleverAI::chooseMove` returns the same move as
`DumbAI::chooseMove` with piece `s` : the first Empty cell in row-major order, and
`(0, 0)` when the board is full. -/
theorem C16_fallback_is_naive (b : Board) (s : Int) (hb : b.IsGrid 3 3) (hs : s = 0 ∨ s = 1)
    (hown : ∀ L ∈ lines, ¬ twoAndEmpty b s L)
    (hopp : ∀ L ∈ lines, ¬ twoAndEmpty b (1 - s) L) :
    ∃ m, CleverAI.chooseMove s b = some m ∧ DumbAI.chooseMove s b = some m ∧
      (b.full = true → m = ⟨0, 0, s⟩) ∧
      (b.full = false → ∃ i j : Nat, i < 3 ∧ j < 3 ∧ m = ⟨i, j, s⟩ ∧
        b.get i j = some (-1) ∧
        ∀ k l : Nat, k < 3 → l < 3 → (k < i ∨ (k = i ∧ l < j)) →
          ∃ v, b.get k l = some v ∧ v ≠ -1) := by
  have hs1 : s ≠ -1 := by omega
  have ho : (if s = 0 then (1 : Int) else 0) = 1 - s := by
    rcases hs with rfl | rfl <;> rfl
  obtain ⟨m, hm, hmp, hcase⟩ := cleverChooseMove_spec b hb s hs1
  rw [ho] at hcase
  have hdumb : DumbAI.chooseMove s b = some m := by
    rcases hcase with ⟨pre, K, post, hl, _, hK, _⟩ | ⟨_, pre, K, post, hl, _, hK, _⟩ |
      ⟨_, _, ⟨hf, hff, _⟩ | ⟨hf, hm0⟩⟩
    · exact absurd hK (hown K (by rw [hl]; simp))
    · exact absurd hK (hopp K (by rw [hl]; simp))
    · rw [dumb_eq_fallback33 b hb s, hff]
    · rcases firstFree_spec b hb s with ⟨_, hff⟩ | ⟨hnf, _⟩
      · rw [dumb_eq_fallback33 b hb s, hff, hm0]
      · rw [hf] at hnf
        cases hnf
  refine ⟨m, hm, hdumb, ?_, ?_⟩
  · intro hf
    rcases dumbChooseMove_spec b s 3 3 hb with ⟨i1, j1, _, _, _, h4, _⟩ | ⟨h3, _⟩
    · exfalso
      exact (Board.full_iff b).1 hf i1 j1 (-1) h4 rfl
    · rw [hdumb] at h3
      simp only [Option.some.injEq] at h3
      rw [h3]
  · intro hf
    rcases dumbChooseMove_spec b s 3 3 hb with ⟨i1, j1, h1, h2, h3, h4, h5⟩ | ⟨_, hall⟩
    · rw [hdumb] at h3
      simp only [Option.some.injEq] at h3
      refine ⟨i1, j1, h1, h2, h3, h4, ?_⟩
      intro k l hk hl hlt
      obtain ⟨v, hv⟩ := Board.get_isSome_of_isGrid b 3 3 hb k l ⟨by omega, by omega⟩
        ⟨by omega, by omega⟩
      refine ⟨v, hv, ?_⟩
      intro e
      rw [e] at hv
      exact h5 k l hl hlt hv
    · exfalso
      have hfull : b.full = true := by
        rw [Board.full_iff]
        intro i j v hv hv1
        obtain ⟨h1, h2, h3, h4⟩ := get_some_range b 3 3 hb i j v hv
        have := hall i.toNat j.toNat (by omega) (by omega)
        rw [Int.toNat_of_nonneg h1, Int.toNat_of_nonneg h3, hv, hv1] at this
        exact this rfl
      rw [hfull] at hf
      cases hf

theorem C16_fallback_is_naive_witness :
    (Board.mk [[1, 0, -1], [-1, -1, -1], [-1, -1, -1]]).IsGrid 3 3 ∧
    CleverAI.chooseMove 0 (Board.mk [[1, 0, -1], [-1, -1, -1], [-1, -1, -1]]) =
      some ⟨0, 2, 0⟩ ∧
    ∃ m, CleverAI.chooseMove 0 (Board.mk [[1, 0, -1], [-1, -1, -1], [-1, -1, -1]]) = some m ∧
      DumbAI.chooseMove 0 (Board.mk [[1, 0, -1], [-1, -1, -1], [-1, -1, -1]]) = some m ∧
      ((Board.mk [[1, 0, -1], [-1, -1, -1], [-1, -1, -1]]).full = true → m = ⟨0, 0, 0⟩) ∧
      ((Board.mk [[1, 0, -1], [-1, -1, -1], [-1, -1, -1]]).full = false →
        ∃ i j : Nat, i < 3 ∧ j < 3 ∧ m = ⟨i, j, 0⟩ ∧
          (Board.mk [[1, 0, -1], [-1, -1, -1], [-1, -1, -1]]).get i j = some (-1) ∧
          ∀ k l : Nat, k < 3 → l < 3 → (k < i ∨ (k = i ∧ l < j)) →
            ∃ v, (Board.mk [[1, 0, -1], [-1, -1, -1], [-1, -1, -1]]).get k l = some v ∧
              v ≠ -1) :=
  ⟨by decide, by decide,
    C16_fallback_is_naive (Board.mk [[1, 0, -1], [-1, -1, -1], [-1, -1, -1]]) 0 (by decide)
      (by decide) (by decide) (by decide)⟩

/-- C18: when every human half-move is an accepted in-bounds move on an Empty cell, the
loop of `play()` started by the constructor stops after at most 9 passes, so that `play`
returns with any fuel of at least 9; every pass lowers the number of Empty cells by
exactly one, and the loop test fails as soon as the board is full or has a winner. -/
theorem C18_loop_terminates (twoPlayers : Bool) (difficulty : Int) (name1 name2 : String)
    (symbol1 : Char) (inp : List (Int × Int)) (out : String)
    (hacc : (ConsoleRunner.mk (Game.new twoPlayers difficulty name1 symbol1 name2)
      inp out).humanMovesAccepted 9 = true) :
    (∃ k r t, k ≤ 9 ∧
      (ConsoleRunner.mk (Game.new twoPlayers difficulty name1 symbol1 name2) inp out).passes
        k true = some (r, t) ∧
      ConsoleRunner.loopGuard r.game = some false ∧
      ∀ fuel, 9 ≤ fuel →
        (ConsoleRunner.mk (Game.new twoPlayers difficulty name1 symbol1 name2)
          inp out).playLoop fuel true = some (r, t) ∧
        ∃ res, (ConsoleRunner.mk (Game.new twoPlayers difficulty name1 symbol1 name2)
          inp out).play fuel = some res) ∧
    (∀ (k : Nat) (r : ConsoleRunner) (t : Bool),
      (ConsoleRunner.mk (Game.new twoPlayers difficulty name1 symbol1 name2) inp out).passes
        k true = some (r, t) →
      k ≤ 9 ∧ r.game.board.countCells (-1) + k = 9 ∧
      ∀ (r2 : ConsoleRunner) (t2 : Bool), ConsoleRunner.loopGuard r.game = some true →
        ConsoleRunner.playStep r t = some (r2, t2) →
        r2.game.board.countCells (-1) + 1 = r.game.board.countCells (-1)) ∧
    (∀ g : Game, (g.board.full = true ∨ ∃ w, g.victory = some w ∧ w ≠ -1) →
      ConsoleRunner.loopGuard g = some false) := by
  have hwf := new_wellFormed twoPlayers difficulty name1 name2 symbol1
  refine ⟨?_, ?_, fun g hg => loopGuard_exit g hg⟩
  · obtain ⟨k, r, t, hk, hp, hg⟩ := loop_exits _ hwf 9 hacc 9 0 _ true rfl
      (new_count_empty twoPlayers difficulty name1 name2 symbol1) (by omega)
    refine ⟨k, r, t, hk, hp, hg, ?_⟩
    intro fuel hfuel
    have hloop := playLoop_of_passes k _ r true t fuel hp hg (by omega)
    refine ⟨hloop, ?_⟩
    obtain ⟨hwf1, _⟩ := passes_invariant _ true hwf k r t hp
    obtain ⟨g1, hg1⟩ := resolveStatus_some r.game hwf1.1
    unfold ConsoleRunner.play
    rw [hloop]
    simp only [hg1]
    exact ⟨_, rfl⟩
  · intro k r t hp
    obtain ⟨hwf1, _, _, hc⟩ := passes_invariant _ true hwf k r t hp
    simp only at hc
    rw [new_count_empty] at hc
    refine ⟨by omega, hc, ?_⟩
    intro r2 t2 hg hs
    obtain ⟨_, _, i, j, _, _, hcount, _⟩ := playStep_placed r r2 t t2 hwf1 hg hs
    have hP := sourcePiece_wellFormed r.game hwf1 t
    have h1 := hcount (-1)
    have hne1 : ¬ (-1 : Int) = r.game.sourcePiece t := by omega
    rw [if_pos rfl, if_neg hne1] at h1
    omega

theorem C18_loop_terminates_witness :
    (ConsoleRunner.mk (Game.new false 2 "Gracz" 'X' "Player2")
      [(1, 1), (0, 1), (0, 2), (1, 0)] "").humanMovesAccepted 9 = true ∧
    (∃ r t, (ConsoleRunner.mk (Game.new false 2 "Gracz" 'X' "Player2")
        [(1, 1), (0, 1), (0, 2), (1, 0)] "").playLoop 9 true = some (r, t) ∧
      r.game.board = ⟨[[0, 1, 1], [1, 1, -1], [0, 0, 0]]⟩) ∧
    ∃ k r t, k ≤ 9 ∧
      (ConsoleRunner.mk (Game.new false 2 "Gracz" 'X' "Player2")
        [(1, 1), (0, 1), (0, 2), (1, 0)] "").passes k true = some (r, t) ∧
      ConsoleRunner.loopGuard r.game = some false ∧
      ∀ fuel, 9 ≤ fuel →
        (ConsoleRunner.mk (Game.new false 2 "Gracz" 'X' "Player2")
          [(1, 1), (0, 1), (0, 2), (1, 0)] "").playLoop fuel true = some (r, t) ∧
        ∃ res, (ConsoleRunner.mk (Game.new false 2 "Gracz" 'X' "Player2")
          [(1, 1), (0, 1), (0, 2), (1, 0)] "").play fuel = some res :=
  ⟨by decide, ⟨_, _, rfl, rfl⟩,
    (C18_loop_terminates false 2 "Gracz" "Player2" 'X' [(1, 1), (0, 1), (0, 2), (1, 0)] ""
      (by decide)).1⟩

/-- C19: in every state that the loop of `play()` reaches from the constructor's game, at
most one of the pieces `0` and `1` has three in a line; every state in which a pass
starts has no winner and is not full; and `victory()` is `-1` or the piece of the source
that made the last half-move, in every reached state and so in the state the loop
returns. -/
theorem C19_single_winner (twoPlayers : Bool) (difficulty : Int) (name1 name2 : String)
    (symbol1 : Char) (inp : List (Int × Int)) (out : String) :
    (∀ (k : Nat) (r : ConsoleRunner) (t : Bool),
      (ConsoleRunner.mk (Game.new twoPlayers difficulty name1 symbol1 name2) inp out).passes
        k true = some (r, t) →
      ¬ ((∃ L ∈ lines, lineAll r.game.board 0 L) ∧ ∃ L ∈ lines, lineAll r.game.board 1 L) ∧
      (∀ (j : Nat) (r1 : ConsoleRunner) (t1 : Bool), j < k →
        (ConsoleRunner.mk (Game.new twoPlayers difficulty name1 symbol1 name2)
          inp out).passes j true = some (r1, t1) →
        r1.game.victory = some (-1) ∧ r1.game.board.full = false) ∧
      ∃ w, r.game.victory = some w ∧
        (w = -1 ∨ (0 < k ∧
          w = (Game.new twoPlayers difficulty name1 symbol1 name2).sourcePiece (!t)))) ∧
    (∀ (fuel : Nat) (r : ConsoleRunner) (t : Bool),
      (ConsoleRunner.mk (Game.new twoPlayers difficulty name1 symbol1 name2)
        inp out).playLoop fuel true = some (r, t) →
      ∃ w, r.game.victory = some w ∧
        (w = -1 ∨ w = (Game.new twoPlayers difficulty name1 symbol1 name2).sourcePiece (!t))) := by
  have hwf := new_wellFormed twoPlayers difficulty name1 name2 symbol1
  have main : ∀ (k : Nat) (r : ConsoleRunner) (t : Bool),
      (ConsoleRunner.mk (Game.new twoPlayers difficulty name1 symbol1 name2) inp out).passes
        k true = some (r, t) →
      ¬ ((∃ L ∈ lines, lineAll r.game.board 0 L) ∧ ∃ L ∈ lines, lineAll r.game.board 1 L) ∧
      ∃ w, r.game.victory = some w ∧
        (w = -1 ∨ (0 < k ∧
          w = (Game.new twoPlayers difficulty name1 symbol1 name2).sourcePiece (!t))) := by
    intro k r t hp
    cases k with
    | zero =>
      unfold ConsoleRunner.passes at hp
      simp only [Option.some.injEq, Prod.mk.injEq] at hp
      rw [← hp.1]
      refine ⟨?_, -1, rfl, Or.inl rfl⟩
      show ¬ ((∃ L ∈ lines, lineAll (Board.new 3 3) 0 L) ∧
        ∃ L ∈ lines, lineAll (Board.new 3 3) 1 L)
      decide
    | succ n =>
      obtain ⟨r1, t1, hp1, hg, hs⟩ := passes_succ_inv n _ r true t hp
      obtain ⟨hwf1, hcfg1, _, _⟩ := passes_invariant _ true hwf n r1 t1 hp1
      obtain ⟨hwf2, _, _, _⟩ := passes_invariant _ true hwf (n + 1) r t hp
      obtain ⟨_, hv1⟩ := loopGuard_true r1.game hg
      obtain ⟨ht, _, i, j, _, hget, _, _⟩ := playStep_placed r1 r t1 t hwf1 hg hs
      rw [sourcePiece_congr _ r1.game hcfg1 t1] at hget
      have hline := line_after_place r1.game r.game hwf1.1 hv1 i j _ hget
      have ht1 : t1 = (!t) := by rw [ht]; simp
      refine ⟨?_, ?_⟩
      · rintro ⟨⟨L0, hL0, h0⟩, ⟨L1, hL1, h1⟩⟩
        have e0 := hline 0 L0 hL0 (by decide) h0
        have e1 := hline 1 L1 hL1 (by decide) h1
        rw [← e0] at e1
        exact absurd e1 (by decide)
      · obtain ⟨w, hw, _, hwl, _⟩ := victory_spec r.game hwf2.1
        refine ⟨w, hw, ?_⟩
        by_cases hw1 : w = -1
        · exact Or.inl hw1
        · obtain ⟨L, hL, hall⟩ := hwl hw1
          right
          refine ⟨Nat.succ_pos n, ?_⟩
          rw [← ht1]
          exact hline w L hL hw1 hall
  constructor
  · intro k r t hp
    obtain ⟨h1, h2⟩ := main k r t hp
    refine ⟨h1, ?_, h2⟩
    intro j r1 t1 hj hp1
    have hg := passes_prefix _ true k r r1 t t1 j hp hj hp1
    obtain ⟨hf, hv⟩ := loopGuard_true r1.game hg
    exact ⟨hv, hf⟩
  · intro fuel r t hloop
    obtain ⟨k, _, hp, _⟩ := passes_of_playLoop fuel _ r true t hloop
    obtain ⟨_, w, hw, hcase⟩ := main k r t hp
    refine ⟨w, hw, ?_⟩
    rcases hcase with h | ⟨_, h⟩
    · exact Or.inl h
    · exact Or.inr h

/-- C20: for `symbol1` in `{'X', 'O'}` the constructor gives player1 piece `1` for `'X'`
and `0` for `'O'`, player2 the other piece, and in vs-AI mode creates a `DumbAI` when
`difficulty == 1` and a `CleverAI` otherwise, holding the piece opposite to player1's;
the two sources that alternate on the board hold different pieces. -/
theorem C20_constructor_assigns_opposite_pieces (twoPlayers : Bool) (difficulty : Int)
    (name1 name2 : String) (symbol1 : Char) (hsym : symbol1 = 'X' ∨ symbol1 = 'O') :
    (Game.new twoPlayers difficulty name1 symbol1 name2).player1.symbol =
        (if symbol1 = 'X' then 1 else 0) ∧
    (Game.new twoPlayers difficulty name1 symbol1 name2).player2.symbol =
        1 - (Game.new twoPlayers difficulty name1 symbol1 name2).player1.symbol ∧
    (twoPlayers = true → (Game.new twoPlayers difficulty name1 symbol1 name2).pAI = none) ∧
    (twoPlayers = false →
      (Game.new twoPlayers difficulty name1 symbol1 name2).pAI =
        some (if difficulty = 1
          then AI.dumb (1 - (Game.new twoPlayers difficulty name1 symbol1 name2).player1.symbol)
          else AI.clever
            (1 - (Game.new twoPlayers difficulty name1 symbol1 name2).player1.symbol))) ∧
    (Game.new twoPlayers difficulty name1 symbol1 name2).sourcePiece true ≠
      (Game.new twoPlayers difficulty name1 symbol1 name2).sourcePiece false := by
  rcases hsym with rfl | rfl <;> cases twoPlayers <;>
    by_cases hd : difficulty = 1 <;>
    simp [Game.new, Player.new, Game.sourcePiece, AI.getSymbol, hd]

theorem C20_constructor_assigns_opposite_pieces_witness :
    ('X' = 'X' ∨ 'X' = 'O') ∧
    (Game.new false 2 "Gracz" 'X' "Player2").player1.symbol = 1 ∧
    (Game.new false 2 "Gracz" 'X' "Player2").player2.symbol = 0 ∧
    (Game.new false 2 "Gracz" 'X' "Player2").pAI = some (AI.clever 0) ∧
    (Game.new false 2 "Gracz" 'X' "Player2").sourcePiece true ≠
      (Game.new false 2 "Gracz" 'X' "Player2").sourcePiece false :=
  ⟨by decide, by decide, by decide, by decide,
    (C20_constructor_assigns_opposite_pieces false 2 "Gracz" "Player2" 'X' (by decide)).2.2.2.2⟩

end Kolko
